import Mathlib

/-!
VastVideo-Go: the type-mapping index

A shallow embedding of `components/type_mapping.go` and of the administrative
handlers of `components/type_mapping_api.go`.

Modelling conventions.

* A Go `map[K]V` that was created with `make` (or decoded from a JSON object) is
  a list of bindings read by first match (`MadeMap`); a map that may still be
  the nil map is a `GoMap`.  Ranging over a map visits every key once
  (`MadeMap.range`); the order of the visit is the order of the bindings, and
  since a theorem quantifies over every list of bindings it covers every
  iteration order Go may pick.
* Go `int` identifiers are `Int` (no arithmetic is performed on them), slices are
  lists, a nil pointer is `none`.
* A function that can end in a run-time panic returns an `Option`, `none` being
  the panic; a Go `error` result is an `Option String`, `none` being `nil`.
* The outcome of the environment (clock, file write, HTTP fetch) is an explicit
  argument of the function that consults it.
* Functions of the Go library whose code is not part of the repository
  (`unicode.ToLower`, `strconv.Atoi`, the conversion `int(v)` of a float64) are
  arguments of the functions that call them.
-/

namespace VastVideo

/-! ## Go maps -/

/-- A map that exists (made with `make`, or decoded from JSON): bindings, read by first match. -/
abbrev MadeMap (K V : Type) := List (K × V)

namespace MadeMap

variable {K V : Type} [DecidableEq K]

/-- The read `m[k]` with the comma-ok flag folded into the option. -/
def get : MadeMap K V → K → Option V
  | [], _ => none
  | (k, v) :: rest, x => if x = k then some v else get rest x

/-- The assignment `m[k] = v`: the old binding of `k`, if any, is replaced. -/
def set (m : MadeMap K V) (k : K) (v : V) : MadeMap K V :=
  (k, v) :: m.filter (fun p => !decide (p.1 = k))

/-- The builtin `delete(m, k)`. -/
def delete (m : MadeMap K V) (k : K) : MadeMap K V :=
  m.filter (fun p => !decide (p.1 = k))

/-- Bindings visited by `for k, v := range m`, skipping the keys in `seen`. -/
def rangeFrom : List K → MadeMap K V → List (K × V)
  | _, [] => []
  | seen, (k, v) :: rest =>
    if k ∈ seen then rangeFrom seen rest else (k, v) :: rangeFrom (k :: seen) rest

/-- Bindings visited by `for k, v := range m`: every key once, with the value `m[k]`. -/
def range (m : MadeMap K V) : List (K × V) := rangeFrom [] m

end MadeMap

/-- A Go map value: the nil map, or a map that exists. -/
inductive GoMap (K V : Type) where
  | nil : GoMap K V
  | made (entries : MadeMap K V) : GoMap K V
  deriving DecidableEq, Repr

namespace GoMap

variable {K V : Type} [DecidableEq K]

/-- Reading a nil map finds nothing. -/
def get : GoMap K V → K → Option V
  | nil, _ => none
  | made m, k => m.get k

/-- Assignment; writing into the nil map panics (`none`). -/
def set : GoMap K V → K → V → Option (GoMap K V)
  | nil, _, _ => none
  | made m, k, v => some (made (m.set k v))

/-- Deleting from the nil map is a no-op. -/
def delete : GoMap K V → K → GoMap K V
  | nil, _ => nil
  | made m, k => made (m.delete k)

/-- Ranging over the nil map runs zero iterations. -/
def range : GoMap K V → List (K × V)
  | nil => []
  | made m => m.range

end GoMap

/-! ## Data model (`type_mapping.go`, lines 16-65) -/

/-- Go struct `GlobalType`. -/
structure GlobalType where
  ID : String
  Name : String
  Description : String
  Priority : Int
  Enabled : Bool
  deriving DecidableEq, Repr

/-- Go struct `SourceType`. -/
structure SourceType where
  ID : Int
  Name : String
  GlobalType : String
  deriving DecidableEq, Repr

/-- Go struct `SourceMapping`. -/
structure SourceMapping where
  Name : String
  Enabled : Bool
  TypeList : List SourceType
  deriving DecidableEq, Repr

/-- Go struct `TypeMappingConfig`: the mapping document. -/
structure TypeMappingConfig where
  Version : String
  Description : String
  LastUpdated : String
  GlobalTypes : GoMap String GlobalType
  SourceMappings : GoMap String SourceMapping
  deriving DecidableEq, Repr

/-- Go struct `TypeMappingManager` (the lock is not modelled; `config` is a pointer).
The three caches are only ever assigned from `make`, so they are never the nil map. -/
structure TypeMappingManager where
  config : Option TypeMappingConfig
  configPath : String
  typeCache : MadeMap String (MadeMap Int String)
  reverseCache : MadeMap String (MadeMap String (List Int))
  nameCache : MadeMap String (MadeMap Int String)
  deriving DecidableEq, Repr

/-- Go `NewTypeMappingManager`. -/
def NewTypeMappingManager (configPath : String) : TypeMappingManager :=
  { config := none, configPath := configPath, typeCache := [], reverseCache := [], nameCache := [] }

/-! ## The index (`buildCache` and the three lookups) -/

/-- Body of the inner loop of `buildCache` (lines 118-131) for one `sourceType` of
source `sourceCode`.  `tmm.typeCache[sourceCode]` and its two siblings were stored by the
enclosing iteration, so the inner maps read here exist. -/
def buildCacheType (sourceCode : String) (tmm : TypeMappingManager) (sourceType : SourceType) :
    TypeMappingManager :=
  let typeInner := (tmm.typeCache.get sourceCode).getD []
  let nameInner := (tmm.nameCache.get sourceCode).getD []
  let revInner := (tmm.reverseCache.get sourceCode).getD []
  let revInner1 :=
    if revInner.get sourceType.GlobalType = none then revInner.set sourceType.GlobalType []
    else revInner
  let revInner2 :=
    revInner1.set sourceType.GlobalType
      ((revInner1.get sourceType.GlobalType).getD [] ++ [sourceType.ID])
  { tmm with
    typeCache := tmm.typeCache.set sourceCode (typeInner.set sourceType.ID sourceType.GlobalType)
    nameCache := tmm.nameCache.set sourceCode (nameInner.set sourceType.ID sourceType.Name)
    reverseCache := tmm.reverseCache.set sourceCode revInner2 }

/-- Body of the outer loop of `buildCache` (lines 111-132) for one source. -/
def buildCacheSource (tmm : TypeMappingManager) (entry : String × SourceMapping) :
    TypeMappingManager :=
  let tmm1 : TypeMappingManager :=
    { tmm with
      typeCache := tmm.typeCache.set entry.1 []
      reverseCache := tmm.reverseCache.set entry.1 []
      nameCache := tmm.nameCache.set entry.1 [] }
  entry.2.TypeList.foldl (buildCacheType entry.1) tmm1

/-- Go `buildCache`: the three caches are replaced by fresh maps and refilled from the
document.  With a nil `config` the dereference `tmm.config.SourceMappings` panics. -/
def buildCache (tmm : TypeMappingManager) : Option TypeMappingManager :=
  match tmm.config with
  | none => none
  | some config =>
    some (config.SourceMappings.range.foldl buildCacheSource
      { tmm with typeCache := [], reverseCache := [], nameCache := [] })

/-- Go `GetGlobalType`. -/
def GetGlobalType (tmm : TypeMappingManager) (sourceCode : String) (sourceTypeID : Int) :
    String × Bool :=
  match tmm.typeCache.get sourceCode with
  | some sourceCache =>
    match sourceCache.get sourceTypeID with
    | some globalType => (globalType, true)
    | none => ("", false)
  | none => ("", false)

/-- Go `GetSourceTypeIDs`. -/
def GetSourceTypeIDs (tmm : TypeMappingManager) (sourceCode globalTypeCode : String) :
    List Int × Bool :=
  match tmm.reverseCache.get sourceCode with
  | some sourceCache =>
    match sourceCache.get globalTypeCode with
    | some sourceTypeIDs => (sourceTypeIDs, true)
    | none => ([], false)
  | none => ([], false)

/-- Go `GetSourceTypeName`. -/
def GetSourceTypeName (tmm : TypeMappingManager) (sourceCode : String) (sourceTypeID : Int) :
    String × Bool :=
  match tmm.nameCache.get sourceCode with
  | some sourceCache =>
    match sourceCache.get sourceTypeID with
    | some typeName => (typeName, true)
    | none => ("", false)
  | none => ("", false)

/-- Go `GetGlobalTypes`: the nil map when no document is loaded. -/
def GetGlobalTypes (tmm : TypeMappingManager) : GoMap String GlobalType :=
  match tmm.config with
  | none => GoMap.nil
  | some config => config.GlobalTypes

/-- Go `GetSourceMappings`: the nil map when no document is loaded. -/
def GetSourceMappings (tmm : TypeMappingManager) : GoMap String SourceMapping :=
  match tmm.config with
  | none => GoMap.nil
  | some config => config.SourceMappings

/-- Go `GetSourceMapping`: a copy of the mapping of `sourceCode`, if there is one. -/
def GetSourceMapping (tmm : TypeMappingManager) (sourceCode : String) : Option SourceMapping :=
  match tmm.config with
  | none => none
  | some config => config.SourceMappings.get sourceCode

/-! ## The classifier (`smartMapType`, lines 403-454) -/

/-- Whether the characters `sub` stand at the head of the first list. -/
def startsWith : List Char → List Char → Bool
  | _, [] => true
  | [], _ :: _ => false
  | c :: cs, d :: ds => c == d && startsWith cs ds

/-- Whether the characters `sub` occur contiguously somewhere in the first list. -/
def containsChars : List Char → List Char → Bool
  | [], sub => startsWith [] sub
  | c :: cs, sub => startsWith (c :: cs) sub || containsChars cs sub

/-- Go `strings.Contains`.  Names come out of `encoding/json` and keywords are literals, so
both are valid UTF-8, where a byte-wise occurrence is a character-wise occurrence. -/
def stringsContains (s substr : String) : Bool := containsChars s.data substr.data

/-- Go `strings.ToLower`: every character is mapped through `unicode.ToLower`.  The case
table of the Go library is not part of the repository and is the argument `lower`. -/
def stringsToLower (lower : Char → Char) (s : String) : String := String.mk (s.data.map lower)

/-- Go `smartMapType`: the seven keyword sets are tried in source order. -/
def smartMapType (lower : Char → Char) (sourceTypeName : String) : String :=
  let sourceTypeName := stringsToLower lower sourceTypeName
  if stringsContains sourceTypeName "电影" || stringsContains sourceTypeName "动作" ||
      stringsContains sourceTypeName "喜剧" || stringsContains sourceTypeName "爱情" ||
      stringsContains sourceTypeName "科幻" || stringsContains sourceTypeName "恐怖" ||
      stringsContains sourceTypeName "剧情" || stringsContains sourceTypeName "战争" ||
      stringsContains sourceTypeName "理论" || stringsContains sourceTypeName "动画片" then
    "movie"
  else if stringsContains sourceTypeName "连续剧" || stringsContains sourceTypeName "国产剧" ||
      stringsContains sourceTypeName "香港剧" || stringsContains sourceTypeName "韩国剧" ||
      stringsContains sourceTypeName "台湾剧" || stringsContains sourceTypeName "日本剧" ||
      stringsContains sourceTypeName "海外剧" || stringsContains sourceTypeName "泰国剧" ||
      stringsContains sourceTypeName "欧美剧" || stringsContains sourceTypeName "短剧" then
    "tv"
  else if stringsContains sourceTypeName "综艺" || stringsContains sourceTypeName "娱乐" then
    "variety"
  else if stringsContains sourceTypeName "动漫" || stringsContains sourceTypeName "动画" ||
      stringsContains sourceTypeName "日韩动漫" || stringsContains sourceTypeName "欧美动漫" ||
      stringsContains sourceTypeName "港台动漫" || stringsContains sourceTypeName "海外动漫" then
    "anime"
  else if stringsContains sourceTypeName "纪录片" || stringsContains sourceTypeName "记录片" then
    "documentary"
  else if stringsContains sourceTypeName "体育" || stringsContains sourceTypeName "足球" ||
      stringsContains sourceTypeName "篮球" || stringsContains sourceTypeName "网球" ||
      stringsContains sourceTypeName "斯诺克" then
    "sport"
  else if stringsContains sourceTypeName "福利" || stringsContains sourceTypeName "伦理" then
    "adult"
  else
    ""

/-! ## Commit (`UpdateConfig`, `saveConfig`) -/

/-- Go `saveConfig`.  `json.MarshalIndent` cannot fail on a `TypeMappingConfig` (strings,
integers, booleans and string-keyed maps only); `writeErr` is what `os.WriteFile` returns. -/
def saveConfig (tmm : TypeMappingManager) (writeErr : Option String) : Option String :=
  match tmm.config with
  | none => some "配置为空"
  | some _ =>
    match writeErr with
    | some err => some ("保存配置文件失败: " ++ err)
    | none => none

/-- Go `UpdateConfig`: the document is replaced and stamped with the time `now`, the caches
are rebuilt, and only then is the file written; the result of the write is returned. -/
def UpdateConfig (tmm : TypeMappingManager) (newConfig : TypeMappingConfig) (now : String)
    (writeErr : Option String) : Option (TypeMappingManager × Option String) :=
  let tmm1 : TypeMappingManager := { tmm with config := some { newConfig with LastUpdated := now } }
  match buildCache tmm1 with
  | none => none
  | some tmm2 => some (tmm2, saveConfig tmm2 writeErr)

/-! ## Sync (`AutoUpdateMapping`, lines 325-400) -/

/-- Lines 353-366 of `AutoUpdateMapping`: the fetched records whose id no entry of
`newTypeList` (the copy of the existing list) has. -/
def unmappedTypes (newTypeList sourceTypes : List SourceType) : List SourceType :=
  sourceTypes.filter fun sourceType =>
    !(newTypeList.any fun existingType => existingType.ID == sourceType.ID)

/-- Body of the loop at lines 372-382: the classifier result is stored when it is not empty. -/
def smartMapOne (lower : Char → Char) (unmapped : SourceType) : SourceType :=
  let globalType := smartMapType lower unmapped.Name
  if globalType ≠ "" then { unmapped with GlobalType := globalType } else unmapped

/-- Lines 345-386 of `AutoUpdateMapping`: the merged type list. -/
def mergeTypeList (lower : Char → Char) (existing sourceTypes : List SourceType) :
    List SourceType :=
  existing ++ (unmappedTypes existing sourceTypes).map (smartMapOne lower)

/-- Go `AutoUpdateMapping`.  `fetched` is what the call `tmm.FetchSourceTypes(sourceCode,
sourceURL)` returned.  `newConfig := *tmm.config` copies the struct but shares its maps, so
the assignment at line 397 already writes into the map of the current document; it panics
when that map is nil, and the dereference panics when no document is loaded. -/
def AutoUpdateMapping (lower : Char → Char) (tmm : TypeMappingManager) (sourceCode : String)
    (fetched : Except String (List SourceType)) (now : String) (writeErr : Option String) :
    Option (TypeMappingManager × Option String) :=
  match fetched with
  | Except.error err => some (tmm, some ("获取源类型失败: " ++ err))
  | Except.ok sourceTypes =>
    let currentMapping : SourceMapping :=
      match GetSourceMapping tmm sourceCode with
      | some mapping => mapping
      | none => { Name := sourceCode, Enabled := true, TypeList := [] }
    let newMapping : SourceMapping :=
      { Name := currentMapping.Name
        Enabled := currentMapping.Enabled
        TypeList := mergeTypeList lower currentMapping.TypeList sourceTypes }
    match tmm.config with
    | none => none
    | some config =>
      match config.SourceMappings.set sourceCode newMapping with
      | none => none
      | some sourceMappings =>
        UpdateConfig tmm { config with SourceMappings := sourceMappings } now writeErr

/-! ## Administrative handlers (`type_mapping_api.go`) -/

/-- What a handler writes: the HTTP status, the `success` field of the JSON body (absent
for the plain-text replies of `http.Error`) and the message. -/
structure Response where
  status : Nat
  success : Option Bool
  message : String
  deriving DecidableEq, Repr

/-- Go `handleDeleteGlobalType`; `typeID` is the query parameter `id` (empty when missing). -/
def handleDeleteGlobalType (tmm : TypeMappingManager) (typeID : String) (now : String)
    (writeErr : Option String) : Option (TypeMappingManager × Response) :=
  if typeID = "" then
    some (tmm, { status := 400, success := none, message := "Missing type ID" })
  else
    match (GetGlobalTypes tmm).get typeID with
    | none => some (tmm, { status := 404, success := some false, message := "Global type not found" })
    | some _ =>
      if (GetSourceMappings tmm).range.any fun entry =>
          entry.2.TypeList.any fun sourceType => sourceType.GlobalType == typeID then
        some (tmm, { status := 409, success := some false,
                     message := "Cannot delete global type that is being used by source mappings" })
      else
        match tmm.config with
        | none => none
        | some config =>
          match UpdateConfig tmm { config with GlobalTypes := config.GlobalTypes.delete typeID }
              now writeErr with
          | none => none
          | some (tmm1, some err) =>
            some (tmm1, { status := 500, success := some false,
                          message := "Failed to update config: " ++ err })
          | some (tmm1, none) =>
            some (tmm1, { status := 200, success := some true,
                          message := "Global type deleted successfully" })

/-- The tail shared by the mutating handlers: `UpdateConfig` is called with the new document,
a failure is answered with status 500 and success with `okMessage`. -/
def commitAndRespond (tmm : TypeMappingManager) (newConfig : TypeMappingConfig) (now : String)
    (writeErr : Option String) (okMessage : String) : Option (TypeMappingManager × Response) :=
  match UpdateConfig tmm newConfig now writeErr with
  | none => none
  | some (tmm1, some err) =>
    some (tmm1, { status := 500, success := some false,
                  message := "Failed to update config: " ++ err })
  | some (tmm1, none) => some (tmm1, { status := 200, success := some true, message := okMessage })

/-- Go `handleCreateGlobalType`; `body` is the decoded request body (`none` when decoding
fails).  `*tmm.config` panics when no document is loaded. -/
def handleCreateGlobalType (tmm : TypeMappingManager) (body : Option GlobalType) (now : String)
    (writeErr : Option String) : Option (TypeMappingManager × Response) :=
  match body with
  | none => some (tmm, { status := 400, success := none, message := "Invalid JSON" })
  | some globalType =>
    if globalType.ID = "" ∨ globalType.Name = "" then
      some (tmm, { status := 400, success := none, message := "Missing required fields" })
    else
      match (GetGlobalTypes tmm).get globalType.ID with
      | some _ =>
        some (tmm, { status := 409, success := some false, message := "Global type already exists" })
      | none =>
        match tmm.config with
        | none => none
        | some config =>
          let globalTypes : MadeMap String GlobalType :=
            match config.GlobalTypes with
            | GoMap.nil => []
            | GoMap.made m => m
          commitAndRespond tmm
            { config with GlobalTypes := GoMap.made (globalTypes.set globalType.ID globalType) }
            now writeErr "Global type created successfully"

/-- Go `handleUpdateGlobalType`. -/
def handleUpdateGlobalType (tmm : TypeMappingManager) (body : Option GlobalType) (now : String)
    (writeErr : Option String) : Option (TypeMappingManager × Response) :=
  match body with
  | none => some (tmm, { status := 400, success := none, message := "Invalid JSON" })
  | some globalType =>
    if globalType.ID = "" ∨ globalType.Name = "" then
      some (tmm, { status := 400, success := none, message := "Missing required fields" })
    else
      match (GetGlobalTypes tmm).get globalType.ID with
      | none =>
        some (tmm, { status := 404, success := some false, message := "Global type not found" })
      | some _ =>
        match tmm.config with
        | none => none
        | some config =>
          match config.GlobalTypes.set globalType.ID globalType with
          | none => none
          | some globalTypes =>
            commitAndRespond tmm { config with GlobalTypes := globalTypes } now writeErr
              "Global type updated successfully"

/-- The check at lines 366-381 (and 439-454): the first entry of the type list whose global
type is not empty and is no key of `globalTypes`, if there is one. -/
def firstUnknownGlobalType (globalTypes : GoMap String GlobalType) (typeList : List SourceType) :
    Option SourceType :=
  typeList.find? fun sourceType =>
    !decide (sourceType.GlobalType = "") && (globalTypes.get sourceType.GlobalType).isNone

/-- Go `handleCreateSourceMapping`; `sourceCode` is the query parameter `source_code`. -/
def handleCreateSourceMapping (tmm : TypeMappingManager) (body : Option SourceMapping)
    (sourceCode : String) (now : String) (writeErr : Option String) :
    Option (TypeMappingManager × Response) :=
  match body with
  | none => some (tmm, { status := 400, success := none, message := "Invalid JSON" })
  | some sourceMapping =>
    if sourceCode = "" then
      some (tmm, { status := 400, success := none, message := "Missing source code" })
    else
      match (GetSourceMappings tmm).get sourceCode with
      | some _ =>
        some (tmm, { status := 409, success := some false,
                     message := "Source mapping already exists" })
      | none =>
        match firstUnknownGlobalType (GetGlobalTypes tmm) sourceMapping.TypeList with
        | some sourceType =>
          some (tmm, { status := 400, success := some false,
                       message := "Global type '" ++ sourceType.GlobalType ++ "' not found" })
        | none =>
          match tmm.config with
          | none => none
          | some config =>
            let sourceMappings : MadeMap String SourceMapping :=
              match config.SourceMappings with
              | GoMap.nil => []
              | GoMap.made m => m
            commitAndRespond tmm
              { config with SourceMappings := GoMap.made (sourceMappings.set sourceCode sourceMapping) }
              now writeErr "Source mapping created successfully"

/-- Go `handleUpdateSourceMapping`. -/
def handleUpdateSourceMapping (tmm : TypeMappingManager) (body : Option SourceMapping)
    (sourceCode : String) (now : String) (writeErr : Option String) :
    Option (TypeMappingManager × Response) :=
  match body with
  | none => some (tmm, { status := 400, success := none, message := "Invalid JSON" })
  | some sourceMapping =>
    if sourceCode = "" then
      some (tmm, { status := 400, success := none, message := "Missing source code" })
    else
      match (GetSourceMappings tmm).get sourceCode with
      | none =>
        some (tmm, { status := 404, success := some false, message := "Source mapping not found" })
      | some _ =>
        match firstUnknownGlobalType (GetGlobalTypes tmm) sourceMapping.TypeList with
        | some sourceType =>
          some (tmm, { status := 400, success := some false,
                       message := "Global type '" ++ sourceType.GlobalType ++ "' not found" })
        | none =>
          match tmm.config with
          | none => none
          | some config =>
            match config.SourceMappings.set sourceCode sourceMapping with
            | none => none
            | some sourceMappings =>
              commitAndRespond tmm { config with SourceMappings := sourceMappings } now writeErr
                "Source mapping updated successfully"

/-- Go `handleDeleteSourceMapping`. -/
def handleDeleteSourceMapping (tmm : TypeMappingManager) (sourceCode : String) (now : String)
    (writeErr : Option String) : Option (TypeMappingManager × Response) :=
  if sourceCode = "" then
    some (tmm, { status := 400, success := none, message := "Missing source code" })
  else
    match (GetSourceMappings tmm).get sourceCode with
    | none =>
      some (tmm, { status := 404, success := some false, message := "Source mapping not found" })
    | some _ =>
      match tmm.config with
      | none => none
      | some config =>
        commitAndRespond tmm { config with SourceMappings := config.SourceMappings.delete sourceCode }
          now writeErr "Source mapping deleted successfully"

/-- Invariant I1 of a document: every non-empty global type of an entry of a source mapping
is a key of the global types. -/
def SatisfiesI1 (D : TypeMappingConfig) : Prop :=
  ∀ S M e, D.SourceMappings.get S = some M → e ∈ M.TypeList → e.GlobalType ≠ "" →
    D.GlobalTypes.get e.GlobalType ≠ none

/-! ## Auxiliary definitions for the proofs -/

/-- One step of the forward (or name) index of a single source: `f e` is stored under the id. -/
def indexByID (f : SourceType → String) (inner : MadeMap Int String) (e : SourceType) :
    MadeMap Int String :=
  inner.set e.ID (f e)

/-- One step of the reverse index of a single source: the id is appended under the code. -/
def indexReverse (inner : MadeMap String (List Int)) (e : SourceType) :
    MadeMap String (List Int) :=
  let inner1 := if inner.get e.GlobalType = none then inner.set e.GlobalType [] else inner
  inner1.set e.GlobalType ((inner1.get e.GlobalType).getD [] ++ [e.ID])

/-- Ids of the entries of a type list that carry the global type code `G`, in list order. -/
def idsOfGlobalType (G : String) (typeList : List SourceType) : List Int :=
  (typeList.filter fun e => decide (e.GlobalType = G)).map SourceType.ID

/-- The mapping a sync of source `S` starts from (lines 334-343 of `AutoUpdateMapping`). -/
def currentMapping (sms : MadeMap String SourceMapping) (S : String) : SourceMapping :=
  (sms.get S).getD { Name := S, Enabled := true, TypeList := [] }

/-- The document a sync of source `S` with fetched list `F` commits at time `now`, when the
document was `D` with the source mappings `sms`. -/
def syncedConfig (lower : Char → Char) (D : TypeMappingConfig)
    (sms : MadeMap String SourceMapping) (S : String) (F : List SourceType) (now : String) :
    TypeMappingConfig :=
  { D with
    SourceMappings := GoMap.made (sms.set S
      { Name := (currentMapping sms S).Name
        Enabled := (currentMapping sms S).Enabled
        TypeList := mergeTypeList lower (currentMapping sms S).TypeList F })
    LastUpdated := now }

/-- The type list a source has in a document: empty when the source has no mapping. -/
def existingTypeList (D : TypeMappingConfig) (S : String) : List SourceType :=
  match D.SourceMappings.get S with
  | some M => M.TypeList
  | none => []

/-! ## The keyword table of the classifier, as data -/

/-- Keywords tested at lines 407-411 of `smartMapType`. -/
def movieKeywords : List String :=
  ["电影", "动作", "喜剧", "爱情", "科幻", "恐怖", "剧情", "战争", "理论", "动画片"]

/-- Keywords tested at lines 416-420. -/
def tvKeywords : List String :=
  ["连续剧", "国产剧", "香港剧", "韩国剧", "台湾剧", "日本剧", "海外剧", "泰国剧", "欧美剧", "短剧"]

/-- Keywords tested at line 425. -/
def varietyKeywords : List String := ["综艺", "娱乐"]

/-- Keywords tested at lines 430-432. -/
def animeKeywords : List String := ["动漫", "动画", "日韩动漫", "欧美动漫", "港台动漫", "海外动漫"]

/-- Keywords tested at line 437. -/
def documentaryKeywords : List String := ["纪录片", "记录片"]

/-- Keywords tested at lines 442-444. -/
def sportKeywords : List String := ["体育", "足球", "篮球", "网球", "斯诺克"]

/-- Keywords tested at line 449. -/
def adultKeywords : List String := ["福利", "伦理"]

/-- The seven keyword sets of `smartMapType` with their category codes, in source order. -/
def keywordSets : List (String × List String) :=
  [("movie", movieKeywords), ("tv", tvKeywords), ("variety", varietyKeywords),
   ("anime", animeKeywords), ("documentary", documentaryKeywords), ("sport", sportKeywords),
   ("adult", adultKeywords)]

/-- Whether some keyword of the set occurs in the (already lower-cased) name. -/
def matchesSet (lowered : String) (set : String × List String) : Bool :=
  set.2.any fun kw => stringsContains lowered kw

/-- The code of the first set of `keywordSets`, in order, one of whose keywords occurs in the
(already lower-cased) name; the empty string when no set matches. -/
def firstMatch (lowered : String) : String :=
  match keywordSets.find? (matchesSet lowered) with
  | some set => set.1
  | none => ""

/-- The chain of tests of `smartMapType`, given the outcome of each of the seven tests. -/
def classifyChain (b1 b2 b3 b4 b5 b6 b7 : Bool) : String :=
  if b1 then "movie" else if b2 then "tv" else if b3 then "variety" else if b4 then "anime"
  else if b5 then "documentary" else if b6 then "sport" else if b7 then "adult" else ""

/-! ## The fetch adapter (`FetchSourceTypes`, lines 246-322) -/

/-- A value as `encoding/json` decodes it into an `interface{}`: nil, bool, float64, string,
`[]interface{}` or `map[string]interface{}`.  A decoded number is a finite float64, held
here as the rational it denotes. -/
inductive JSONValue where
  | null : JSONValue
  | bool (b : Bool) : JSONValue
  | number (v : ℚ) : JSONValue
  | string (s : String) : JSONValue
  | array (items : List JSONValue) : JSONValue
  | object (fields : List (String × JSONValue)) : JSONValue

/-- Go `getStringFromTypeMapping`: the string under `key`, or the empty string. -/
def getStringFromTypeMapping (m : MadeMap String JSONValue) (key : String) : String :=
  match m.get key with
  | some (JSONValue.string str) => str
  | _ => ""

/-- Go `getInt`.  The conversion `int(v)` of a float64 and `strconv.Atoi` belong to the Go
library and are the arguments `intOfFloat` and `atoi`; the case `int` of the type switch
cannot occur for a decoded value. -/
def getInt (atoi : String → Option Int) (intOfFloat : ℚ → Int) (m : MadeMap String JSONValue)
    (key : String) : Int :=
  match m.get key with
  | some (JSONValue.number v) => intOfFloat v
  | some (JSONValue.string v) =>
    match atoi v with
    | some i => i
    | none => 0
  | _ => 0

/-- Lines 296-313: the record appended for one element of the `class` array, if any.  The
parent id `type_pid` is read by the source only to be logged. -/
def sourceTypeOfItem (atoi : String → Option Int) (intOfFloat : ℚ → Int) (item : JSONValue) :
    Option SourceType :=
  match item with
  | JSONValue.object typeMap =>
    let typeID := getInt atoi intOfFloat typeMap "type_id"
    let typeName := getStringFromTypeMapping typeMap "type_name"
    if typeID > 0 ∧ typeName ≠ "" then
      some { ID := typeID, Name := typeName, GlobalType := "" }
    else none
  | _ => none

/-- Lines 290-315: the loop over `result["class"]`, when that is an array. -/
def extractSourceTypes (atoi : String → Option Int) (intOfFloat : ℚ → Int)
    (result : GoMap String JSONValue) : List SourceType :=
  match result.get "class" with
  | some (JSONValue.array cls) =>
    cls.foldl
      (fun sourceTypes item =>
        match sourceTypeOfItem atoi intOfFloat item with
        | some sourceType => sourceTypes ++ [sourceType]
        | none => sourceTypes)
      []
  | _ => []

/-- What reading and decoding the body of a response gave. -/
inductive BodyOutcome where
  | readError (err : String) : BodyOutcome
  | parseError (err : String) : BodyOutcome
  | decoded (result : GoMap String JSONValue) : BodyOutcome

/-- What the HTTP exchange of `FetchSourceTypes` gave. -/
inductive HTTPOutcome where
  | newRequestError (err : String) : HTTPOutcome
  | doError (err : String) : HTTPOutcome
  | response (statusCode : Int) (body : BodyOutcome) : HTTPOutcome

/-- Go `getMapKeysFromTypeMapping`, printed with `%v`. -/
def formatKeys (result : GoMap String JSONValue) : String :=
  "[" ++ " ".intercalate (result.range.map Prod.fst) ++ "]"

/-- Go `FetchSourceTypes`, given the outcome of its HTTP exchange. -/
def FetchSourceTypes (atoi : String → Option Int) (intOfFloat : ℚ → Int)
    (outcome : HTTPOutcome) : Except String (List SourceType) :=
  match outcome with
  | HTTPOutcome.newRequestError err => Except.error ("创建请求失败: " ++ err)
  | HTTPOutcome.doError err => Except.error ("请求失败: " ++ err)
  | HTTPOutcome.response statusCode body =>
    if statusCode ≠ 200 then Except.error ("HTTP错误: " ++ toString statusCode)
    else
      match body with
      | BodyOutcome.readError err => Except.error ("读取响应失败: " ++ err)
      | BodyOutcome.parseError err => Except.error ("解析JSON失败: " ++ err)
      | BodyOutcome.decoded result =>
        let sourceTypes := extractSourceTypes atoi intOfFloat result
        if sourceTypes.length = 0 then
          Except.error ("未找到类型数据，响应结构: " ++ formatKeys result)
        else Except.ok sourceTypes

/-- An element of the `class` array with its `type_pid` replaced by `pid`. -/
def withTypePID (pid : JSONValue) (item : JSONValue) : JSONValue :=
  match item with
  | JSONValue.object typeMap => JSONValue.object (MadeMap.set typeMap "type_pid" pid)
  | other => other

/-- A response body with three records: a usable one, one with id 0, one without a name. -/
def sampleClass : List JSONValue :=
  [JSONValue.object [("type_id", JSONValue.number 1), ("type_name", JSONValue.string "电影"),
                     ("type_pid", JSONValue.number 0)],
   JSONValue.object [("type_id", JSONValue.number 0), ("type_name", JSONValue.string "空")],
   JSONValue.object [("type_id", JSONValue.string "7"), ("type_name", JSONValue.string "")],
   JSONValue.object [("type_id", JSONValue.string "20"), ("type_name", JSONValue.string "国产剧"),
                     ("type_pid", JSONValue.number 2)]]

/-! ## Batch initialisation (`InitializeAllSourcesFromConfig`, lines 609-672) -/

/-- An entry of `sources` in the sources file (the anonymous struct of lines 618-623). -/
structure SourceEntry where
  Name : String
  URL : String
  IsDefault : Bool
  Enabled : Bool
  deriving DecidableEq, Repr

/-- What reading and decoding the sources file gave; `sources` is nil when the key is absent. -/
inductive SourcesFile where
  | readError (err : String) : SourcesFile
  | parseError (err : String) : SourcesFile
  | decoded (sources : GoMap String SourceEntry) : SourcesFile

/-- What the environment gives during one batch: for each source code the HTTP exchange of
its fetch (which also depends on the URL), the time and the file-write result of its commit,
and the result of the file write that ends the batch. -/
structure BatchEnv where
  http : String → String → HTTPOutcome
  now : String → String
  writeErr : String → Option String
  finalWriteErr : Option String

/-- Body of the loop at lines 637-668 for one entry of `config.Sources`. -/
def initOneSource (lower : Char → Char) (atoi : String → Option Int) (intOfFloat : ℚ → Int)
    (env : BatchEnv) (tmm : TypeMappingManager) (entry : String × SourceEntry) :
    Option TypeMappingManager :=
  if entry.2.Enabled = false then some tmm
  else
    match tmm.config with
    | none => none
    | some config =>
      match config.SourceMappings.get entry.1 with
      | some _ => some tmm
      | none =>
        match AutoUpdateMapping lower tmm entry.1
            (FetchSourceTypes atoi intOfFloat (env.http entry.1 entry.2.URL))
            (env.now entry.1) (env.writeErr entry.1) with
        | none => none
        | some (tmm1, some _) => some tmm1
        | some (tmm1, none) =>
          match tmm1.config with
          | none => none
          | some config1 =>
            match config1.SourceMappings.get entry.1 with
            | some mapping =>
              match config1.SourceMappings.set entry.1 { mapping with Name := entry.2.Name } with
              | none => none
              | some sourceMappings =>
                some { tmm1 with config := some { config1 with SourceMappings := sourceMappings } }
            | none => some tmm1

/-- The loop at lines 637-668 over the entries visited by `range config.Sources`. -/
def initLoop (lower : Char → Char) (atoi : String → Option Int) (intOfFloat : ℚ → Int)
    (env : BatchEnv) : List (String × SourceEntry) → TypeMappingManager →
    Option TypeMappingManager
  | [], tmm => some tmm
  | entry :: rest, tmm =>
    match initOneSource lower atoi intOfFloat env tmm entry with
    | none => none
    | some tmm1 => initLoop lower atoi intOfFloat env rest tmm1

/-- Go `InitializeAllSourcesFromConfig`, given what reading the sources file gave. -/
def InitializeAllSourcesFromConfig (lower : Char → Char) (atoi : String → Option Int)
    (intOfFloat : ℚ → Int) (tmm : TypeMappingManager) (file : SourcesFile) (env : BatchEnv) :
    Option (TypeMappingManager × Option String) :=
  match file with
  | SourcesFile.readError err => some (tmm, some ("读取配置文件失败: " ++ err))
  | SourcesFile.parseError err => some (tmm, some ("解析JSON配置文件失败: " ++ err))
  | SourcesFile.decoded sources =>
    match sources with
    | GoMap.nil => some (tmm, some "配置文件中未找到 sources 部分")
    | GoMap.made _ =>
      match initLoop lower atoi intOfFloat env sources.range tmm with
      | none => none
      | some tmm1 => some (tmm1, saveConfig tmm1 env.finalWriteErr)

/-- What one batch did to source `S`, listed in the sources file as `entry`, when the source
mappings were `sms` before and are `sms1` after: a disabled or already mapped source keeps
its state; an eligible source whose fetch fails stays without mapping; an eligible source
whose fetch succeeds has a mapping built from the fetched list. -/
def BatchOutcome (lower : Char → Char) (atoi : String → Option Int) (intOfFloat : ℚ → Int)
    (env : BatchEnv) (sms sms1 : MadeMap String SourceMapping) (S : String)
    (entry : SourceEntry) : Prop :=
  ((entry.Enabled = false ∨ sms.get S ≠ none) → sms1.get S = sms.get S) ∧
  (entry.Enabled = true → sms.get S = none →
    (∀ err, FetchSourceTypes atoi intOfFloat (env.http S entry.URL) = Except.error err →
      sms1.get S = none) ∧
    (∀ F, FetchSourceTypes atoi intOfFloat (env.http S entry.URL) = Except.ok F →
      ∃ M, sms1.get S = some M ∧ M.TypeList = mergeTypeList lower [] F))

/-- A sources file: `a`, `b`, `c` are enabled and new, `s` is enabled and already mapped in
`movieDoc`, `off` is disabled and mapped, `d` is disabled and new. -/
def batchSources : MadeMap String SourceEntry :=
  [("a", { Name := "源A", URL := "http://a.example/api", IsDefault := true, Enabled := true }),
   ("b", { Name := "源B", URL := "http://b.example/api", IsDefault := false, Enabled := true }),
   ("c", { Name := "源C", URL := "http://c.example/api", IsDefault := false, Enabled := true }),
   ("s", { Name := "源S", URL := "http://s.example/api", IsDefault := false, Enabled := true }),
   ("off", { Name := "源Off", URL := "http://off.example/api", IsDefault := false,
             Enabled := false }),
   ("d", { Name := "源D", URL := "http://d.example/api", IsDefault := false, Enabled := false })]

/-- A reading of `strconv.Atoi` that is right on the two strings `sampleClass` uses. -/
def sampleAtoi (s : String) : Option Int :=
  if s = "20" then some 20 else if s = "7" then some 7 else none

/-- Truncation toward zero: what Go's `int(v)` gives for a float64 in the range of `int`. -/
def truncToInt (v : ℚ) : Int :=
  if 0 ≤ v then v.floor else -((-v).floor)

/-- An environment in which the request to source `b` fails and every other source answers
with `sampleClass`; every file write succeeds. -/
def batchEnv : BatchEnv :=
  { http := fun sourceCode _ =>
      if sourceCode = "b" then HTTPOutcome.doError "timeout"
      else HTTPOutcome.response 200
        (BodyOutcome.decoded (GoMap.made [("class", JSONValue.array sampleClass)]))
    now := fun _ => "2024-06-01T00:00:00Z"
    writeErr := fun _ => none
    finalWriteErr := none }

/-- A decision procedure for I1 (see `satisfiesI1_of_check`). -/
def checkI1 (D : TypeMappingConfig) : Bool :=
  D.SourceMappings.range.all fun entry =>
    entry.2.TypeList.all fun e =>
      decide (e.GlobalType = "") || (D.GlobalTypes.get e.GlobalType).isSome

/-- A document as `json.Unmarshal` leaves it when the file has no `source_mappings` key: the
source-mapping map is the nil map. -/
def nilMapDoc : TypeMappingConfig :=
  { Version := "1.0", Description := "", LastUpdated := "2024-01-01"
    GlobalTypes := GoMap.made
      [("movie", { ID := "movie", Name := "电影", Description := "", Priority := 1, Enabled := true })]
    SourceMappings := GoMap.nil }

/-- A manager that loaded `nilMapDoc`: the caches were built from it and are empty. -/
def nilMapManager : TypeMappingManager :=
  { config := some nilMapDoc, configPath := "type_mapping.json"
    typeCache := [], reverseCache := [], nameCache := [] }

/-- A handler, as a function of the result of the file write, treats a failed write like
this: the manager it leaves is the one a successful write leaves, and where the successful
run answers 200 the failed run answers 500 without success. -/
def WriteIndependent (h : Option String → Option (TypeMappingManager × Response)) : Prop :=
  ∀ err : String,
    (h (some err)).map Prod.fst = (h none).map Prod.fst ∧
    ∀ tmm1 r, h none = some (tmm1, r) → r.status = 200 →
      ∃ r1, h (some err) = some (tmm1, r1) ∧ r1.status = 500 ∧ r1.success = some false

/-! ## Loading and the file (`LoadConfig`, lines 78-103; `saveConfig`, lines 228-243) -/

/-- A document whose source `s` lists id 5 twice, under `movie` and then under `tv`. -/
def dupDoc : TypeMappingConfig :=
  { Version := "1.0", Description := "", LastUpdated := "2024-01-01"
    GlobalTypes := GoMap.made
      [("movie", { ID := "movie", Name := "电影", Description := "", Priority := 1, Enabled := true }),
       ("tv", { ID := "tv", Name := "电视剧", Description := "", Priority := 2, Enabled := true })]
    SourceMappings := GoMap.made
      [("s", { Name := "s", Enabled := true
               TypeList := [{ ID := 5, Name := "a", GlobalType := "movie" },
                            { ID := 5, Name := "b", GlobalType := "tv" }] })] }

/-- A manager holding `dupDoc`, its caches not yet built. -/
def dupManager : TypeMappingManager :=
  { NewTypeMappingManager "type_mapping.json" with config := some dupDoc }

/-- A document whose source `s` maps id 5 to `movie` by hand; source `off` is disabled. -/
def movieDoc : TypeMappingConfig :=
  { Version := "1.0", Description := "", LastUpdated := "2024-01-01"
    GlobalTypes := GoMap.made
      [("movie", { ID := "movie", Name := "电影", Description := "", Priority := 1, Enabled := true }),
       ("tv", { ID := "tv", Name := "电视剧", Description := "", Priority := 2, Enabled := true })]
    SourceMappings := GoMap.made
      [("s", { Name := "s", Enabled := true
               TypeList := [{ ID := 5, Name := "手工分类", GlobalType := "movie" }] }),
       ("off", { Name := "off", Enabled := false
                 TypeList := [{ ID := 1, Name := "x", GlobalType := "tv" }] })] }

/-- A manager holding `movieDoc` with the caches built from it. -/
def movieManager : TypeMappingManager :=
  { config := some movieDoc, configPath := "type_mapping.json"
    typeCache := [("off", [(1, "tv")]), ("s", [(5, "movie")])]
    reverseCache := [("off", [("tv", [1])]), ("s", [("movie", [5])])]
    nameCache := [("off", [(1, "x")]), ("s", [(5, "手工分类")])] }

/-! ## Lemmas on maps -/

namespace MadeMap

variable {K V : Type} [DecidableEq K]

theorem get_nil (x : K) : MadeMap.get ([] : MadeMap K V) x = none := rfl

theorem get_cons (k : K) (v : V) (rest : MadeMap K V) (x : K) :
    MadeMap.get ((k, v) :: rest) x = if x = k then some v else MadeMap.get rest x := rfl

theorem get_filter_ne (m : MadeMap K V) {k x : K} (h : x ≠ k) :
    MadeMap.get (m.filter (fun p => !decide (p.1 = k))) x = MadeMap.get m x := by
  induction m with
  | nil => rfl
  | cons p rest ih =>
    obtain ⟨k1, v1⟩ := p
    by_cases hk : k1 = k
    · subst hk
      simp [List.filter, get_cons, h, ih]
    · simp [List.filter, hk, get_cons, ih]

theorem get_filter_self (m : MadeMap K V) (k : K) :
    MadeMap.get (m.filter (fun p => !decide (p.1 = k))) k = none := by
  induction m with
  | nil => rfl
  | cons p rest ih =>
    obtain ⟨k1, v1⟩ := p
    by_cases hk : k1 = k
    · subst hk
      simp [List.filter, ih]
    · have hk2 : k ≠ k1 := fun h => hk h.symm
      simp [List.filter, hk, get_cons, ih, hk2]

theorem get_set (m : MadeMap K V) (k : K) (v : V) (x : K) :
    MadeMap.get (m.set k v) x = if x = k then some v else MadeMap.get m x := by
  unfold MadeMap.set
  rw [get_cons]
  by_cases h : x = k
  · simp [h]
  · simp [h, get_filter_ne m h]

theorem get_set_self (m : MadeMap K V) (k : K) (v : V) : MadeMap.get (m.set k v) k = some v := by
  simp [get_set]

theorem get_set_ne (m : MadeMap K V) {k x : K} (v : V) (h : x ≠ k) :
    MadeMap.get (m.set k v) x = MadeMap.get m x := by
  simp [get_set, h]

theorem get_delete (m : MadeMap K V) (k x : K) :
    MadeMap.get (m.delete k) x = if x = k then none else MadeMap.get m x := by
  unfold MadeMap.delete
  by_cases h : x = k
  · subst h
    simp [get_filter_self]
  · simp [h, get_filter_ne m h]

theorem get_eq_none_of_not_mem_keys (m : MadeMap K V) (x : K)
    (h : x ∉ m.map Prod.fst) : MadeMap.get m x = none := by
  induction m with
  | nil => rfl
  | cons p rest ih =>
    obtain ⟨k1, v1⟩ := p
    simp only [List.map_cons, List.mem_cons, not_or] at h
    rw [get_cons, if_neg h.1]
    exact ih h.2

theorem mem_of_get_eq_some (m : MadeMap K V) (x : K) (v : V)
    (h : MadeMap.get m x = some v) : (x, v) ∈ m := by
  induction m with
  | nil => simp [get_nil] at h
  | cons p rest ih =>
    obtain ⟨k1, v1⟩ := p
    rw [get_cons] at h
    by_cases hx : x = k1
    · rw [if_pos hx] at h
      cases h
      simp [hx]
    · rw [if_neg hx] at h
      exact List.mem_cons_of_mem _ (ih h)

theorem get_rangeFrom (m : MadeMap K V) (seen : List K) (x : K) :
    MadeMap.get (MadeMap.rangeFrom seen m) x = if x ∈ seen then none else MadeMap.get m x := by
  induction m generalizing seen with
  | nil => simp [MadeMap.rangeFrom, get_nil]
  | cons p rest ih =>
    obtain ⟨k1, v1⟩ := p
    by_cases hk : k1 ∈ seen
    · simp only [MadeMap.rangeFrom, if_pos hk, ih, get_cons]
      by_cases hx : x ∈ seen
      · simp [hx]
      · have : x ≠ k1 := fun h => hx (h ▸ hk)
        simp [hx, this]
    · simp only [MadeMap.rangeFrom, if_neg hk, ih, get_cons, List.mem_cons]
      by_cases hx : x = k1
      · subst hx
        simp [hk]
      · simp [hx]

theorem get_range (m : MadeMap K V) (x : K) : MadeMap.get m.range x = MadeMap.get m x := by
  simp [MadeMap.range, get_rangeFrom]

theorem keys_rangeFrom (m : MadeMap K V) (seen : List K) :
    ∀ k ∈ (MadeMap.rangeFrom seen m).map Prod.fst, k ∉ seen := by
  induction m generalizing seen with
  | nil => simp [MadeMap.rangeFrom]
  | cons p rest ih =>
    obtain ⟨k1, v1⟩ := p
    intro k hk
    by_cases h1 : k1 ∈ seen
    · simp only [MadeMap.rangeFrom, if_pos h1] at hk
      exact ih seen k hk
    · simp only [MadeMap.rangeFrom, if_neg h1, List.map_cons, List.mem_cons] at hk
      rcases hk with hk | hk
      · rw [hk]; exact h1
      · have := ih (k1 :: seen) k hk
        exact fun h => this (List.mem_cons_of_mem _ h)

theorem nodup_keys_rangeFrom (m : MadeMap K V) (seen : List K) :
    ((MadeMap.rangeFrom seen m).map Prod.fst).Nodup := by
  induction m generalizing seen with
  | nil => simp [MadeMap.rangeFrom]
  | cons p rest ih =>
    obtain ⟨k1, v1⟩ := p
    by_cases h1 : k1 ∈ seen
    · simp only [MadeMap.rangeFrom, if_pos h1]
      exact ih seen
    · simp only [MadeMap.rangeFrom, if_neg h1, List.map_cons, List.nodup_cons]
      refine ⟨?_, ih _⟩
      intro hmem
      exact keys_rangeFrom rest (k1 :: seen) k1 hmem (List.mem_cons_self _ _)

theorem nodup_keys_range (m : MadeMap K V) : (m.range.map Prod.fst).Nodup :=
  nodup_keys_rangeFrom m []

end MadeMap

/-! ## The loops of `buildCache` -/

theorem buildCacheType_typeCache (S : String) (tmm : TypeMappingManager) (e : SourceType) :
    (buildCacheType S tmm e).typeCache =
      tmm.typeCache.set S (indexByID SourceType.GlobalType ((tmm.typeCache.get S).getD []) e) :=
  rfl

theorem buildCacheType_nameCache (S : String) (tmm : TypeMappingManager) (e : SourceType) :
    (buildCacheType S tmm e).nameCache =
      tmm.nameCache.set S (indexByID SourceType.Name ((tmm.nameCache.get S).getD []) e) :=
  rfl

theorem buildCacheType_reverseCache (S : String) (tmm : TypeMappingManager) (e : SourceType) :
    (buildCacheType S tmm e).reverseCache =
      tmm.reverseCache.set S (indexReverse ((tmm.reverseCache.get S).getD []) e) :=
  rfl

theorem buildCacheType_config (S : String) (tmm : TypeMappingManager) (e : SourceType) :
    (buildCacheType S tmm e).config = tmm.config ∧
      (buildCacheType S tmm e).configPath = tmm.configPath :=
  ⟨rfl, rfl⟩

/-- The inner loop of `buildCache` for source `S` folds the three inner maps of `S` and
touches nothing else. -/
theorem foldl_buildCacheType (S : String) (L : List SourceType) :
    ∀ (tmm : TypeMappingManager) (t n : MadeMap Int String) (r : MadeMap String (List Int)),
      tmm.typeCache.get S = some t → tmm.nameCache.get S = some n →
      tmm.reverseCache.get S = some r →
      (L.foldl (buildCacheType S) tmm).typeCache.get S
          = some (L.foldl (indexByID SourceType.GlobalType) t) ∧
      (L.foldl (buildCacheType S) tmm).nameCache.get S
          = some (L.foldl (indexByID SourceType.Name) n) ∧
      (L.foldl (buildCacheType S) tmm).reverseCache.get S
          = some (L.foldl indexReverse r) ∧
      (∀ S1, S1 ≠ S →
        (L.foldl (buildCacheType S) tmm).typeCache.get S1 = tmm.typeCache.get S1 ∧
        (L.foldl (buildCacheType S) tmm).nameCache.get S1 = tmm.nameCache.get S1 ∧
        (L.foldl (buildCacheType S) tmm).reverseCache.get S1 = tmm.reverseCache.get S1) ∧
      (L.foldl (buildCacheType S) tmm).config = tmm.config ∧
      (L.foldl (buildCacheType S) tmm).configPath = tmm.configPath := by
  induction L with
  | nil =>
    intro tmm t n r ht hn hr
    exact ⟨ht, hn, hr, fun _ _ => ⟨rfl, rfl, rfl⟩, rfl, rfl⟩
  | cons e L ih =>
    intro tmm t n r ht hn hr
    have h1 : (buildCacheType S tmm e).typeCache.get S
        = some (indexByID SourceType.GlobalType t e) := by
      rw [buildCacheType_typeCache, MadeMap.get_set_self, ht]; rfl
    have h2 : (buildCacheType S tmm e).nameCache.get S
        = some (indexByID SourceType.Name n e) := by
      rw [buildCacheType_nameCache, MadeMap.get_set_self, hn]; rfl
    have h3 : (buildCacheType S tmm e).reverseCache.get S = some (indexReverse r e) := by
      rw [buildCacheType_reverseCache, MadeMap.get_set_self, hr]; rfl
    obtain ⟨a1, a2, a3, a4, a5, a6⟩ := ih (buildCacheType S tmm e) _ _ _ h1 h2 h3
    refine ⟨a1, a2, a3, ?_, a5, a6⟩
    intro S1 hS1
    obtain ⟨b1, b2, b3⟩ := a4 S1 hS1
    refine ⟨?_, ?_, ?_⟩
    · rw [List.foldl_cons, b1, buildCacheType_typeCache, MadeMap.get_set_ne _ _ hS1]
    · rw [List.foldl_cons, b2, buildCacheType_nameCache, MadeMap.get_set_ne _ _ hS1]
    · rw [List.foldl_cons, b3, buildCacheType_reverseCache, MadeMap.get_set_ne _ _ hS1]

/-- One iteration of the outer loop: the three inner maps of the visited source are built
from scratch, those of every other source are kept. -/
theorem buildCacheSource_spec (tmm : TypeMappingManager) (S : String) (M : SourceMapping) :
    (buildCacheSource tmm (S, M)).typeCache.get S
        = some (M.TypeList.foldl (indexByID SourceType.GlobalType) []) ∧
    (buildCacheSource tmm (S, M)).nameCache.get S
        = some (M.TypeList.foldl (indexByID SourceType.Name) []) ∧
    (buildCacheSource tmm (S, M)).reverseCache.get S
        = some (M.TypeList.foldl indexReverse []) ∧
    (∀ S1, S1 ≠ S →
      (buildCacheSource tmm (S, M)).typeCache.get S1 = tmm.typeCache.get S1 ∧
      (buildCacheSource tmm (S, M)).nameCache.get S1 = tmm.nameCache.get S1 ∧
      (buildCacheSource tmm (S, M)).reverseCache.get S1 = tmm.reverseCache.get S1) ∧
    (buildCacheSource tmm (S, M)).config = tmm.config ∧
    (buildCacheSource tmm (S, M)).configPath = tmm.configPath := by
  unfold buildCacheSource
  obtain ⟨a1, a2, a3, a4, a5, a6⟩ := foldl_buildCacheType S M.TypeList
    { tmm with
      typeCache := tmm.typeCache.set S []
      reverseCache := tmm.reverseCache.set S []
      nameCache := tmm.nameCache.set S [] } [] [] []
    (MadeMap.get_set_self _ _ _) (MadeMap.get_set_self _ _ _) (MadeMap.get_set_self _ _ _)
  refine ⟨a1, a2, a3, ?_, a5, a6⟩
  intro S1 hS1
  obtain ⟨b1, b2, b3⟩ := a4 S1 hS1
  refine ⟨?_, ?_, ?_⟩
  · rw [b1]; exact MadeMap.get_set_ne _ _ hS1
  · rw [b2]; exact MadeMap.get_set_ne _ _ hS1
  · rw [b3]; exact MadeMap.get_set_ne _ _ hS1

/-- The outer loop over bindings with pairwise distinct keys. -/
theorem foldl_buildCacheSource (ents : List (String × SourceMapping)) :
    ∀ (tmm : TypeMappingManager), (ents.map Prod.fst).Nodup →
      (∀ S,
        (ents.foldl buildCacheSource tmm).typeCache.get S
          = (match MadeMap.get ents S with
             | some M => some (M.TypeList.foldl (indexByID SourceType.GlobalType) [])
             | none => tmm.typeCache.get S) ∧
        (ents.foldl buildCacheSource tmm).nameCache.get S
          = (match MadeMap.get ents S with
             | some M => some (M.TypeList.foldl (indexByID SourceType.Name) [])
             | none => tmm.nameCache.get S) ∧
        (ents.foldl buildCacheSource tmm).reverseCache.get S
          = (match MadeMap.get ents S with
             | some M => some (M.TypeList.foldl indexReverse [])
             | none => tmm.reverseCache.get S)) ∧
      (ents.foldl buildCacheSource tmm).config = tmm.config ∧
      (ents.foldl buildCacheSource tmm).configPath = tmm.configPath := by
  induction ents with
  | nil =>
    intro tmm _
    exact ⟨fun S => ⟨rfl, rfl, rfl⟩, rfl, rfl⟩
  | cons p rest ih =>
    obtain ⟨S0, M0⟩ := p
    intro tmm hnd
    simp only [List.map_cons, List.nodup_cons] at hnd
    obtain ⟨c1, c2, c3⟩ := ih (buildCacheSource tmm (S0, M0)) hnd.2
    obtain ⟨a1, a2, a3, a4, a5, a6⟩ := buildCacheSource_spec tmm S0 M0
    refine ⟨?_, ?_, ?_⟩
    · intro S
      obtain ⟨d1, d2, d3⟩ := c1 S
      rw [List.foldl_cons, d1, d2, d3, MadeMap.get_cons]
      by_cases hS : S = S0
      · subst hS
        rw [if_pos rfl, MadeMap.get_eq_none_of_not_mem_keys rest S hnd.1]
        exact ⟨a1, a2, a3⟩
      · rw [if_neg hS]
        obtain ⟨b1, b2, b3⟩ := a4 S hS
        cases hget : MadeMap.get rest S with
        | none => exact ⟨b1, b2, b3⟩
        | some M => exact ⟨rfl, rfl, rfl⟩
    · rw [List.foldl_cons, c2, a5]
    · rw [List.foldl_cons, c3, a6]

/-! ## The inner maps of one source -/

theorem get_foldl_indexByID_of_not_mem (f : SourceType → String) (T : Int)
    (L : List SourceType) :
    ∀ (t : MadeMap Int String), (∀ e ∈ L, e.ID ≠ T) →
      MadeMap.get (L.foldl (indexByID f) t) T = MadeMap.get t T := by
  induction L with
  | nil => intro t _; rfl
  | cons e L ih =>
    intro t h
    have he : T ≠ e.ID := fun hc => h e (List.mem_cons_self _ _) hc.symm
    rw [List.foldl_cons, ih _ (fun e1 h1 => h e1 (List.mem_cons_of_mem _ h1))]
    exact MadeMap.get_set_ne _ _ he

theorem get_foldl_indexByID_last (f : SourceType → String) (pre post : List SourceType)
    (e : SourceType) (t : MadeMap Int String) (h : ∀ e1 ∈ post, e1.ID ≠ e.ID) :
    MadeMap.get ((pre ++ e :: post).foldl (indexByID f) t) e.ID = some (f e) := by
  rw [List.foldl_append, List.foldl_cons, get_foldl_indexByID_of_not_mem f e.ID post _ h]
  exact MadeMap.get_set_self _ _ _

/-- If some entry of the list has id `T`, the list splits at the last such entry. -/
theorem exists_last_with_id (T : Int) (L : List SourceType) (h : ∃ e ∈ L, e.ID = T) :
    ∃ pre e post, L = pre ++ e :: post ∧ e.ID = T ∧ ∀ e1 ∈ post, e1.ID ≠ T := by
  induction L with
  | nil =>
    obtain ⟨e, he, _⟩ := h
    cases he
  | cons a L ih =>
    by_cases hL : ∃ e ∈ L, e.ID = T
    · obtain ⟨pre, e, post, h1, h2, h3⟩ := ih hL
      exact ⟨a :: pre, e, post, by rw [h1]; rfl, h2, h3⟩
    · obtain ⟨e, he, heT⟩ := h
      have hall : ∀ e1 ∈ L, e1.ID ≠ T := fun e1 h1 hc => hL ⟨e1, h1, hc⟩
      rcases List.mem_cons.1 he with rfl | he
      · exact ⟨[], e, L, rfl, heT, hall⟩
      · exact absurd heT (hall e he)

theorem get_foldl_indexByID_isSome (f : SourceType → String) (T : Int) (L : List SourceType) :
    (MadeMap.get (L.foldl (indexByID f) []) T).isSome = true ↔ ∃ e ∈ L, e.ID = T := by
  constructor
  · intro h
    by_contra hne
    have hall : ∀ e ∈ L, e.ID ≠ T := fun e he hc => hne ⟨e, he, hc⟩
    rw [get_foldl_indexByID_of_not_mem f T L [] hall] at h
    simp [MadeMap.get_nil] at h
  · intro h
    obtain ⟨pre, e, post, h1, h2, h3⟩ := exists_last_with_id T L h
    subst h2
    rw [h1, get_foldl_indexByID_last f pre post e [] h3]
    rfl

theorem get_indexReverse (r : MadeMap String (List Int)) (e : SourceType) (G : String) :
    MadeMap.get (indexReverse r e) G
      = if G = e.GlobalType then some ((MadeMap.get r G).getD [] ++ [e.ID])
        else MadeMap.get r G := by
  unfold indexReverse
  by_cases hG : G = e.GlobalType
  · subst hG
    rw [if_pos rfl, MadeMap.get_set_self]
    by_cases hr : MadeMap.get r e.GlobalType = none
    · rw [if_pos hr, MadeMap.get_set_self, hr]
      rfl
    · rw [if_neg hr]
  · rw [if_neg hG, MadeMap.get_set_ne _ _ hG]
    by_cases hr : MadeMap.get r e.GlobalType = none
    · rw [if_pos hr, MadeMap.get_set_ne _ _ hG]
    · rw [if_neg hr]

theorem idsOfGlobalType_cons (G : String) (e : SourceType) (L : List SourceType) :
    idsOfGlobalType G (e :: L)
      = if e.GlobalType = G then e.ID :: idsOfGlobalType G L else idsOfGlobalType G L := by
  unfold idsOfGlobalType
  by_cases h : e.GlobalType = G
  · simp [List.filter, h]
  · simp [List.filter, h]

theorem mem_idsOfGlobalType (G : String) (T : Int) (L : List SourceType) :
    T ∈ idsOfGlobalType G L ↔ ∃ e ∈ L, e.ID = T ∧ e.GlobalType = G := by
  unfold idsOfGlobalType
  simp only [List.mem_map, List.mem_filter, decide_eq_true_eq]
  constructor
  · rintro ⟨e, ⟨h1, h2⟩, h3⟩
    exact ⟨e, h1, h3, h2⟩
  · rintro ⟨e, h1, h3, h2⟩
    exact ⟨e, ⟨h1, h2⟩, h3⟩

/-- The reverse index of one source: under each code the ids of its entries, in list order,
appended to what was there; a code no entry carries gets no key. -/
theorem get_foldl_indexReverse (G : String) (L : List SourceType) :
    ∀ (r : MadeMap String (List Int)),
      MadeMap.get (L.foldl indexReverse r) G
        = (match MadeMap.get r G with
           | some l => some (l ++ idsOfGlobalType G L)
           | none => if idsOfGlobalType G L = [] then none else some (idsOfGlobalType G L)) := by
  induction L with
  | nil =>
    intro r
    cases hr : MadeMap.get r G with
    | none => simp [idsOfGlobalType, hr]
    | some l => simp [idsOfGlobalType, hr]
  | cons e L ih =>
    intro r
    rw [List.foldl_cons, ih, get_indexReverse, idsOfGlobalType_cons]
    by_cases hG : G = e.GlobalType
    · subst hG
      simp only [if_true]
      cases hr : MadeMap.get r e.GlobalType with
      | none => simp
      | some l => simp
    · have hG2 : ¬ e.GlobalType = G := fun hc => hG hc.symm
      rw [if_neg hG, if_neg hG2]

theorem get_foldl_indexReverse_nil (G : String) (L : List SourceType) :
    MadeMap.get (L.foldl indexReverse []) G
      = if idsOfGlobalType G L = [] then none else some (idsOfGlobalType G L) := by
  rw [get_foldl_indexReverse]
  rfl

/-! ## The rebuilt index -/

theorem goMap_get_range {K V : Type} [DecidableEq K] (m : GoMap K V) (x : K) :
    MadeMap.get m.range x = m.get x := by
  cases m with
  | nil => rfl
  | made es => exact MadeMap.get_range es x

theorem goMap_nodup_keys_range {K V : Type} [DecidableEq K] (m : GoMap K V) :
    (m.range.map Prod.fst).Nodup := by
  cases m with
  | nil => exact List.nodup_nil
  | made es => exact MadeMap.nodup_keys_range es

/-- What `buildCache` leaves in the manager: it returns, the document is untouched, and each
cache holds under a source code exactly the inner map built from that source's type list,
whatever the caches held before. -/
theorem buildCache_spec (tmm : TypeMappingManager) (D : TypeMappingConfig)
    (h : tmm.config = some D) :
    ∃ tmm1, buildCache tmm = some tmm1 ∧ tmm1.config = some D ∧
      tmm1.configPath = tmm.configPath ∧
      ∀ S,
        tmm1.typeCache.get S = (D.SourceMappings.get S).map
          (fun M => M.TypeList.foldl (indexByID SourceType.GlobalType) []) ∧
        tmm1.nameCache.get S = (D.SourceMappings.get S).map
          (fun M => M.TypeList.foldl (indexByID SourceType.Name) []) ∧
        tmm1.reverseCache.get S = (D.SourceMappings.get S).map
          (fun M => M.TypeList.foldl indexReverse []) := by
  obtain ⟨cfg, path, tc, rc, nc⟩ := tmm
  simp only at h
  subst h
  obtain ⟨a1, a2, a3⟩ := foldl_buildCacheSource D.SourceMappings.range
    { config := some D, configPath := path, typeCache := [], reverseCache := [], nameCache := [] }
    (goMap_nodup_keys_range _)
  refine ⟨_, rfl, a2, a3, ?_⟩
  · intro S
    obtain ⟨b1, b2, b3⟩ := a1 S
    rw [b1, b2, b3, goMap_get_range]
    cases D.SourceMappings.get S with
    | none => exact ⟨rfl, rfl, rfl⟩
    | some M => exact ⟨rfl, rfl, rfl⟩

/-! ## Lookups against a cache entry -/

theorem GetGlobalType_of_get_some {tmm : TypeMappingManager} {S : String}
    {t : MadeMap Int String} (h : tmm.typeCache.get S = some t) (T : Int) :
    GetGlobalType tmm S T
      = (match MadeMap.get t T with
         | some g => (g, true)
         | none => ("", false)) := by
  unfold GetGlobalType
  rw [h]

theorem GetGlobalType_of_get_none {tmm : TypeMappingManager} {S : String}
    (h : tmm.typeCache.get S = none) (T : Int) : GetGlobalType tmm S T = ("", false) := by
  unfold GetGlobalType
  rw [h]

theorem GetSourceTypeName_of_get_some {tmm : TypeMappingManager} {S : String}
    {t : MadeMap Int String} (h : tmm.nameCache.get S = some t) (T : Int) :
    GetSourceTypeName tmm S T
      = (match MadeMap.get t T with
         | some g => (g, true)
         | none => ("", false)) := by
  unfold GetSourceTypeName
  rw [h]

theorem GetSourceTypeName_of_get_none {tmm : TypeMappingManager} {S : String}
    (h : tmm.nameCache.get S = none) (T : Int) : GetSourceTypeName tmm S T = ("", false) := by
  unfold GetSourceTypeName
  rw [h]

theorem GetSourceTypeIDs_of_get_some {tmm : TypeMappingManager} {S : String}
    {r : MadeMap String (List Int)} (h : tmm.reverseCache.get S = some r) (G : String) :
    GetSourceTypeIDs tmm S G
      = (match MadeMap.get r G with
         | some ids => (ids, true)
         | none => ([], false)) := by
  unfold GetSourceTypeIDs
  rw [h]

theorem GetSourceTypeIDs_of_get_none {tmm : TypeMappingManager} {S : String}
    (h : tmm.reverseCache.get S = none) (G : String) : GetSourceTypeIDs tmm S G = ([], false) := by
  unfold GetSourceTypeIDs
  rw [h]

/-- After a rebuild, the reverse lookup in terms of the document. -/
theorem GetSourceTypeIDs_rebuilt (tmm1 : TypeMappingManager) (D : TypeMappingConfig) (S G : String)
    (h : tmm1.reverseCache.get S = (D.SourceMappings.get S).map
      (fun M => M.TypeList.foldl indexReverse [])) :
    GetSourceTypeIDs tmm1 S G
      = (match D.SourceMappings.get S with
         | some M =>
           if idsOfGlobalType G M.TypeList = [] then ([], false)
           else (idsOfGlobalType G M.TypeList, true)
         | none => ([], false)) := by
  cases hS : D.SourceMappings.get S with
  | none =>
    rw [hS] at h
    exact GetSourceTypeIDs_of_get_none h G
  | some M =>
    rw [hS] at h
    rw [GetSourceTypeIDs_of_get_some h G, get_foldl_indexReverse_nil]
    by_cases hi : idsOfGlobalType G M.TypeList = []
    · simp only [if_pos hi]
    · simp only [if_neg hi]

/-- After a rebuild, a forward (or name) lookup of an id whose last entry is `e`. -/
theorem get_rebuilt_last (f : SourceType → String) (L pre post : List SourceType)
    (e : SourceType) (hL : L = pre ++ e :: post) (hpost : ∀ e1 ∈ post, e1.ID ≠ e.ID) :
    MadeMap.get (L.foldl (indexByID f) []) e.ID = some (f e) := by
  rw [hL]
  exact get_foldl_indexByID_last f pre post e [] hpost

theorem count_idsOfGlobalType (G : String) (T : Int) (L : List SourceType) :
    (idsOfGlobalType G L).count T
      = (L.filter fun x => decide (x.ID = T ∧ x.GlobalType = G)).length := by
  induction L with
  | nil => rfl
  | cons a L ih =>
    rw [idsOfGlobalType_cons]
    by_cases hG : a.GlobalType = G
    · by_cases hT : a.ID = T
      · simp [hG, hT, List.filter, ih]
      · simp [hG, hT, List.filter, ih, List.count_cons]
    · simp [hG, List.filter, ih]

/-! ## Claims C1 to C5: the rebuilt index -/

/-- C1 (fails as stated): in `dupDoc` source `s` has the entry (5, `movie`), yet after the
rebuild `GetGlobalType("s", 5)` returns `tv`, the code of the later entry with id 5. -/
theorem C1_counterexample :
    dupDoc.SourceMappings.get "s" = some
        { Name := "s", Enabled := true
          TypeList := [{ ID := 5, Name := "a", GlobalType := "movie" },
                       { ID := 5, Name := "b", GlobalType := "tv" }] } ∧
      (buildCache dupManager).map (fun tmm1 => GetGlobalType tmm1 "s" 5) = some ("tv", true) := by
  decide

/-- C1 (amended): after the index is rebuilt from a document `D`, for every source `S` of `D`
and every entry `e` of its type list, `GetGlobalType(S, e.ID)` reports found; and it returns
`e.GlobalType` whenever no later entry of the list with the same id carries a different
global type (in particular when ids are unique in the list). -/
theorem C1_getGlobalType_rebuilt (tmm : TypeMappingManager) (D : TypeMappingConfig)
    (S : String) (M : SourceMapping) (pre post : List SourceType) (e : SourceType)
    (hD : tmm.config = some D) (hS : D.SourceMappings.get S = some M)
    (hL : M.TypeList = pre ++ e :: post) :
    ∃ tmm1, buildCache tmm = some tmm1 ∧
      (GetGlobalType tmm1 S e.ID).2 = true ∧
      ((∀ e1 ∈ post, e1.ID = e.ID → e1.GlobalType = e.GlobalType) →
        GetGlobalType tmm1 S e.ID = (e.GlobalType, true)) := by
  obtain ⟨tmm1, hb, _, _, hc⟩ := buildCache_spec tmm D hD
  refine ⟨tmm1, hb, ?_⟩
  have ht := (hc S).1
  rw [hS] at ht
  rw [GetGlobalType_of_get_some ht]
  by_cases hlater : ∃ e1 ∈ post, e1.ID = e.ID
  · obtain ⟨pre2, e2, post2, h1, h2, h3⟩ := exists_last_with_id e.ID post hlater
    have hL2 : M.TypeList = (pre ++ e :: pre2) ++ e2 :: post2 := by
      rw [hL, h1]; simp
    have hget := get_rebuilt_last SourceType.GlobalType M.TypeList _ _ e2 hL2
      (fun e1 he1 => by rw [h2]; exact h3 e1 he1)
    rw [h2] at hget
    rw [hget]
    refine ⟨rfl, fun hsame => ?_⟩
    have he2 : e2 ∈ post := by rw [h1]; simp
    rw [hsame e2 he2 h2]
  · have hget := get_rebuilt_last SourceType.GlobalType M.TypeList pre post e hL
      (fun e1 he1 hc1 => hlater ⟨e1, he1, hc1⟩)
    rw [hget]
    exact ⟨rfl, fun _ => rfl⟩

/-- Witness of C1 (amended) on `dupDoc`: the second entry with id 5 is the last one. -/
theorem C1_getGlobalType_rebuilt_witness :
    ∃ tmm1, buildCache dupManager = some tmm1 ∧
      (GetGlobalType tmm1 "s" 5).2 = true ∧
      ((∀ e1 ∈ ([] : List SourceType), e1.ID = 5 → e1.GlobalType = "tv") →
        GetGlobalType tmm1 "s" 5 = ("tv", true)) :=
  C1_getGlobalType_rebuilt dupManager dupDoc "s"
    { Name := "s", Enabled := true
      TypeList := [{ ID := 5, Name := "a", GlobalType := "movie" },
                   { ID := 5, Name := "b", GlobalType := "tv" }] }
    [{ ID := 5, Name := "a", GlobalType := "movie" }] []
    { ID := 5, Name := "b", GlobalType := "tv" } rfl rfl rfl

/-- C2: after the index is rebuilt from a document `D`, for every source `S` of `D` and every
entry `e` of its type list (an empty global type code included), `GetSourceTypeIDs(S,
e.GlobalType)` reports found and `e.ID` is an element of the returned list. -/
theorem C2_getSourceTypeIDs_member (tmm : TypeMappingManager) (D : TypeMappingConfig)
    (S : String) (M : SourceMapping) (e : SourceType)
    (hD : tmm.config = some D) (hS : D.SourceMappings.get S = some M) (he : e ∈ M.TypeList) :
    ∃ tmm1, buildCache tmm = some tmm1 ∧
      (GetSourceTypeIDs tmm1 S e.GlobalType).2 = true ∧
      e.ID ∈ (GetSourceTypeIDs tmm1 S e.GlobalType).1 := by
  obtain ⟨tmm1, hb, _, _, hc⟩ := buildCache_spec tmm D hD
  refine ⟨tmm1, hb, ?_⟩
  rw [GetSourceTypeIDs_rebuilt tmm1 D S e.GlobalType (hc S).2.2, hS]
  have hmem : e.ID ∈ idsOfGlobalType e.GlobalType M.TypeList :=
    (mem_idsOfGlobalType _ _ _).2 ⟨e, he, rfl, rfl⟩
  have hne : idsOfGlobalType e.GlobalType M.TypeList ≠ [] := fun hc1 => by
    rw [hc1] at hmem; cases hmem
  simp only [if_neg hne]
  exact ⟨trivial, hmem⟩

/-- Witness of C2 on `dupDoc`, at the first entry of source `s`. -/
theorem C2_getSourceTypeIDs_member_witness :
    ∃ tmm1, buildCache dupManager = some tmm1 ∧
      (GetSourceTypeIDs tmm1 "s" "movie").2 = true ∧
      (5 : Int) ∈ (GetSourceTypeIDs tmm1 "s" "movie").1 :=
  C2_getSourceTypeIDs_member dupManager dupDoc "s"
    { Name := "s", Enabled := true
      TypeList := [{ ID := 5, Name := "a", GlobalType := "movie" },
                   { ID := 5, Name := "b", GlobalType := "tv" }] }
    { ID := 5, Name := "a", GlobalType := "movie" } rfl rfl (by decide)

theorem idsOfGlobalType_eq_nil_iff (G : String) (L : List SourceType) :
    idsOfGlobalType G L = [] ↔ ∀ e ∈ L, e.GlobalType ≠ G := by
  rw [List.eq_nil_iff_forall_not_mem]
  constructor
  · intro h e he hG
    exact h e.ID ((mem_idsOfGlobalType G e.ID L).2 ⟨e, he, rfl, hG⟩)
  · intro h T hT
    obtain ⟨e, he, _, hG⟩ := (mem_idsOfGlobalType G T L).1 hT
    exact h e he hG

/-- C3: after a rebuild from `D`, `GetSourceTypeIDs(S, G)` returns exactly the ids of the
entries of the type list of `S` whose global type is `G`, in list order and with repeated
ids kept; it reports not found exactly when `S` is absent from `D` or no entry of `S` has
global type `G`. -/
theorem C3_getSourceTypeIDs_exact (tmm : TypeMappingManager) (D : TypeMappingConfig)
    (S G : String) (hD : tmm.config = some D) :
    ∃ tmm1, buildCache tmm = some tmm1 ∧
      (GetSourceTypeIDs tmm1 S G).1
        = (match D.SourceMappings.get S with
           | some M => (M.TypeList.filter fun e => decide (e.GlobalType = G)).map SourceType.ID
           | none => []) ∧
      ((GetSourceTypeIDs tmm1 S G).2 = false ↔
        (D.SourceMappings.get S = none ∨
          ∃ M, D.SourceMappings.get S = some M ∧ ∀ e ∈ M.TypeList, e.GlobalType ≠ G)) := by
  obtain ⟨tmm1, hb, _, _, hc⟩ := buildCache_spec tmm D hD
  refine ⟨tmm1, hb, ?_⟩
  rw [GetSourceTypeIDs_rebuilt tmm1 D S G (hc S).2.2]
  cases hS : D.SourceMappings.get S with
  | none => simp
  | some M =>
    have hids : (M.TypeList.filter fun e => decide (e.GlobalType = G)).map SourceType.ID
        = idsOfGlobalType G M.TypeList := rfl
    simp only [hids]
    by_cases hi : idsOfGlobalType G M.TypeList = []
    · simp only [if_pos hi]
      refine ⟨hi.symm, ?_⟩
      constructor
      · intro _
        exact Or.inr ⟨M, rfl, (idsOfGlobalType_eq_nil_iff G _).1 hi⟩
      · intro _
        trivial
    · simp only [if_neg hi]
      refine ⟨trivial, ?_⟩
      constructor
      · intro h
        cases h
      · intro h
        rcases h with h | ⟨M1, h1, h2⟩
        · cases h
        · cases h1
          exact absurd ((idsOfGlobalType_eq_nil_iff G _).2 h2) hi

/-- Witness of C3 on `dupDoc`: source `s`, code `tv`. -/
theorem C3_getSourceTypeIDs_exact_witness :
    ∃ tmm1, buildCache dupManager = some tmm1 ∧
      (GetSourceTypeIDs tmm1 "s" "tv").1
        = (match dupDoc.SourceMappings.get "s" with
           | some M => (M.TypeList.filter fun e => decide (e.GlobalType = "tv")).map SourceType.ID
           | none => []) ∧
      ((GetSourceTypeIDs tmm1 "s" "tv").2 = false ↔
        (dupDoc.SourceMappings.get "s" = none ∨
          ∃ M, dupDoc.SourceMappings.get "s" = some M ∧ ∀ e ∈ M.TypeList, e.GlobalType ≠ "tv")) :=
  C3_getSourceTypeIDs_exact dupManager dupDoc "s" "tv" rfl

theorem found_rebuilt_iff (f : SourceType → String) (D : TypeMappingConfig) (S : String) (T : Int)
    (o : Option (MadeMap Int String))
    (h : o = (D.SourceMappings.get S).map (fun M => M.TypeList.foldl (indexByID f) [])) :
    (∃ t g, o = some t ∧ MadeMap.get t T = some g) ↔
      ∃ M e, D.SourceMappings.get S = some M ∧ e ∈ M.TypeList ∧ e.ID = T := by
  subst h
  cases hS : D.SourceMappings.get S with
  | none => simp
  | some M =>
    have hsome := get_foldl_indexByID_isSome f T M.TypeList
    simp only [Option.map_some', Option.some.injEq, exists_eq_left']
    constructor
    · rintro ⟨t, g, ht, hg⟩
      subst ht
      rw [hg] at hsome
      obtain ⟨e, he, heT⟩ := hsome.1 rfl
      exact ⟨M, e, rfl, he, heT⟩
    · rintro ⟨M1, e, h1, he, heT⟩
      cases h1
      have := hsome.2 ⟨e, he, heT⟩
      obtain ⟨g, hg⟩ := Option.isSome_iff_exists.1 this
      exact ⟨_, g, rfl, hg⟩

theorem GetGlobalType_found_iff (tmm : TypeMappingManager) (S : String) (T : Int) :
    (GetGlobalType tmm S T).2 = true ↔
      ∃ t g, tmm.typeCache.get S = some t ∧ MadeMap.get t T = some g := by
  cases ht : tmm.typeCache.get S with
  | none => simp [GetGlobalType_of_get_none ht]
  | some t =>
    rw [GetGlobalType_of_get_some ht]
    cases hg : MadeMap.get t T with
    | none => simp [hg]
    | some g => simp [hg]

theorem GetSourceTypeName_found_iff (tmm : TypeMappingManager) (S : String) (T : Int) :
    (GetSourceTypeName tmm S T).2 = true ↔
      ∃ t g, tmm.nameCache.get S = some t ∧ MadeMap.get t T = some g := by
  cases ht : tmm.nameCache.get S with
  | none => simp [GetSourceTypeName_of_get_none ht]
  | some t =>
    rw [GetSourceTypeName_of_get_some ht]
    cases hg : MadeMap.get t T with
    | none => simp [hg]
    | some g => simp [hg]

/-- C4 (invariant I2): whatever the three caches held before, after a rebuild from `D` the
index holds exactly the entries of `D`: `GetGlobalType(S, T)` and `GetSourceTypeName(S, T)`
report found iff `D` has a source `S` with an entry of id `T`, every id returned by
`GetSourceTypeIDs(S, G)` is the id of an entry of `S` with global type `G`, and the rebuilt
manager is the same for every prior content of the caches. -/
theorem C4_index_exact (tmm : TypeMappingManager) (D : TypeMappingConfig)
    (hD : tmm.config = some D) :
    ∃ tmm1, buildCache tmm = some tmm1 ∧ tmm1.config = some D ∧
      (∀ S T, (GetGlobalType tmm1 S T).2 = true ↔
        ∃ M e, D.SourceMappings.get S = some M ∧ e ∈ M.TypeList ∧ e.ID = T) ∧
      (∀ S T, (GetSourceTypeName tmm1 S T).2 = true ↔
        ∃ M e, D.SourceMappings.get S = some M ∧ e ∈ M.TypeList ∧ e.ID = T) ∧
      (∀ S G T, T ∈ (GetSourceTypeIDs tmm1 S G).1 →
        ∃ M e, D.SourceMappings.get S = some M ∧ e ∈ M.TypeList ∧ e.ID = T ∧
          e.GlobalType = G) ∧
      (∀ typeCache reverseCache nameCache,
        buildCache { tmm with typeCache := typeCache, reverseCache := reverseCache,
                              nameCache := nameCache } = some tmm1) := by
  obtain ⟨tmm1, hb, hcfg, _, hc⟩ := buildCache_spec tmm D hD
  refine ⟨tmm1, hb, hcfg, ?_, ?_, ?_, ?_⟩
  · intro S T
    rw [GetGlobalType_found_iff]
    exact found_rebuilt_iff SourceType.GlobalType D S T _ (hc S).1
  · intro S T
    rw [GetSourceTypeName_found_iff]
    exact found_rebuilt_iff SourceType.Name D S T _ (hc S).2.1
  · intro S G T hT
    rw [GetSourceTypeIDs_rebuilt tmm1 D S G (hc S).2.2] at hT
    cases hS : D.SourceMappings.get S with
    | none =>
      rw [hS] at hT
      cases hT
    | some M =>
      rw [hS] at hT
      by_cases hi : idsOfGlobalType G M.TypeList = []
      · simp only [if_pos hi] at hT
        cases hT
      · simp only [if_neg hi] at hT
        obtain ⟨e, he, h1, h2⟩ := (mem_idsOfGlobalType G T _).1 hT
        exact ⟨M, e, rfl, he, h1, h2⟩
  · intro tc rc nc
    rw [← hb]
    rfl

/-- Witness of C4: `movieManager` already holds caches, and is rebuilt from `dupDoc`. -/
theorem C4_index_exact_witness :
    ∃ tmm1, buildCache { movieManager with config := some dupDoc } = some tmm1 ∧
      tmm1.config = some dupDoc ∧
      (∀ S T, (GetGlobalType tmm1 S T).2 = true ↔
        ∃ M e, dupDoc.SourceMappings.get S = some M ∧ e ∈ M.TypeList ∧ e.ID = T) ∧
      (∀ S T, (GetSourceTypeName tmm1 S T).2 = true ↔
        ∃ M e, dupDoc.SourceMappings.get S = some M ∧ e ∈ M.TypeList ∧ e.ID = T) ∧
      (∀ S G T, T ∈ (GetSourceTypeIDs tmm1 S G).1 →
        ∃ M e, dupDoc.SourceMappings.get S = some M ∧ e ∈ M.TypeList ∧ e.ID = T ∧
          e.GlobalType = G) ∧
      (∀ typeCache reverseCache nameCache,
        buildCache { { movieManager with config := some dupDoc } with
                     typeCache := typeCache, reverseCache := reverseCache,
                     nameCache := nameCache } = some tmm1) :=
  C4_index_exact { movieManager with config := some dupDoc } dupDoc rfl

/-- C5: when the last entry with id `e.ID` in the type list of source `S` is `e`, then after
a rebuild `GetGlobalType(S, e.ID)` and `GetSourceTypeName(S, e.ID)` return the global type
and the name of `e`, while under every code `G` the reverse index lists that id once per
entry of the list that has this id and global type `G`. -/
theorem C5_duplicate_ids (tmm : TypeMappingManager) (D : TypeMappingConfig)
    (S : String) (M : SourceMapping) (pre post : List SourceType) (e : SourceType)
    (hD : tmm.config = some D) (hS : D.SourceMappings.get S = some M)
    (hL : M.TypeList = pre ++ e :: post) (hlast : ∀ e1 ∈ post, e1.ID ≠ e.ID) :
    ∃ tmm1, buildCache tmm = some tmm1 ∧
      GetGlobalType tmm1 S e.ID = (e.GlobalType, true) ∧
      GetSourceTypeName tmm1 S e.ID = (e.Name, true) ∧
      ∀ G, (GetSourceTypeIDs tmm1 S G).1.count e.ID
        = (M.TypeList.filter fun x => decide (x.ID = e.ID ∧ x.GlobalType = G)).length := by
  obtain ⟨tmm1, hb, _, _, hc⟩ := buildCache_spec tmm D hD
  refine ⟨tmm1, hb, ?_, ?_, ?_⟩
  · have ht := (hc S).1
    rw [hS] at ht
    rw [GetGlobalType_of_get_some ht,
      get_rebuilt_last SourceType.GlobalType M.TypeList pre post e hL hlast]
  · have ht := (hc S).2.1
    rw [hS] at ht
    rw [GetSourceTypeName_of_get_some ht,
      get_rebuilt_last SourceType.Name M.TypeList pre post e hL hlast]
  · intro G
    rw [GetSourceTypeIDs_rebuilt tmm1 D S G (hc S).2.2, hS, ← count_idsOfGlobalType]
    by_cases hi : idsOfGlobalType G M.TypeList = []
    · simp only [if_pos hi, hi]
      rfl
    · simp only [if_neg hi]

/-- Witness of C5 on `dupDoc`: id 5 occurs twice, the entry named `b` being the last. -/
theorem C5_duplicate_ids_witness :
    ∃ tmm1, buildCache dupManager = some tmm1 ∧
      GetGlobalType tmm1 "s" 5 = ("tv", true) ∧
      GetSourceTypeName tmm1 "s" 5 = ("b", true) ∧
      ∀ G, (GetSourceTypeIDs tmm1 "s" G).1.count 5
        = (([{ ID := 5, Name := "a", GlobalType := "movie" },
             { ID := 5, Name := "b", GlobalType := "tv" }] : List SourceType).filter
            fun x => decide (x.ID = 5 ∧ x.GlobalType = G)).length :=
  C5_duplicate_ids dupManager dupDoc "s"
    { Name := "s", Enabled := true
      TypeList := [{ ID := 5, Name := "a", GlobalType := "movie" },
                   { ID := 5, Name := "b", GlobalType := "tv" }] }
    [{ ID := 5, Name := "a", GlobalType := "movie" }] []
    { ID := 5, Name := "b", GlobalType := "tv" } rfl rfl rfl (by simp)

/-! ## Sync -/

/-- The list a sync starts from: the type list of the source, empty when it has no mapping. -/
theorem GetSourceMapping_of_config {tmm : TypeMappingManager} {D : TypeMappingConfig}
    (hD : tmm.config = some D) (S : String) :
    GetSourceMapping tmm S = D.SourceMappings.get S := by
  unfold GetSourceMapping
  rw [hD]

/-- With a document loaded whose source-mapping map exists and a successful fetch, the sync
returns: the document becomes `syncedConfig`, the caches are those rebuilt from it, and the
result is the result of the file write. -/
theorem AutoUpdateMapping_ok (lower : Char → Char) (tmm : TypeMappingManager)
    (D : TypeMappingConfig) (sms : MadeMap String SourceMapping) (S : String)
    (F : List SourceType) (now : String) (writeErr : Option String)
    (hD : tmm.config = some D) (hsm : D.SourceMappings = GoMap.made sms) :
    ∃ tmm1,
      AutoUpdateMapping lower tmm S (Except.ok F) now writeErr
        = some (tmm1, writeErr.map fun err => "保存配置文件失败: " ++ err) ∧
      buildCache { tmm with config := some (syncedConfig lower D sms S F now) } = some tmm1 ∧
      tmm1.config = some (syncedConfig lower D sms S F now) := by
  obtain ⟨tmm1, hb, hcfg, _, _⟩ := buildCache_spec
    { tmm with config := some (syncedConfig lower D sms S F now) } _ rfl
  refine ⟨tmm1, ?_, hb, hcfg⟩
  have hget : GetSourceMapping tmm S = sms.get S := by
    rw [GetSourceMapping_of_config hD, hsm]; rfl
  have hb2 : buildCache { tmm with config := some (syncedConfig lower D sms S F now) }
      = some tmm1 := hb
  unfold AutoUpdateMapping
  simp only [hget, hD, hsm, GoMap.set, UpdateConfig]
  unfold syncedConfig currentMapping at hb2 hcfg
  cases hS : MadeMap.get sms S with
  | none =>
    rw [hS] at hb2 hcfg
    simp only [Option.getD_none] at hb2 hcfg
    rw [hb2]
    simp only [saveConfig, hcfg]
    cases writeErr <;> rfl
  | some M =>
    rw [hS] at hb2 hcfg
    simp only [Option.getD_some] at hb2 hcfg
    rw [hb2]
    simp only [saveConfig, hcfg]
    cases writeErr <;> rfl

theorem currentMapping_typeList (D : TypeMappingConfig) (sms : MadeMap String SourceMapping)
    (S : String) (hsm : D.SourceMappings = GoMap.made sms) :
    (currentMapping sms S).TypeList = existingTypeList D S := by
  unfold currentMapping existingTypeList
  rw [hsm]
  show _ = (match MadeMap.get sms S with
    | some M => M.TypeList
    | none => [])
  cases MadeMap.get sms S <;> rfl

/-- The mapping of the synced source in the committed document. -/
theorem syncedConfig_get (lower : Char → Char) (D : TypeMappingConfig)
    (sms : MadeMap String SourceMapping) (S : String) (F : List SourceType) (now : String)
    (hsm : D.SourceMappings = GoMap.made sms) :
    ∃ M1, (syncedConfig lower D sms S F now).SourceMappings.get S = some M1 ∧
      M1.TypeList = mergeTypeList lower (existingTypeList D S) F ∧
      M1.Name = (currentMapping sms S).Name ∧ M1.Enabled = (currentMapping sms S).Enabled := by
  refine ⟨_, MadeMap.get_set_self _ _ _, ?_, rfl, rfl⟩
  rw [← currentMapping_typeList D sms S hsm]

theorem unmappedTypes_eq_filter (E F : List SourceType) :
    unmappedTypes E F = F.filter fun r => decide (r.ID ∉ E.map SourceType.ID) := by
  unfold unmappedTypes
  apply List.filter_congr
  intro r _
  by_cases h : r.ID ∈ E.map SourceType.ID
  · have hany : (E.any fun existingType => existingType.ID == r.ID) = true := by
      rw [List.any_eq_true]
      obtain ⟨e, he, heq⟩ := List.mem_map.1 h
      exact ⟨e, he, by simp [heq]⟩
    rw [hany]
    simp [h]
  · have hany : (E.any fun existingType => existingType.ID == r.ID) = false := by
      rw [List.any_eq_false]
      intro e he hc
      exact h (List.mem_map.2 ⟨e, he, by simpa using hc⟩)
    rw [hany]
    simp [h]

theorem smartMapOne_eq (lower : Char → Char) (r : SourceType) :
    smartMapOne lower r
      = { ID := r.ID, Name := r.Name
          GlobalType := if smartMapType lower r.Name = "" then r.GlobalType
                        else smartMapType lower r.Name } := by
  unfold smartMapOne
  by_cases h : smartMapType lower r.Name = ""
  · simp [h]
  · simp [h]

/-! ## Claims C6 to C9: sync -/

/-- C6: a successful sync of source `S` (document loaded, fetch and file write succeed)
returns without error, and the type list of `S` in the new document starts with the
existing list `E`, entry for entry, with id, name and global type unchanged, whatever the
fetched list `F` reports for those ids. -/
theorem C6_merge_keeps_existing (lower : Char → Char) (tmm : TypeMappingManager)
    (D : TypeMappingConfig) (sms : MadeMap String SourceMapping) (S : String)
    (F : List SourceType) (now : String)
    (hD : tmm.config = some D) (hsm : D.SourceMappings = GoMap.made sms) :
    ∃ tmm1 D1 M1 N,
      AutoUpdateMapping lower tmm S (Except.ok F) now none = some (tmm1, none) ∧
      tmm1.config = some D1 ∧ D1.SourceMappings.get S = some M1 ∧
      M1.TypeList = existingTypeList D S ++ N ∧
      ∀ (i : Nat) (e : SourceType), (existingTypeList D S)[i]? = some e → M1.TypeList[i]? = some e := by
  obtain ⟨tmm1, h1, _, h3⟩ := AutoUpdateMapping_ok lower tmm D sms S F now none hD hsm
  obtain ⟨M1, g1, g2, _, _⟩ := syncedConfig_get lower D sms S F now hsm
  refine ⟨tmm1, _, M1, _, h1, h3, g1, g2, ?_⟩
  intro i e hi
  rw [g2]
  unfold mergeTypeList
  have hlt : i < (existingTypeList D S).length := by
    by_contra hge
    rw [List.getElem?_eq_none (Nat.le_of_not_lt hge)] at hi
    cases hi
  rw [List.getElem?_append_left hlt]
  exact hi

/-- Witness of C6: source `s` of `movieDoc` has id 5 mapped by hand to `movie`; the fetch
returns id 5 again, under a name the classifier would map to `tv`. -/
theorem C6_merge_keeps_existing_witness :
    ∃ tmm1 D1 M1 N,
      AutoUpdateMapping Char.toLower movieManager "s"
        (Except.ok [{ ID := 5, Name := "国产剧", GlobalType := "" },
                    { ID := 6, Name := "纪录片", GlobalType := "" }]) "2024-06-01T00:00:00Z" none
        = some (tmm1, none) ∧
      tmm1.config = some D1 ∧ D1.SourceMappings.get "s" = some M1 ∧
      M1.TypeList = existingTypeList movieDoc "s" ++ N ∧
      ∀ (i : Nat) (e : SourceType), (existingTypeList movieDoc "s")[i]? = some e → M1.TypeList[i]? = some e :=
  C6_merge_keeps_existing Char.toLower movieManager movieDoc _ "s" _ _ rfl rfl

/-- C7: after a successful sync the type list of `S` is `E ++ N`, where `E` is the existing
list and `N` holds exactly the records of the fetched list `F` whose id does not occur in
`E`, in the order of `F`. -/
theorem C7_merge_order (lower : Char → Char) (tmm : TypeMappingManager)
    (D : TypeMappingConfig) (sms : MadeMap String SourceMapping) (S : String)
    (F : List SourceType) (now : String)
    (hD : tmm.config = some D) (hsm : D.SourceMappings = GoMap.made sms) :
    ∃ tmm1 D1 M1 N,
      AutoUpdateMapping lower tmm S (Except.ok F) now none = some (tmm1, none) ∧
      tmm1.config = some D1 ∧ D1.SourceMappings.get S = some M1 ∧
      M1.TypeList = existingTypeList D S ++ N ∧
      N.map (fun e => (e.ID, e.Name))
        = (F.filter fun r => decide (r.ID ∉ (existingTypeList D S).map SourceType.ID)).map
            (fun r => (r.ID, r.Name)) := by
  obtain ⟨tmm1, h1, _, h3⟩ := AutoUpdateMapping_ok lower tmm D sms S F now none hD hsm
  obtain ⟨M1, g1, g2, _, _⟩ := syncedConfig_get lower D sms S F now hsm
  refine ⟨tmm1, _, M1, _, h1, h3, g1, g2, ?_⟩
  rw [unmappedTypes_eq_filter, List.map_map]
  apply List.map_congr_left
  intro r _
  simp [smartMapOne_eq]

/-- Witness of C7 on `movieDoc`: id 5 is known, ids 6 and 7 are new. -/
theorem C7_merge_order_witness :
    ∃ tmm1 D1 M1 N,
      AutoUpdateMapping Char.toLower movieManager "s"
        (Except.ok [{ ID := 6, Name := "纪录片", GlobalType := "" },
                    { ID := 5, Name := "国产剧", GlobalType := "" },
                    { ID := 7, Name := "其他", GlobalType := "" }]) "2024-06-01T00:00:00Z" none
        = some (tmm1, none) ∧
      tmm1.config = some D1 ∧ D1.SourceMappings.get "s" = some M1 ∧
      M1.TypeList = existingTypeList movieDoc "s" ++ N ∧
      N.map (fun e => (e.ID, e.Name))
        = (([{ ID := 6, Name := "纪录片", GlobalType := "" },
             { ID := 5, Name := "国产剧", GlobalType := "" },
             { ID := 7, Name := "其他", GlobalType := "" }] : List SourceType).filter
            fun r => decide (r.ID ∉ (existingTypeList movieDoc "s").map SourceType.ID)).map
            (fun r => (r.ID, r.Name)) :=
  C7_merge_order Char.toLower movieManager movieDoc _ "s" _ _ rfl rfl

/-- C8: every fetched record that a successful sync adds as a new entry keeps its id and
name, and receives the classifier result when that is not empty; as `FetchSourceTypes`
builds every record with an empty global type (line 305), the global type of each new entry
equals `smartMapType` of its name, possibly the empty string. -/
theorem C8_classify_gaps (lower : Char → Char) (tmm : TypeMappingManager)
    (D : TypeMappingConfig) (sms : MadeMap String SourceMapping) (S : String)
    (F : List SourceType) (now : String)
    (hD : tmm.config = some D) (hsm : D.SourceMappings = GoMap.made sms) :
    ∃ tmm1 D1 M1 N,
      AutoUpdateMapping lower tmm S (Except.ok F) now none = some (tmm1, none) ∧
      tmm1.config = some D1 ∧ D1.SourceMappings.get S = some M1 ∧
      M1.TypeList = existingTypeList D S ++ N ∧
      N = (F.filter fun r => decide (r.ID ∉ (existingTypeList D S).map SourceType.ID)).map
            (fun r => { ID := r.ID, Name := r.Name
                        GlobalType := if smartMapType lower r.Name = "" then r.GlobalType
                                      else smartMapType lower r.Name }) ∧
      ((∀ r ∈ F, r.GlobalType = "") →
        N = (F.filter fun r => decide (r.ID ∉ (existingTypeList D S).map SourceType.ID)).map
              (fun r => { ID := r.ID, Name := r.Name
                          GlobalType := smartMapType lower r.Name })) := by
  obtain ⟨tmm1, h1, _, h3⟩ := AutoUpdateMapping_ok lower tmm D sms S F now none hD hsm
  obtain ⟨M1, g1, g2, _, _⟩ := syncedConfig_get lower D sms S F now hsm
  have hN : (unmappedTypes (existingTypeList D S) F).map (smartMapOne lower)
      = (F.filter fun r => decide (r.ID ∉ (existingTypeList D S).map SourceType.ID)).map
            (fun r => { ID := r.ID, Name := r.Name
                        GlobalType := if smartMapType lower r.Name = "" then r.GlobalType
                                      else smartMapType lower r.Name }) := by
    rw [unmappedTypes_eq_filter]
    apply List.map_congr_left
    intro r _
    exact smartMapOne_eq lower r
  refine ⟨tmm1, _, M1, _, h1, h3, g1, g2, hN, ?_⟩
  intro hF
  rw [hN]
  apply List.map_congr_left
  intro r hr
  have hrF : r ∈ F := (List.mem_filter.1 hr).1
  by_cases hs : smartMapType lower r.Name = ""
  · simp [hs, hF r hrF]
  · simp [hs]

/-- Witness of C8 on `movieDoc`: a new record the classifier maps and one it leaves unmapped. -/
theorem C8_classify_gaps_witness :
    ∃ tmm1 D1 M1 N,
      AutoUpdateMapping Char.toLower movieManager "s"
        (Except.ok [{ ID := 6, Name := "纪录片", GlobalType := "" },
                    { ID := 7, Name := "其他", GlobalType := "" }]) "2024-06-01T00:00:00Z" none
        = some (tmm1, none) ∧
      tmm1.config = some D1 ∧ D1.SourceMappings.get "s" = some M1 ∧
      M1.TypeList = existingTypeList movieDoc "s" ++ N ∧
      N = (([{ ID := 6, Name := "纪录片", GlobalType := "" },
             { ID := 7, Name := "其他", GlobalType := "" }] : List SourceType).filter
            fun r => decide (r.ID ∉ (existingTypeList movieDoc "s").map SourceType.ID)).map
            (fun r => { ID := r.ID, Name := r.Name
                        GlobalType := if smartMapType Char.toLower r.Name = "" then r.GlobalType
                                      else smartMapType Char.toLower r.Name }) ∧
      ((∀ r ∈ ([{ ID := 6, Name := "纪录片", GlobalType := "" },
                { ID := 7, Name := "其他", GlobalType := "" }] : List SourceType),
          r.GlobalType = "") →
        N = (([{ ID := 6, Name := "纪录片", GlobalType := "" },
               { ID := 7, Name := "其他", GlobalType := "" }] : List SourceType).filter
              fun r => decide (r.ID ∉ (existingTypeList movieDoc "s").map SourceType.ID)).map
              (fun r => { ID := r.ID, Name := r.Name
                          GlobalType := smartMapType Char.toLower r.Name })) :=
  C8_classify_gaps Char.toLower movieManager movieDoc _ "s" _ _ rfl rfl

/-- A rebuild of a freshly rebuilt manager changes nothing. -/
theorem buildCache_idem (tmm tmm1 : TypeMappingManager) (h : buildCache tmm = some tmm1) :
    buildCache tmm1 = some tmm1 := by
  cases hcfg : tmm.config with
  | none =>
    unfold buildCache at h
    rw [hcfg] at h
    cases h
  | some D =>
    obtain ⟨tmm2, hb, hc, hp, _⟩ := buildCache_spec tmm D hcfg
    rw [h] at hb
    cases hb
    rw [← h]
    obtain ⟨c0, p0, t0, r0, n0⟩ := tmm
    obtain ⟨c1, p1, t1, r1, n1⟩ := tmm1
    simp only at hc hp hcfg
    subst hc hp hcfg
    rfl

/-- C9 (fails as stated): from `movieManager`, a sync of source `s` that fetches the new id
6 and whose file write fails returns an error, yet afterwards the document differs from the
one before and `GetGlobalType("s", 6)`, not found before, returns `documentary`. -/
theorem C9_counterexample :
    (AutoUpdateMapping Char.toLower movieManager "s"
        (Except.ok [{ ID := 6, Name := "纪录片", GlobalType := "" }]) "2024-06-01T00:00:00Z"
        (some "disk full")).map
        (fun r => (r.2, GetGlobalType r.1 "s" 6, decide (r.1.config = movieManager.config)))
      = some (some "保存配置文件失败: disk full", ("documentary", true), false) ∧
    GetGlobalType movieManager "s" 6 = ("", false) ∧
    buildCache movieManager = some movieManager := by
  decide

/-- C9 (amended): when the file write fails during the commit of a sync, `AutoUpdateMapping`
returns an error, and the manager is left exactly as after a sync whose write succeeds: the
document holds the merged type list and the three caches are the ones rebuilt from that
document (nothing is rolled back). -/
theorem C9_failed_save_keeps_merge (lower : Char → Char) (tmm : TypeMappingManager)
    (D : TypeMappingConfig) (sms : MadeMap String SourceMapping) (S : String)
    (F : List SourceType) (now err : String)
    (hD : tmm.config = some D) (hsm : D.SourceMappings = GoMap.made sms) :
    ∃ tmm1 D1 M1,
      AutoUpdateMapping lower tmm S (Except.ok F) now (some err)
        = some (tmm1, some ("保存配置文件失败: " ++ err)) ∧
      AutoUpdateMapping lower tmm S (Except.ok F) now none = some (tmm1, none) ∧
      tmm1.config = some D1 ∧ D1.SourceMappings.get S = some M1 ∧
      M1.TypeList = mergeTypeList lower (existingTypeList D S) F ∧
      buildCache tmm1 = some tmm1 := by
  obtain ⟨tmm1, h1, h2, h3⟩ := AutoUpdateMapping_ok lower tmm D sms S F now (some err) hD hsm
  obtain ⟨tmm2, k1, k2, _⟩ := AutoUpdateMapping_ok lower tmm D sms S F now none hD hsm
  rw [h2] at k2
  cases k2
  obtain ⟨M1, g1, g2, _, _⟩ := syncedConfig_get lower D sms S F now hsm
  exact ⟨tmm1, _, M1, h1, k1, h3, g1, g2, buildCache_idem _ _ h2⟩

/-- Witness of C9 (amended) on `movieManager`. -/
theorem C9_failed_save_keeps_merge_witness :
    ∃ tmm1 D1 M1,
      AutoUpdateMapping Char.toLower movieManager "s"
        (Except.ok [{ ID := 6, Name := "纪录片", GlobalType := "" }]) "2024-06-01T00:00:00Z"
        (some "disk full")
        = some (tmm1, some ("保存配置文件失败: " ++ "disk full")) ∧
      AutoUpdateMapping Char.toLower movieManager "s"
        (Except.ok [{ ID := 6, Name := "纪录片", GlobalType := "" }]) "2024-06-01T00:00:00Z" none
        = some (tmm1, none) ∧
      tmm1.config = some D1 ∧ D1.SourceMappings.get "s" = some M1 ∧
      M1.TypeList = mergeTypeList Char.toLower (existingTypeList movieDoc "s")
        [{ ID := 6, Name := "纪录片", GlobalType := "" }] ∧
      buildCache tmm1 = some tmm1 :=
  C9_failed_save_keeps_merge Char.toLower movieManager movieDoc _ "s" _ _ _ rfl rfl

/-! ## Claim C10: deleting a global type that is in use -/

theorem any_references (m : GoMap String SourceMapping) (typeID S : String) (M : SourceMapping)
    (e : SourceType) (hS : m.get S = some M) (he : e ∈ M.TypeList)
    (hg : e.GlobalType = typeID) :
    (m.range.any fun entry =>
      entry.2.TypeList.any fun sourceType => sourceType.GlobalType == typeID) = true := by
  rw [List.any_eq_true]
  refine ⟨(S, M), ?_, ?_⟩
  · apply MadeMap.mem_of_get_eq_some
    rw [goMap_get_range]
    exact hS
  · rw [List.any_eq_true]
    exact ⟨e, he, by simp [hg]⟩

/-- C10: when the global type `typeID` exists in the document and is the global type of at
least one entry of some source mapping (enabled or not), `handleDeleteGlobalType` fails
(status 409, or 400 for the empty id) and leaves the manager, document and caches, exactly
as it was. -/
theorem C10_delete_referenced (tmm : TypeMappingManager) (D : TypeMappingConfig)
    (typeID S : String) (gt : GlobalType) (M : SourceMapping) (e : SourceType)
    (now : String) (writeErr : Option String)
    (hD : tmm.config = some D) (hG : D.GlobalTypes.get typeID = some gt)
    (hS : D.SourceMappings.get S = some M) (he : e ∈ M.TypeList)
    (hg : e.GlobalType = typeID) :
    ∃ r, handleDeleteGlobalType tmm typeID now writeErr = some (tmm, r) ∧
      r.success ≠ some true ∧ r.status = (if typeID = "" then 400 else 409) := by
  unfold handleDeleteGlobalType
  by_cases h0 : typeID = ""
  · rw [if_pos h0, if_pos h0]
    exact ⟨_, rfl, by simp, rfl⟩
  · rw [if_neg h0, if_neg h0]
    have h1 : (GetGlobalTypes tmm).get typeID = some gt := by
      unfold GetGlobalTypes
      rw [hD]
      exact hG
    have h2 : GetSourceMappings tmm = D.SourceMappings := by
      unfold GetSourceMappings
      rw [hD]
    rw [h1, h2]
    simp only
    rw [if_pos (any_references D.SourceMappings typeID S M e hS he hg)]
    exact ⟨_, rfl, by simp, rfl⟩

/-- Witness of C10: `tv` is used by the disabled source `off` of `movieDoc`. -/
theorem C10_delete_referenced_witness :
    ∃ r, handleDeleteGlobalType movieManager "tv" "2024-06-01T00:00:00Z" none
        = some (movieManager, r) ∧
      r.success ≠ some true ∧ r.status = (if "tv" = "" then 400 else 409) :=
  C10_delete_referenced movieManager movieDoc "tv" "off"
    { ID := "tv", Name := "电视剧", Description := "", Priority := 2, Enabled := true }
    { Name := "off", Enabled := false, TypeList := [{ ID := 1, Name := "x", GlobalType := "tv" }] }
    { ID := 1, Name := "x", GlobalType := "tv" } _ _ rfl rfl rfl (by decide) rfl

/-! ## The classifier -/

theorem smartMapType_eq_chain (lower : Char → Char) (name : String) :
    smartMapType lower name
      = classifyChain
          (matchesSet (stringsToLower lower name) ("movie", movieKeywords))
          (matchesSet (stringsToLower lower name) ("tv", tvKeywords))
          (matchesSet (stringsToLower lower name) ("variety", varietyKeywords))
          (matchesSet (stringsToLower lower name) ("anime", animeKeywords))
          (matchesSet (stringsToLower lower name) ("documentary", documentaryKeywords))
          (matchesSet (stringsToLower lower name) ("sport", sportKeywords))
          (matchesSet (stringsToLower lower name) ("adult", adultKeywords)) := by
  simp only [smartMapType, classifyChain, matchesSet, movieKeywords, tvKeywords, varietyKeywords,
    animeKeywords, documentaryKeywords, sportKeywords, adultKeywords, List.any_cons,
    List.any_nil, Bool.or_false, Bool.or_assoc]

theorem firstMatch_eq_chain (lowered : String) :
    firstMatch lowered
      = classifyChain
          (matchesSet lowered ("movie", movieKeywords))
          (matchesSet lowered ("tv", tvKeywords))
          (matchesSet lowered ("variety", varietyKeywords))
          (matchesSet lowered ("anime", animeKeywords))
          (matchesSet lowered ("documentary", documentaryKeywords))
          (matchesSet lowered ("sport", sportKeywords))
          (matchesSet lowered ("adult", adultKeywords)) := by
  unfold firstMatch keywordSets
  simp only [List.find?_cons, List.find?_nil]
  generalize matchesSet lowered ("movie", movieKeywords) = b1
  generalize matchesSet lowered ("tv", tvKeywords) = b2
  generalize matchesSet lowered ("variety", varietyKeywords) = b3
  generalize matchesSet lowered ("anime", animeKeywords) = b4
  generalize matchesSet lowered ("documentary", documentaryKeywords) = b5
  generalize matchesSet lowered ("sport", sportKeywords) = b6
  generalize matchesSet lowered ("adult", adultKeywords) = b7
  cases b1 <;> cases b2 <;> cases b3 <;> cases b4 <;> cases b5 <;> cases b6 <;> cases b7 <;> rfl

/-- The classifier is the first-match search through `keywordSets`. -/
theorem smartMapType_eq_firstMatch (lower : Char → Char) (name : String) :
    smartMapType lower name = firstMatch (stringsToLower lower name) := by
  rw [smartMapType_eq_chain, firstMatch_eq_chain]

theorem classifyChain_true (b2 b3 b4 b5 b6 b7 : Bool) :
    classifyChain true b2 b3 b4 b5 b6 b7 = "movie" := rfl

theorem matchesSet_of_mem (lowered : String) (set : String × List String) (kw : String)
    (hkw : kw ∈ set.2) (h : stringsContains lowered kw = true) : matchesSet lowered set = true := by
  unfold matchesSet
  rw [List.any_eq_true]
  exact ⟨kw, hkw, h⟩

theorem matchesSet_eq_false_iff (lowered : String) (set : String × List String) :
    matchesSet lowered set = false ↔ ∀ kw ∈ set.2, stringsContains lowered kw = false := by
  unfold matchesSet
  rw [List.any_eq_false]
  constructor
  · intro h kw hkw
    exact Bool.eq_false_iff.2 (h kw hkw)
  · intro h kw hkw
    exact Bool.eq_false_iff.1 (h kw hkw)

theorem smartMapType_movie (lower : Char → Char) (name kw : String) (hkw : kw ∈ movieKeywords)
    (h : stringsContains (stringsToLower lower name) kw = true) :
    smartMapType lower name = "movie" := by
  rw [smartMapType_eq_chain,
    matchesSet_of_mem (stringsToLower lower name) ("movie", movieKeywords) kw hkw h]
  rfl

/-! ## Claims C11 to C13: the classifier -/

/-- C11: for a case mapping that leaves the CJK unified ideographs unchanged and acts on
ASCII as ASCII lower-casing (both hold of Go's `unicode.ToLower`), the classifier returns
`tv` for 国产剧, `documentary` for 纪录片 and the empty string for 完全未知类别XYZ. -/
theorem C11_classifier_examples (lower : Char → Char)
    (hcjk : ∀ c : Char, 0x4E00 ≤ c.toNat → c.toNat ≤ 0x9FFF → lower c = c)
    (hascii : ∀ c : Char, c.toNat < 128 → lower c = c.toLower) :
    smartMapType lower "国产剧" = "tv" ∧ smartMapType lower "纪录片" = "documentary" ∧
      smartMapType lower "完全未知类别XYZ" = "" := by
  have h1 : stringsToLower lower "国产剧" = "国产剧" := by
    show String.mk (['国', '产', '剧'].map lower) = _
    simp only [List.map]
    rw [hcjk '国' (by decide) (by decide), hcjk '产' (by decide) (by decide),
      hcjk '剧' (by decide) (by decide)]
  have h2 : stringsToLower lower "纪录片" = "纪录片" := by
    show String.mk (['纪', '录', '片'].map lower) = _
    simp only [List.map]
    rw [hcjk '纪' (by decide) (by decide), hcjk '录' (by decide) (by decide),
      hcjk '片' (by decide) (by decide)]
  have h3 : stringsToLower lower "完全未知类别XYZ" = "完全未知类别xyz" := by
    show String.mk (['完', '全', '未', '知', '类', '别', 'X', 'Y', 'Z'].map lower) = _
    simp only [List.map]
    rw [hcjk '完' (by decide) (by decide), hcjk '全' (by decide) (by decide),
      hcjk '未' (by decide) (by decide), hcjk '知' (by decide) (by decide),
      hcjk '类' (by decide) (by decide), hcjk '别' (by decide) (by decide),
      hascii 'X' (by decide), hascii 'Y' (by decide), hascii 'Z' (by decide)]
    rfl
  rw [smartMapType_eq_firstMatch, smartMapType_eq_firstMatch, smartMapType_eq_firstMatch,
    h1, h2, h3]
  exact ⟨by decide, by decide, by decide⟩

theorem charToLower_cjk (c : Char) (h1 : 0x4E00 ≤ c.toNat) : Char.toLower c = c := by
  unfold Char.toLower
  have h : ¬ (c.toNat ≥ 65 ∧ c.toNat ≤ 90) := by omega
  rw [if_neg h]

/-- Witness of C11: Lean's ASCII lower-casing satisfies both hypotheses. -/
theorem C11_classifier_examples_witness :
    smartMapType Char.toLower "国产剧" = "tv" ∧
      smartMapType Char.toLower "纪录片" = "documentary" ∧
      smartMapType Char.toLower "完全未知类别XYZ" = "" :=
  C11_classifier_examples Char.toLower (fun c h1 _ => charToLower_cjk c h1) (fun _ _ => rfl)

/-- C12: for every name the classifier returns the code of the first set, in the order
movie, tv, variety, anime, documentary, sport, adult, that has a keyword occurring in the
lower-cased name: a set with a matching keyword wins when no earlier set matches; hence any
name containing a movie keyword is `movie` whatever else it contains, and a name containing
动画片 is `movie`, never `anime`. -/
theorem C12_first_match_wins (lower : Char → Char) (name : String) :
    (smartMapType lower name
      = (match keywordSets.find? (matchesSet (stringsToLower lower name)) with
         | some set => set.1
         | none => "")) ∧
    keywordSets.map Prod.fst
      = ["movie", "tv", "variety", "anime", "documentary", "sport", "adult"] ∧
    (∀ pre set post, keywordSets = pre ++ set :: post →
      (∃ kw ∈ set.2, stringsContains (stringsToLower lower name) kw = true) →
      (∀ s ∈ pre, ∀ kw ∈ s.2, stringsContains (stringsToLower lower name) kw = false) →
      smartMapType lower name = set.1) ∧
    (∀ kw ∈ movieKeywords, stringsContains (stringsToLower lower name) kw = true →
      smartMapType lower name = "movie") ∧
    (stringsContains (stringsToLower lower name) "动画片" = true →
      smartMapType lower name = "movie" ∧ smartMapType lower name ≠ "anime") := by
  refine ⟨smartMapType_eq_firstMatch lower name, rfl, ?_, ?_, ?_⟩
  · intro pre set post hsplit hmatch hpre
    rw [smartMapType_eq_firstMatch]
    unfold firstMatch
    have hfind : keywordSets.find? (matchesSet (stringsToLower lower name)) = some set := by
      rw [List.find?_eq_some]
      obtain ⟨kw, hkw, hc⟩ := hmatch
      refine ⟨matchesSet_of_mem _ set kw hkw hc, pre, post, hsplit, ?_⟩
      intro s hs
      rw [(matchesSet_eq_false_iff _ s).2 (hpre s hs)]
      rfl
    rw [hfind]
  · intro kw hkw h
    exact smartMapType_movie lower name kw hkw h
  · intro h
    have hm := smartMapType_movie lower name "动画片" (by decide) h
    rw [hm]
    exact ⟨rfl, by decide⟩

/-- C13: the classifier returns the empty string if and only if the lower-cased name
contains no keyword of any of the seven sets; otherwise it returns one of the seven codes
movie, tv, variety, anime, documentary, sport, adult. -/
theorem C13_empty_iff_no_keyword (lower : Char → Char) (name : String) :
    (smartMapType lower name = "" ↔
      ∀ set ∈ keywordSets, ∀ kw ∈ set.2,
        stringsContains (stringsToLower lower name) kw = false) ∧
    (smartMapType lower name ≠ "" →
      smartMapType lower name
        ∈ ["movie", "tv", "variety", "anime", "documentary", "sport", "adult"]) := by
  rw [smartMapType_eq_firstMatch]
  unfold firstMatch
  cases hfind : keywordSets.find? (matchesSet (stringsToLower lower name)) with
  | none =>
    rw [List.find?_eq_none] at hfind
    refine ⟨⟨fun _ set hset => ?_, fun _ => rfl⟩, fun h => absurd rfl h⟩
    exact (matchesSet_eq_false_iff _ set).1 (Bool.eq_false_iff.2 (hfind set hset))
  | some set =>
    have hmem : set ∈ keywordSets := List.mem_of_find?_eq_some hfind
    have hp : matchesSet (stringsToLower lower name) set = true := List.find?_some hfind
    have hcode : set.1 ∈ ["movie", "tv", "variety", "anime", "documentary", "sport", "adult"] := by
      have : set.1 ∈ keywordSets.map Prod.fst := List.mem_map.2 ⟨set, hmem, rfl⟩
      exact this
    have hne : set.1 ≠ "" := by
      intro hc
      rw [hc] at hcode
      revert hcode
      decide
    refine ⟨⟨fun h => absurd h hne, fun hall => ?_⟩, fun _ => hcode⟩
    have := (matchesSet_eq_false_iff _ set).2 (hall set hmem)
    rw [hp] at this
    cases this

/-! ## Claim C18: lookup misses -/

/-- C18: a lookup miss is an ordinary negative result.  On a manager on which no document
was ever loaded the three lookups report not found; after a rebuild from a document `D` they
report not found (with the empty string, the empty string and the empty list) for every
source code not in `D`, for every id no entry of the source has, and for every global type
no entry of the source is mapped to.  The lookups are total: none of them can panic. -/
theorem C18_lookup_miss (tmm : TypeMappingManager) (D : TypeMappingConfig)
    (hD : tmm.config = some D) :
    (∀ path S T G,
      GetGlobalType (NewTypeMappingManager path) S T = ("", false) ∧
      GetSourceTypeName (NewTypeMappingManager path) S T = ("", false) ∧
      GetSourceTypeIDs (NewTypeMappingManager path) S G = ([], false)) ∧
    ∃ tmm1, buildCache tmm = some tmm1 ∧
      (∀ S T,
        (D.SourceMappings.get S = none ∨
          ∃ M, D.SourceMappings.get S = some M ∧ ∀ e ∈ M.TypeList, e.ID ≠ T) →
        GetGlobalType tmm1 S T = ("", false) ∧ GetSourceTypeName tmm1 S T = ("", false)) ∧
      (∀ S G,
        (D.SourceMappings.get S = none ∨
          ∃ M, D.SourceMappings.get S = some M ∧ ∀ e ∈ M.TypeList, e.GlobalType ≠ G) →
        GetSourceTypeIDs tmm1 S G = ([], false)) := by
  refine ⟨fun _ _ _ _ => ⟨rfl, rfl, rfl⟩, ?_⟩
  obtain ⟨tmm1, hb, _, _, hc⟩ := buildCache_spec tmm D hD
  refine ⟨tmm1, hb, ?_, ?_⟩
  · intro S T h
    obtain ⟨c1, c2, _⟩ := hc S
    rcases h with h | ⟨M, hM, hall⟩
    · rw [h] at c1 c2
      exact ⟨GetGlobalType_of_get_none c1 T, GetSourceTypeName_of_get_none c2 T⟩
    · rw [hM] at c1 c2
      rw [GetGlobalType_of_get_some c1 T, GetSourceTypeName_of_get_some c2 T,
        get_foldl_indexByID_of_not_mem SourceType.GlobalType T M.TypeList [] hall,
        get_foldl_indexByID_of_not_mem SourceType.Name T M.TypeList [] hall]
      exact ⟨rfl, rfl⟩
  · intro S G h
    rw [GetSourceTypeIDs_rebuilt tmm1 D S G (hc S).2.2]
    rcases h with h | ⟨M, hM, hall⟩
    · rw [h]
    · rw [hM]
      simp only [if_pos ((idsOfGlobalType_eq_nil_iff G M.TypeList).2 hall)]

/-- Witness of C18 on `movieDoc`. -/
theorem C18_lookup_miss_witness :
    (∀ path S T G,
      GetGlobalType (NewTypeMappingManager path) S T = ("", false) ∧
      GetSourceTypeName (NewTypeMappingManager path) S T = ("", false) ∧
      GetSourceTypeIDs (NewTypeMappingManager path) S G = ([], false)) ∧
    ∃ tmm1, buildCache movieManager = some tmm1 ∧
      (∀ S T,
        (movieDoc.SourceMappings.get S = none ∨
          ∃ M, movieDoc.SourceMappings.get S = some M ∧ ∀ e ∈ M.TypeList, e.ID ≠ T) →
        GetGlobalType tmm1 S T = ("", false) ∧ GetSourceTypeName tmm1 S T = ("", false)) ∧
      (∀ S G,
        (movieDoc.SourceMappings.get S = none ∨
          ∃ M, movieDoc.SourceMappings.get S = some M ∧ ∀ e ∈ M.TypeList, e.GlobalType ≠ G) →
        GetSourceTypeIDs tmm1 S G = ([], false)) :=
  C18_lookup_miss movieManager movieDoc rfl

/-! ## The fetch adapter -/

theorem foldl_append_filterMap {α β : Type} (g : α → Option β) (f : List β → α → List β)
    (hf : ∀ acc x, f acc x = acc ++ (g x).toList) (l : List α) :
    ∀ init : List β, l.foldl f init = init ++ l.filterMap g := by
  induction l with
  | nil => intro init; simp
  | cons a l ih =>
    intro init
    rw [List.foldl_cons, ih, hf]
    cases hg : g a with
    | none => simp [List.filterMap_cons, hg]
    | some y => simp [List.filterMap_cons, hg]

theorem extractSourceTypes_class (atoi : String → Option Int) (intOfFloat : ℚ → Int)
    (result : GoMap String JSONValue) (cls : List JSONValue)
    (h : result.get "class" = some (JSONValue.array cls)) :
    extractSourceTypes atoi intOfFloat result = cls.filterMap (sourceTypeOfItem atoi intOfFloat) := by
  unfold extractSourceTypes
  rw [h]
  simp only
  rw [foldl_append_filterMap (sourceTypeOfItem atoi intOfFloat)]
  · rfl
  · intro acc x
    cases sourceTypeOfItem atoi intOfFloat x <;> simp

theorem sourceTypeOfItem_withTypePID (atoi : String → Option Int) (intOfFloat : ℚ → Int)
    (pid item : JSONValue) :
    sourceTypeOfItem atoi intOfFloat (withTypePID pid item) = sourceTypeOfItem atoi intOfFloat item := by
  cases item with
  | object typeMap =>
    have h1 : MadeMap.get (MadeMap.set typeMap "type_pid" pid) "type_id"
        = MadeMap.get typeMap "type_id" := MadeMap.get_set_ne _ _ (by decide)
    have h2 : MadeMap.get (MadeMap.set typeMap "type_pid" pid) "type_name"
        = MadeMap.get typeMap "type_name" := MadeMap.get_set_ne _ _ (by decide)
    simp only [withTypePID, sourceTypeOfItem, getInt, getStringFromTypeMapping, h1, h2]
  | null => rfl
  | bool b => rfl
  | number v => rfl
  | string s => rfl
  | array items => rfl

/-! ## Claims C16 and C17: fetching -/

/-- C16: whenever the fetch step fails, `AutoUpdateMapping` returns an error and the manager
(document and the three caches) is returned unchanged; and the fetch step does fail when the
request cannot be built or sent, when the status is not 200, when the body cannot be read or
parsed, and when the body holds no usable record. -/
theorem C16_fetch_failure (lower : Char → Char) (atoi : String → Option Int)
    (intOfFloat : ℚ → Int) (tmm : TypeMappingManager) (S now : String)
    (writeErr : Option String) :
    (∀ outcome err, FetchSourceTypes atoi intOfFloat outcome = Except.error err →
      AutoUpdateMapping lower tmm S (FetchSourceTypes atoi intOfFloat outcome) now writeErr
        = some (tmm, some ("获取源类型失败: " ++ err))) ∧
    (∀ err, ∃ e, FetchSourceTypes atoi intOfFloat (HTTPOutcome.newRequestError err)
      = Except.error e) ∧
    (∀ err, ∃ e, FetchSourceTypes atoi intOfFloat (HTTPOutcome.doError err) = Except.error e) ∧
    (∀ statusCode body, statusCode ≠ 200 →
      ∃ e, FetchSourceTypes atoi intOfFloat (HTTPOutcome.response statusCode body)
        = Except.error e) ∧
    (∀ statusCode err, ∃ e, FetchSourceTypes atoi intOfFloat
      (HTTPOutcome.response statusCode (BodyOutcome.readError err)) = Except.error e) ∧
    (∀ statusCode err, ∃ e, FetchSourceTypes atoi intOfFloat
      (HTTPOutcome.response statusCode (BodyOutcome.parseError err)) = Except.error e) ∧
    (∀ statusCode result, extractSourceTypes atoi intOfFloat result = [] →
      ∃ e, FetchSourceTypes atoi intOfFloat
        (HTTPOutcome.response statusCode (BodyOutcome.decoded result)) = Except.error e) := by
  refine ⟨?_, fun err => ⟨_, rfl⟩, fun err => ⟨_, rfl⟩, ?_, ?_, ?_, ?_⟩
  · intro outcome err h
    rw [h]
    rfl
  · intro statusCode body h
    exact ⟨_, by simp only [FetchSourceTypes, if_pos h]; rfl⟩
  · intro statusCode err
    by_cases h : statusCode ≠ 200
    · exact ⟨_, by simp only [FetchSourceTypes, if_pos h]; rfl⟩
    · exact ⟨_, by simp only [FetchSourceTypes, if_neg h]; rfl⟩
  · intro statusCode err
    by_cases h : statusCode ≠ 200
    · exact ⟨_, by simp only [FetchSourceTypes, if_pos h]; rfl⟩
    · exact ⟨_, by simp only [FetchSourceTypes, if_neg h]; rfl⟩
  · intro statusCode result hnone
    by_cases h : statusCode ≠ 200
    · exact ⟨_, by simp only [FetchSourceTypes, if_pos h]; rfl⟩
    · refine ⟨"未找到类型数据，响应结构: " ++ formatKeys result, ?_⟩
      simp only [FetchSourceTypes, if_neg h, hnone, List.length_nil, if_true]

/-- Witness of C16: a response with status 503 for a sync of source `s` of `movieManager`. -/
theorem C16_fetch_failure_witness :
    ∃ e, FetchSourceTypes sampleAtoi truncToInt
        (HTTPOutcome.response 503 (BodyOutcome.readError "EOF")) = Except.error e ∧
      AutoUpdateMapping Char.toLower movieManager "s"
        (FetchSourceTypes sampleAtoi truncToInt
          (HTTPOutcome.response 503 (BodyOutcome.readError "EOF"))) "2024-06-01T00:00:00Z" none
        = some (movieManager, some ("获取源类型失败: " ++ e)) := by
  obtain ⟨h1, _, _, h4, _⟩ := C16_fetch_failure Char.toLower sampleAtoi truncToInt
    movieManager "s" "2024-06-01T00:00:00Z" none
  obtain ⟨e, he⟩ := h4 503 (BodyOutcome.readError "EOF") (by decide)
  exact ⟨e, he, h1 _ e he⟩

/-- C17: for every `class` array of a response, the extraction of `FetchSourceTypes` returns,
in array order, exactly the records whose `type_id` (as read by `getInt`) is positive and
whose `type_name` is not empty, each as a `SourceType` with that id and name and an empty
global type; all other records are dropped; replacing the `type_pid` of any record changes
nothing; and `FetchSourceTypes` returns that list when it is not empty. -/
theorem C17_extraction (atoi : String → Option Int) (intOfFloat : ℚ → Int)
    (result : GoMap String JSONValue) (cls : List JSONValue)
    (h : result.get "class" = some (JSONValue.array cls)) :
    extractSourceTypes atoi intOfFloat result
      = cls.filterMap (fun item =>
          match item with
          | JSONValue.object typeMap =>
            if 0 < getInt atoi intOfFloat typeMap "type_id" ∧
                getStringFromTypeMapping typeMap "type_name" ≠ "" then
              some { ID := getInt atoi intOfFloat typeMap "type_id"
                     Name := getStringFromTypeMapping typeMap "type_name"
                     GlobalType := "" }
            else none
          | _ => none) ∧
    (∀ st ∈ extractSourceTypes atoi intOfFloat result,
      0 < st.ID ∧ st.Name ≠ "" ∧ st.GlobalType = "") ∧
    (∀ (pid : JSONValue → JSONValue) (result2 : GoMap String JSONValue),
      result2.get "class" = some (JSONValue.array (cls.map fun item => withTypePID (pid item) item)) →
      extractSourceTypes atoi intOfFloat result2 = extractSourceTypes atoi intOfFloat result) ∧
    (extractSourceTypes atoi intOfFloat result ≠ [] →
      FetchSourceTypes atoi intOfFloat (HTTPOutcome.response 200 (BodyOutcome.decoded result))
        = Except.ok (extractSourceTypes atoi intOfFloat result)) := by
  have hex := extractSourceTypes_class atoi intOfFloat result cls h
  refine ⟨?_, ?_, ?_, ?_⟩
  · rw [hex]
    rfl
  · intro st hst
    rw [hex, List.mem_filterMap] at hst
    obtain ⟨item, _, hitem⟩ := hst
    cases item with
    | object typeMap =>
      simp only [sourceTypeOfItem] at hitem
      split at hitem
      · rename_i hcond
        cases hitem
        exact ⟨hcond.1, hcond.2, rfl⟩
      · cases hitem
    | null => cases hitem
    | bool b => cases hitem
    | number v => cases hitem
    | string s => cases hitem
    | array items => cases hitem
  · intro pid result2 h2
    rw [hex, extractSourceTypes_class atoi intOfFloat result2 _ h2, List.filterMap_map]
    congr 1
    funext item
    exact sourceTypeOfItem_withTypePID atoi intOfFloat (pid item) item
  · intro hne
    have hlen : ¬ (extractSourceTypes atoi intOfFloat result).length = 0 := fun hc =>
      hne (List.length_eq_zero.1 hc)
    simp only [FetchSourceTypes, ne_eq, not_true_eq_false, if_false, hlen]

/-- Witness of C17 on `sampleClass`. -/
theorem C17_extraction_witness :
    extractSourceTypes sampleAtoi truncToInt
        (GoMap.made [("class", JSONValue.array sampleClass)])
      = [{ ID := 1, Name := "电影", GlobalType := "" },
         { ID := 20, Name := "国产剧", GlobalType := "" }] := by
  rw [(C17_extraction sampleAtoi truncToInt
    (GoMap.made [("class", JSONValue.array sampleClass)]) sampleClass rfl).1]
  decide

/-! ## Batch initialisation -/

theorem MadeMap.get_ne_none_of_mem_keys {K V : Type} [DecidableEq K] (m : MadeMap K V) (x : K)
    (h : x ∈ m.map Prod.fst) : MadeMap.get m x ≠ none := by
  induction m with
  | nil => cases h
  | cons p rest ih =>
    obtain ⟨k1, v1⟩ := p
    rw [MadeMap.get_cons]
    by_cases hx : x = k1
    · rw [if_pos hx]
      exact fun hc => Option.noConfusion hc
    · rw [if_neg hx]
      simp only [List.map_cons, List.mem_cons] at h
      rcases h with h | h
      · exact absurd h hx
      · exact ih h

/-- One iteration of the batch loop, on a manager holding a document whose source-mapping
map exists: it returns, the map still exists, only the visited source can change. -/
theorem initOneSource_spec (lower : Char → Char) (atoi : String → Option Int)
    (intOfFloat : ℚ → Int) (env : BatchEnv) (tmm : TypeMappingManager)
    (D : TypeMappingConfig) (sms : MadeMap String SourceMapping) (S : String)
    (entry : SourceEntry)
    (hD : tmm.config = some D) (hsm : D.SourceMappings = GoMap.made sms) :
    ∃ tmm1 D1 sms1,
      initOneSource lower atoi intOfFloat env tmm (S, entry) = some tmm1 ∧
      tmm1.config = some D1 ∧ D1.SourceMappings = GoMap.made sms1 ∧
      D1.GlobalTypes = D.GlobalTypes ∧
      (∀ S1, S1 ≠ S → sms1.get S1 = sms.get S1) ∧
      BatchOutcome lower atoi intOfFloat env sms sms1 S entry := by
  unfold initOneSource BatchOutcome
  by_cases hen : entry.Enabled = false
  · refine ⟨tmm, D, sms, by simp only [hen, if_true], hD, hsm, rfl, fun _ _ => rfl,
      fun _ => rfl, fun h => ?_⟩
    rw [hen] at h
    cases h
  · have hen1 : entry.Enabled = true := by
      cases h : entry.Enabled
      · exact absurd h hen
      · rfl
    have hget : D.SourceMappings.get S = sms.get S := by rw [hsm]; rfl
    simp only [hen, if_false, hD, hget]
    cases hS : MadeMap.get sms S with
    | some M0 =>
      refine ⟨tmm, D, sms, rfl, hD, hsm, rfl, fun _ _ => rfl, fun _ => hS.symm ▸ rfl,
        fun _ h => ?_⟩
      cases h
    | none =>
      cases hF : FetchSourceTypes atoi intOfFloat (env.http S entry.URL) with
      | error err =>
        refine ⟨tmm, D, sms, rfl, hD, hsm, rfl, fun _ _ => rfl, fun _ => hS.symm ▸ rfl,
          fun _ _ => ⟨fun _ _ => hS, fun F h => ?_⟩⟩
        cases h
      | ok F =>
        obtain ⟨tmm1, h1, _, h3⟩ := AutoUpdateMapping_ok lower tmm D sms S F (env.now S)
          (env.writeErr S) hD hsm
        have hcur : currentMapping sms S = { Name := S, Enabled := true, TypeList := [] } := by
          unfold currentMapping
          rw [hS]
          rfl
        rw [h1]
        cases hw : env.writeErr S with
        | some werr =>
          refine ⟨tmm1, _, _, rfl, h3, rfl, rfl, fun S1 hS1 => MadeMap.get_set_ne _ _ hS1,
            fun h => ?_, fun _ _ => ⟨fun err h => ?_, fun F1 h => ?_⟩⟩
          · rcases h with h | h
            · cases h
            · exact absurd rfl h
          · cases h
          · cases h
            refine ⟨_, MadeMap.get_set_self _ _ _, ?_⟩
            rw [hcur]
        | none =>
          simp only [Option.map_none', h3]
          have hg : (syncedConfig lower D sms S F (env.now S)).SourceMappings.get S
              = some { Name := (currentMapping sms S).Name
                       Enabled := (currentMapping sms S).Enabled
                       TypeList := mergeTypeList lower (currentMapping sms S).TypeList F } :=
            MadeMap.get_set_self _ _ _
          rw [hg]
          refine ⟨_, _, _, rfl, rfl, rfl, rfl, fun S1 hS1 => ?_, fun h => ?_,
            fun _ _ => ⟨fun err h => ?_, fun F1 h => ?_⟩⟩
          · rw [MadeMap.get_set_ne _ _ hS1]
            exact MadeMap.get_set_ne _ _ hS1
          · rcases h with h | h
            · cases h
            · exact absurd rfl h
          · cases h
          · cases h
            refine ⟨_, MadeMap.get_set_self _ _ _, ?_⟩
            rw [hcur]

theorem BatchOutcome_congr (lower : Char → Char) (atoi : String → Option Int)
    (intOfFloat : ℚ → Int) (env : BatchEnv) (smsA smsB sms1A sms1B : MadeMap String SourceMapping)
    (S : String) (entry : SourceEntry) (h0 : MadeMap.get smsA S = MadeMap.get smsB S)
    (h1 : MadeMap.get sms1A S = MadeMap.get sms1B S)
    (h : BatchOutcome lower atoi intOfFloat env smsA sms1A S entry) :
    BatchOutcome lower atoi intOfFloat env smsB sms1B S entry := by
  unfold BatchOutcome at h ⊢
  rw [← h0, ← h1]
  exact h

/-- The batch loop over entries with pairwise distinct source codes, on a manager holding a
document whose source-mapping map exists: it returns, and every listed source ends as
`BatchOutcome` says, every other source as it was. -/
theorem initLoop_spec (lower : Char → Char) (atoi : String → Option Int)
    (intOfFloat : ℚ → Int) (env : BatchEnv) (entries : List (String × SourceEntry)) :
    ∀ (tmm : TypeMappingManager) (D : TypeMappingConfig) (sms : MadeMap String SourceMapping),
      tmm.config = some D → D.SourceMappings = GoMap.made sms →
      (entries.map Prod.fst).Nodup →
      ∃ tmm1 D1 sms1,
        initLoop lower atoi intOfFloat env entries tmm = some tmm1 ∧
        tmm1.config = some D1 ∧ D1.SourceMappings = GoMap.made sms1 ∧
        D1.GlobalTypes = D.GlobalTypes ∧
        (∀ S, S ∉ entries.map Prod.fst → sms1.get S = sms.get S) ∧
        (∀ S entry, (S, entry) ∈ entries →
          BatchOutcome lower atoi intOfFloat env sms sms1 S entry) := by
  induction entries with
  | nil =>
    intro tmm D sms hD hsm _
    exact ⟨tmm, D, sms, rfl, hD, hsm, rfl, fun _ _ => rfl, fun _ _ h => by cases h⟩
  | cons p rest ih =>
    obtain ⟨S0, e0⟩ := p
    intro tmm D sms hD hsm hnd
    simp only [List.map_cons, List.nodup_cons] at hnd
    obtain ⟨tmmA, DA, smsA, a1, a2, a3, a4, a5, a6⟩ :=
      initOneSource_spec lower atoi intOfFloat env tmm D sms S0 e0 hD hsm
    obtain ⟨tmm1, D1, sms1, b1, b2, b3, b4, b5, b6⟩ := ih tmmA DA smsA a2 a3 hnd.2
    refine ⟨tmm1, D1, sms1, ?_, b2, b3, b4.trans a4, ?_, ?_⟩
    · simp only [initLoop, a1]
      exact b1
    · intro S hS
      simp only [List.map_cons, List.mem_cons, not_or] at hS
      rw [b5 S hS.2, a5 S hS.1]
    · intro S entry hmem
      rcases List.mem_cons.1 hmem with heq | hrest
      · cases heq
        exact BatchOutcome_congr lower atoi intOfFloat env sms sms smsA sms1 S0 e0 rfl
          (b5 S0 hnd.1).symm a6
      · have hSkeys : S ∈ rest.map Prod.fst := List.mem_map.2 ⟨(S, entry), hrest, rfl⟩
        have hne : S ≠ S0 := fun hc => hnd.1 (hc ▸ hSkeys)
        exact BatchOutcome_congr lower atoi intOfFloat env smsA sms sms1 sms1 S entry
          (a5 S hne) rfl (b6 S entry hrest)

theorem saveConfig_of_config (tmm : TypeMappingManager) (D : TypeMappingConfig)
    (writeErr : Option String) (h : tmm.config = some D) :
    saveConfig tmm writeErr = writeErr.map fun err => "保存配置文件失败: " ++ err := by
  unfold saveConfig
  rw [h]
  cases writeErr <;> rfl

/-- The whole batch on a parsed sources file. -/
theorem InitializeAllSourcesFromConfig_spec (lower : Char → Char) (atoi : String → Option Int)
    (intOfFloat : ℚ → Int) (tmm : TypeMappingManager) (D : TypeMappingConfig)
    (sms : MadeMap String SourceMapping) (sources : MadeMap String SourceEntry) (env : BatchEnv)
    (hD : tmm.config = some D) (hsm : D.SourceMappings = GoMap.made sms) :
    ∃ tmm1 D1 sms1,
      InitializeAllSourcesFromConfig lower atoi intOfFloat tmm
          (SourcesFile.decoded (GoMap.made sources)) env
        = some (tmm1, env.finalWriteErr.map fun err => "保存配置文件失败: " ++ err) ∧
      tmm1.config = some D1 ∧ D1.SourceMappings = GoMap.made sms1 ∧
      D1.GlobalTypes = D.GlobalTypes ∧
      (∀ S, sources.get S = none → sms1.get S = sms.get S) ∧
      (∀ S entry, sources.get S = some entry →
        BatchOutcome lower atoi intOfFloat env sms sms1 S entry) := by
  obtain ⟨tmm1, D1, sms1, b1, b2, b3, b4, b5, b6⟩ :=
    initLoop_spec lower atoi intOfFloat env (MadeMap.range sources) tmm D sms hD hsm
      (MadeMap.nodup_keys_range sources)
  refine ⟨tmm1, D1, sms1, ?_, b2, b3, b4, ?_, ?_⟩
  · simp only [InitializeAllSourcesFromConfig, GoMap.range, b1,
      saveConfig_of_config tmm1 D1 env.finalWriteErr b2]
  · intro S hS
    apply b5
    intro hmem
    have := MadeMap.get_ne_none_of_mem_keys (MadeMap.range sources) S hmem
    rw [MadeMap.get_range] at this
    exact this hS
  · intro S entry hS
    apply b6
    apply MadeMap.mem_of_get_eq_some
    rw [MadeMap.get_range]
    exact hS

/-! ## The batch on a document whose source-mapping map exists (claim C15) -/

/-- Isolation in the batch, where it holds: on a manager holding a document whose
source-mapping map exists, for every parsed sources file and every assignment of fetch (and
file-write) outcomes, initialize-all runs to completion; every enabled, not yet mapped source
whose fetch fails ends without mapping, and every such source whose fetch succeeds ends with
a mapping built from its fetched list, whatever happened to the other sources.  Without the
map the batch does not complete, see `initLoop_nil_map_panic`. -/
theorem InitializeAllSourcesFromConfig_isolation (lower : Char → Char) (atoi : String → Option Int)
    (intOfFloat : ℚ → Int) (tmm : TypeMappingManager) (D : TypeMappingConfig)
    (sms : MadeMap String SourceMapping) (sources : MadeMap String SourceEntry) (env : BatchEnv)
    (hD : tmm.config = some D) (hsm : D.SourceMappings = GoMap.made sms) :
    ∃ tmm1 D1 sms1,
      InitializeAllSourcesFromConfig lower atoi intOfFloat tmm
          (SourcesFile.decoded (GoMap.made sources)) env
        = some (tmm1, env.finalWriteErr.map fun err => "保存配置文件失败: " ++ err) ∧
      tmm1.config = some D1 ∧ D1.SourceMappings = GoMap.made sms1 ∧
      ∀ S entry, sources.get S = some entry → entry.Enabled = true → sms.get S = none →
        (∀ err, FetchSourceTypes atoi intOfFloat (env.http S entry.URL) = Except.error err →
          sms1.get S = none) ∧
        (∀ F, FetchSourceTypes atoi intOfFloat (env.http S entry.URL) = Except.ok F →
          ∃ M, sms1.get S = some M ∧ M.TypeList = mergeTypeList lower [] F) := by
  obtain ⟨tmm1, D1, sms1, b1, b2, b3, _, _, b6⟩ :=
    InitializeAllSourcesFromConfig_spec lower atoi intOfFloat tmm D sms sources env hD hsm
  exact ⟨tmm1, D1, sms1, b1, b2, b3, fun S entry hS hen hnew => (b6 S entry hS).2 hen hnew⟩

/-- Isolation on `movieManager`: three enabled new sources `a`, `b`, `c`; the fetch of `b`
fails. -/
theorem InitializeAllSourcesFromConfig_isolation_example :
    ∃ tmm1 D1 sms1,
      InitializeAllSourcesFromConfig Char.toLower sampleAtoi truncToInt movieManager
          (SourcesFile.decoded (GoMap.made batchSources)) batchEnv = some (tmm1, none) ∧
      tmm1.config = some D1 ∧ D1.SourceMappings = GoMap.made sms1 ∧
      sms1.get "b" = none ∧
      (∃ M, sms1.get "a" = some M ∧
        M.TypeList = [{ ID := 1, Name := "电影", GlobalType := "movie" },
                      { ID := 20, Name := "国产剧", GlobalType := "tv" }]) ∧
      (∃ M, sms1.get "c" = some M ∧
        M.TypeList = [{ ID := 1, Name := "电影", GlobalType := "movie" },
                      { ID := 20, Name := "国产剧", GlobalType := "tv" }]) := by
  obtain ⟨tmm1, D1, sms1, h1, h2, h3, h4⟩ :=
    InitializeAllSourcesFromConfig_isolation Char.toLower sampleAtoi truncToInt movieManager
      movieDoc _ batchSources
      batchEnv rfl rfl
  refine ⟨tmm1, D1, sms1, h1, h2, h3, ?_, ?_, ?_⟩
  · exact (h4 "b" _ rfl rfl (by decide)).1 _ rfl
  · obtain ⟨M, hM, hT⟩ := (h4 "a" _ rfl rfl (by decide)).2
      [{ ID := 1, Name := "电影", GlobalType := "" }, { ID := 20, Name := "国产剧", GlobalType := "" }]
      (by rfl)
    exact ⟨M, hM, hT.trans (by decide)⟩
  · obtain ⟨M, hM, hT⟩ := (h4 "c" _ rfl rfl (by decide)).2
      [{ ID := 1, Name := "电影", GlobalType := "" }, { ID := 20, Name := "国产剧", GlobalType := "" }]
      (by rfl)
    exact ⟨M, hM, hT.trans (by decide)⟩

/-- C15: on a manager holding a document whose source-mapping map exists, initialize-all
leaves every source that is disabled, that already has a mapping, or that the sources file
does not list exactly as it was (mapping unchanged, or still absent), whatever the fetch
adapter would return for it. -/
theorem C15_batch_eligibility (lower : Char → Char) (atoi : String → Option Int)
    (intOfFloat : ℚ → Int) (tmm : TypeMappingManager) (D : TypeMappingConfig)
    (sms : MadeMap String SourceMapping) (sources : MadeMap String SourceEntry) (env : BatchEnv)
    (hD : tmm.config = some D) (hsm : D.SourceMappings = GoMap.made sms) :
    ∃ tmm1 D1 sms1,
      InitializeAllSourcesFromConfig lower atoi intOfFloat tmm
          (SourcesFile.decoded (GoMap.made sources)) env
        = some (tmm1, env.finalWriteErr.map fun err => "保存配置文件失败: " ++ err) ∧
      tmm1.config = some D1 ∧ D1.SourceMappings = GoMap.made sms1 ∧
      ∀ S,
        (sources.get S = none ∨ (∃ entry, sources.get S = some entry ∧ entry.Enabled = false) ∨
          sms.get S ≠ none) →
        sms1.get S = sms.get S := by
  obtain ⟨tmm1, D1, sms1, b1, b2, b3, _, b5, b6⟩ :=
    InitializeAllSourcesFromConfig_spec lower atoi intOfFloat tmm D sms sources env hD hsm
  refine ⟨tmm1, D1, sms1, b1, b2, b3, ?_⟩
  intro S h
  rcases h with h | ⟨entry, hS, hoff⟩ | h
  · exact b5 S h
  · exact (b6 S entry hS).1 (Or.inl hoff)
  · cases hS : MadeMap.get sources S with
    | none => exact b5 S hS
    | some entry => exact (b6 S entry hS).1 (Or.inr h)

/-- Witness of C15: `s` is enabled but mapped, `off` is disabled and mapped, `d` is disabled
and has no mapping. -/
theorem C15_batch_eligibility_witness :
    ∃ tmm1 D1 sms1,
      InitializeAllSourcesFromConfig Char.toLower sampleAtoi truncToInt movieManager
          (SourcesFile.decoded (GoMap.made batchSources)) batchEnv = some (tmm1, none) ∧
      tmm1.config = some D1 ∧ D1.SourceMappings = GoMap.made sms1 ∧
      sms1.get "s" = movieDoc.SourceMappings.get "s" ∧
      sms1.get "off" = movieDoc.SourceMappings.get "off" ∧
      sms1.get "d" = none := by
  obtain ⟨tmm1, D1, sms1, h1, h2, h3, h4⟩ :=
    C15_batch_eligibility Char.toLower sampleAtoi truncToInt movieManager movieDoc _ batchSources
      batchEnv rfl rfl
  refine ⟨tmm1, D1, sms1, h1, h2, h3, ?_, ?_, ?_⟩
  · exact h4 "s" (Or.inr (Or.inr (by decide)))
  · exact h4 "off" (Or.inr (Or.inl ⟨_, rfl, rfl⟩))
  · exact h4 "d" (Or.inr (Or.inl ⟨_, rfl, rfl⟩))

/-! ## Administrative handlers -/

/-- `UpdateConfig` on any manager returns: the document is the new one stamped with `now`,
the caches are rebuilt from it, and the result is the result of the file write. -/
theorem UpdateConfig_spec (tmm : TypeMappingManager) (C : TypeMappingConfig) (now : String)
    (writeErr : Option String) :
    ∃ tmm2,
      UpdateConfig tmm C now writeErr
        = some (tmm2, writeErr.map fun err => "保存配置文件失败: " ++ err) ∧
      tmm2.config = some { C with LastUpdated := now } ∧ buildCache tmm2 = some tmm2 := by
  obtain ⟨tmm2, hb, hcfg, _, _⟩ := buildCache_spec
    { tmm with config := some { C with LastUpdated := now } } _ rfl
  refine ⟨tmm2, ?_, hcfg, buildCache_idem _ _ hb⟩
  unfold UpdateConfig
  simp only [hb, saveConfig_of_config tmm2 _ writeErr hcfg]

theorem commitAndRespond_spec (tmm : TypeMappingManager) (C : TypeMappingConfig) (now : String)
    (writeErr : Option String) (okMessage : String) :
    ∃ tmm1 r,
      commitAndRespond tmm C now writeErr okMessage = some (tmm1, r) ∧
      tmm1.config = some { C with LastUpdated := now } ∧ buildCache tmm1 = some tmm1 ∧
      (writeErr = none → r = { status := 200, success := some true, message := okMessage }) ∧
      (writeErr ≠ none → r.status = 500 ∧ r.success = some false) := by
  obtain ⟨tmm2, h1, h2, h3⟩ := UpdateConfig_spec tmm C now writeErr
  unfold commitAndRespond
  rw [h1]
  cases writeErr with
  | none => exact ⟨tmm2, _, rfl, h2, h3, fun _ => rfl, fun h => absurd rfl h⟩
  | some err => exact ⟨tmm2, _, rfl, h2, h3, fun h => Option.noConfusion h, fun _ => ⟨rfl, rfl⟩⟩

theorem firstUnknownGlobalType_eq_none_iff (globalTypes : GoMap String GlobalType)
    (typeList : List SourceType) :
    firstUnknownGlobalType globalTypes typeList = none ↔
      ∀ e ∈ typeList, e.GlobalType = "" ∨ globalTypes.get e.GlobalType ≠ none := by
  unfold firstUnknownGlobalType
  rw [List.find?_eq_none]
  constructor
  · intro h e he
    have := h e he
    by_cases h0 : e.GlobalType = ""
    · exact Or.inl h0
    · right
      intro hn
      apply this
      simp [h0, hn]
  · intro h e he hc
    simp only [Bool.and_eq_true, Bool.not_eq_true', decide_eq_false_iff_not,
      Option.isNone_iff_eq_none] at hc
    rcases h e he with h1 | h1
    · exact hc.1 h1
    · exact h1 hc.2

/-! ## Claim C19: a source mapping that names an unknown global type -/

/-- C19: a create or update of a source mapping whose type list contains an entry with a
non-empty global type that is no key of the global types is rejected and the manager
(document and caches) is returned unchanged; a type list all of whose non-empty global types
are known (in particular one with empty global types only) passes the check, so that, with
a source code given, the create of a new mapping and the update of an existing one are
committed. -/
theorem C19_unknown_global_type_rejected (tmm : TypeMappingManager)
    (sourceMapping : SourceMapping) (sourceCode now : String) (writeErr : Option String) :
    ((∃ e ∈ sourceMapping.TypeList,
        e.GlobalType ≠ "" ∧ (GetGlobalTypes tmm).get e.GlobalType = none) →
      (∃ r, handleCreateSourceMapping tmm (some sourceMapping) sourceCode now writeErr
          = some (tmm, r) ∧ r.status ≠ 200 ∧ r.success ≠ some true) ∧
      (∃ r, handleUpdateSourceMapping tmm (some sourceMapping) sourceCode now writeErr
          = some (tmm, r) ∧ r.status ≠ 200 ∧ r.success ≠ some true)) ∧
    (∀ D, tmm.config = some D →
      (∀ e ∈ sourceMapping.TypeList,
        e.GlobalType = "" ∨ D.GlobalTypes.get e.GlobalType ≠ none) →
      sourceCode ≠ "" →
      (D.SourceMappings.get sourceCode = none →
        ∃ tmm1 D1, handleCreateSourceMapping tmm (some sourceMapping) sourceCode now none
            = some (tmm1, { status := 200, success := some true,
                            message := "Source mapping created successfully" }) ∧
          tmm1.config = some D1 ∧ D1.SourceMappings.get sourceCode = some sourceMapping) ∧
      (D.SourceMappings.get sourceCode ≠ none →
        ∃ tmm1 D1, handleUpdateSourceMapping tmm (some sourceMapping) sourceCode now none
            = some (tmm1, { status := 200, success := some true,
                            message := "Source mapping updated successfully" }) ∧
          tmm1.config = some D1 ∧ D1.SourceMappings.get sourceCode = some sourceMapping)) := by
  refine ⟨?_, ?_⟩
  · rintro ⟨e, he, hne, hunk⟩
    have hfind : ∃ st, firstUnknownGlobalType (GetGlobalTypes tmm) sourceMapping.TypeList
        = some st := by
      cases hf : firstUnknownGlobalType (GetGlobalTypes tmm) sourceMapping.TypeList with
      | some st => exact ⟨st, rfl⟩
      | none =>
        rcases (firstUnknownGlobalType_eq_none_iff _ _).1 hf e he with h | h
        · exact absurd h hne
        · exact absurd hunk h
    obtain ⟨st, hst⟩ := hfind
    constructor
    · unfold handleCreateSourceMapping
      simp only [hst]
      by_cases h0 : sourceCode = ""
      · rw [if_pos h0]
        exact ⟨_, rfl, by decide, by simp⟩
      · rw [if_neg h0]
        cases (GetSourceMappings tmm).get sourceCode with
        | some M => exact ⟨_, rfl, by simp, by simp⟩
        | none => exact ⟨_, rfl, by simp, by simp⟩
    · unfold handleUpdateSourceMapping
      simp only [hst]
      by_cases h0 : sourceCode = ""
      · rw [if_pos h0]
        exact ⟨_, rfl, by decide, by simp⟩
      · rw [if_neg h0]
        cases (GetSourceMappings tmm).get sourceCode with
        | some M => exact ⟨_, rfl, by simp, by simp⟩
        | none => exact ⟨_, rfl, by simp, by simp⟩
  · intro D hD hall h0
    have hgt : GetGlobalTypes tmm = D.GlobalTypes := by unfold GetGlobalTypes; rw [hD]
    have hsm : GetSourceMappings tmm = D.SourceMappings := by unfold GetSourceMappings; rw [hD]
    have hf : firstUnknownGlobalType (GetGlobalTypes tmm) sourceMapping.TypeList = none := by
      rw [hgt]
      exact (firstUnknownGlobalType_eq_none_iff _ _).2 hall
    constructor
    · intro hnew
      unfold handleCreateSourceMapping
      simp only [if_neg h0, hsm, hnew, hf, hD]
      obtain ⟨tmm1, r, c1, c2, _, c4, _⟩ := commitAndRespond_spec tmm
        { D with SourceMappings := GoMap.made (MadeMap.set
            (match D.SourceMappings with
             | GoMap.nil => []
             | GoMap.made m => m) sourceCode sourceMapping) }
        now none "Source mapping created successfully"
      rw [c4 rfl] at c1
      exact ⟨tmm1, _, c1, c2, MadeMap.get_set_self _ _ _⟩
    · intro hold
      unfold handleUpdateSourceMapping
      cases hget : D.SourceMappings.get sourceCode with
      | none => exact absurd hget hold
      | some M0 =>
        cases hm : D.SourceMappings with
        | nil =>
          rw [hm] at hget
          cases hget
        | made sms =>
          simp only [if_neg h0, hsm, hm, hf, hD, GoMap.set]
          rw [hm] at hget
          simp only [hget]
          obtain ⟨tmm1, r, c1, c2, _, c4, _⟩ := commitAndRespond_spec tmm
            { D with SourceMappings := GoMap.made (MadeMap.set sms sourceCode sourceMapping) }
            now none "Source mapping updated successfully"
          rw [c4 rfl] at c1
          exact ⟨tmm1, _, c1, c2, MadeMap.get_set_self _ _ _⟩

/-- Witness of C19 on `movieManager`, whose global types are `movie` and `tv`: a mapping
naming `anime` is rejected, a mapping with an empty and a known global type is created. -/
theorem C19_unknown_global_type_rejected_witness :
    (∃ r, handleCreateSourceMapping movieManager
        (some { Name := "n", Enabled := true
                TypeList := [{ ID := 1, Name := "动漫", GlobalType := "anime" }] })
        "n" "2024-06-01T00:00:00Z" none = some (movieManager, r) ∧
      r.status ≠ 200 ∧ r.success ≠ some true) ∧
    (∃ tmm1 D1, handleCreateSourceMapping movieManager
        (some { Name := "n", Enabled := true
                TypeList := [{ ID := 1, Name := "其他", GlobalType := "" },
                             { ID := 2, Name := "电影", GlobalType := "movie" }] })
        "n" "2024-06-01T00:00:00Z" none
        = some (tmm1, { status := 200, success := some true,
                        message := "Source mapping created successfully" }) ∧
      tmm1.config = some D1 ∧
      D1.SourceMappings.get "n" = some
        { Name := "n", Enabled := true
          TypeList := [{ ID := 1, Name := "其他", GlobalType := "" },
                       { ID := 2, Name := "电影", GlobalType := "movie" }] }) :=
  ⟨((C19_unknown_global_type_rejected movieManager _ "n" "2024-06-01T00:00:00Z" none).1
      ⟨{ ID := 1, Name := "动漫", GlobalType := "anime" }, by decide, by decide, by decide⟩).1,
   ((C19_unknown_global_type_rejected movieManager _ "n" "2024-06-01T00:00:00Z" none).2
      movieDoc rfl (by decide) (by decide)).1 (by decide)⟩

/-! ## Claim C20: invariant I1 under the administrative operations -/

theorem satisfiesI1_of_check (D : TypeMappingConfig) (h : checkI1 D = true) : SatisfiesI1 D := by
  intro S M e hS he hne
  unfold checkI1 at h
  rw [List.all_eq_true] at h
  have hmem : (S, M) ∈ D.SourceMappings.range := by
    apply MadeMap.mem_of_get_eq_some
    rw [goMap_get_range]
    exact hS
  have h1 := h (S, M) hmem
  rw [List.all_eq_true] at h1
  have h2 := h1 e he
  simp only [Bool.or_eq_true, decide_eq_true_eq] at h2
  rcases h2 with h2 | h2
  · exact absurd h2 hne
  · intro hc
    rw [hc] at h2
    cases h2

theorem satisfiesI1_stamp (C : TypeMappingConfig) (now : String) (h : SatisfiesI1 C) :
    SatisfiesI1 { C with LastUpdated := now } := h

/-- A handler that answers without touching the manager keeps I1. -/
theorem unchanged_keeps_I1 (tmm : TypeMappingManager) (D : TypeMappingConfig) (r : Response)
    (hD : tmm.config = some D) (hI : SatisfiesI1 D) :
    ∃ tmm1 r1 D1, some (tmm, r) = some (tmm1, r1) ∧ tmm1.config = some D1 ∧ SatisfiesI1 D1 :=
  ⟨tmm, r, D, rfl, hD, hI⟩

/-- A handler that commits a document satisfying I1 leaves a document satisfying I1. -/
theorem commit_keeps_I1 (tmm : TypeMappingManager) (C : TypeMappingConfig) (now : String)
    (writeErr : Option String) (okMessage : String) (hI : SatisfiesI1 C) :
    ∃ tmm1 r1 D1, commitAndRespond tmm C now writeErr okMessage = some (tmm1, r1) ∧
      tmm1.config = some D1 ∧ SatisfiesI1 D1 := by
  obtain ⟨tmm1, r, c1, c2, _⟩ := commitAndRespond_spec tmm C now writeErr okMessage
  exact ⟨tmm1, r, _, c1, c2, satisfiesI1_stamp C now hI⟩

theorem handleDeleteGlobalType_commit (tmm : TypeMappingManager) (C : TypeMappingConfig)
    (now : String) (writeErr : Option String) :
    (match UpdateConfig tmm C now writeErr with
     | none => none
     | some (tmm1, some err) =>
       some (tmm1, ({ status := 500, success := some false,
                      message := "Failed to update config: " ++ err } : Response))
     | some (tmm1, none) =>
       some (tmm1, { status := 200, success := some true,
                     message := "Global type deleted successfully" }))
      = commitAndRespond tmm C now writeErr "Global type deleted successfully" := by
  unfold commitAndRespond
  rfl

theorem MadeMap.get_set_ne_none {K V : Type} [DecidableEq K] (m : MadeMap K V) (k x : K) (v : V)
    (h : MadeMap.get m x ≠ none) : MadeMap.get (MadeMap.set m k v) x ≠ none := by
  rw [MadeMap.get_set]
  by_cases hx : x = k
  · rw [if_pos hx]
    exact fun hc => Option.noConfusion hc
  · rw [if_neg hx]
    exact h

theorem handleCreateGlobalType_I1 (tmm : TypeMappingManager) (D : TypeMappingConfig)
    (body : Option GlobalType) (now : String) (writeErr : Option String)
    (hD : tmm.config = some D) (hI : SatisfiesI1 D) :
    ∃ tmm1 r D1, handleCreateGlobalType tmm body now writeErr = some (tmm1, r) ∧
      tmm1.config = some D1 ∧ SatisfiesI1 D1 := by
  unfold handleCreateGlobalType
  cases body with
  | none => exact unchanged_keeps_I1 tmm D _ hD hI
  | some globalType =>
    simp only
    by_cases h0 : globalType.ID = "" ∨ globalType.Name = ""
    · rw [if_pos h0]
      exact unchanged_keeps_I1 tmm D _ hD hI
    · rw [if_neg h0]
      cases (GetGlobalTypes tmm).get globalType.ID with
      | some g => exact unchanged_keeps_I1 tmm D _ hD hI
      | none =>
        simp only [hD]
        apply commit_keeps_I1
        intro S M e hS he hne
        have h1 := hI S M e hS he hne
        cases hg : D.GlobalTypes with
        | nil =>
          rw [hg] at h1
          exact absurd rfl h1
        | made m =>
          rw [hg] at h1
          exact MadeMap.get_set_ne_none m _ _ _ h1

theorem handleUpdateGlobalType_I1 (tmm : TypeMappingManager) (D : TypeMappingConfig)
    (body : Option GlobalType) (now : String) (writeErr : Option String)
    (hD : tmm.config = some D) (hI : SatisfiesI1 D) :
    ∃ tmm1 r D1, handleUpdateGlobalType tmm body now writeErr = some (tmm1, r) ∧
      tmm1.config = some D1 ∧ SatisfiesI1 D1 := by
  unfold handleUpdateGlobalType
  cases body with
  | none => exact unchanged_keeps_I1 tmm D _ hD hI
  | some globalType =>
    simp only
    by_cases h0 : globalType.ID = "" ∨ globalType.Name = ""
    · rw [if_pos h0]
      exact unchanged_keeps_I1 tmm D _ hD hI
    · rw [if_neg h0]
      have hgt : GetGlobalTypes tmm = D.GlobalTypes := by unfold GetGlobalTypes; rw [hD]
      rw [hgt]
      cases hget : D.GlobalTypes.get globalType.ID with
      | none => exact unchanged_keeps_I1 tmm D _ hD hI
      | some g =>
        simp only [hD]
        cases hg : D.GlobalTypes with
        | nil =>
          rw [hg] at hget
          cases hget
        | made m =>
          simp only [GoMap.set]
          apply commit_keeps_I1
          intro S M e hS he hne
          have h1 := hI S M e hS he hne
          rw [hg] at h1
          exact MadeMap.get_set_ne_none m _ _ _ h1

theorem handleDeleteGlobalType_I1 (tmm : TypeMappingManager) (D : TypeMappingConfig)
    (typeID : String) (now : String) (writeErr : Option String)
    (hD : tmm.config = some D) (hI : SatisfiesI1 D) :
    ∃ tmm1 r D1, handleDeleteGlobalType tmm typeID now writeErr = some (tmm1, r) ∧
      tmm1.config = some D1 ∧ SatisfiesI1 D1 := by
  unfold handleDeleteGlobalType
  by_cases h0 : typeID = ""
  · rw [if_pos h0]
    exact unchanged_keeps_I1 tmm D _ hD hI
  · rw [if_neg h0]
    have hsm : GetSourceMappings tmm = D.SourceMappings := by unfold GetSourceMappings; rw [hD]
    cases (GetGlobalTypes tmm).get typeID with
    | none => exact unchanged_keeps_I1 tmm D _ hD hI
    | some g =>
      simp only [hsm]
      by_cases hany : (D.SourceMappings.range.any fun entry =>
          entry.2.TypeList.any fun sourceType => sourceType.GlobalType == typeID) = true
      · rw [if_pos hany]
        exact unchanged_keeps_I1 tmm D _ hD hI
      · rw [if_neg hany]
        simp only [hD]
        rw [handleDeleteGlobalType_commit]
        apply commit_keeps_I1
        intro S M e hS he hne
        have h1 := hI S M e hS he hne
        have hne2 : e.GlobalType ≠ typeID := fun hc =>
          hany (any_references D.SourceMappings typeID S M e hS he hc)
        cases hg : D.GlobalTypes with
        | nil =>
          rw [hg] at h1
          exact absurd rfl h1
        | made m =>
          rw [hg] at h1
          show MadeMap.get (MadeMap.delete m typeID) e.GlobalType ≠ none
          rw [MadeMap.get_delete, if_neg hne2]
          exact h1

theorem set_mapping_keeps_I1 (D : TypeMappingConfig) (sms : MadeMap String SourceMapping)
    (sourceCode : String) (sourceMapping : SourceMapping) (hI : SatisfiesI1 D)
    (hsms : ∀ S, MadeMap.get sms S = D.SourceMappings.get S)
    (hvalid : ∀ e ∈ sourceMapping.TypeList,
      e.GlobalType = "" ∨ D.GlobalTypes.get e.GlobalType ≠ none) :
    SatisfiesI1 { D with SourceMappings := GoMap.made (MadeMap.set sms sourceCode sourceMapping) } := by
  intro S M e hS he hne
  have hS1 : MadeMap.get (MadeMap.set sms sourceCode sourceMapping) S = some M := hS
  rw [MadeMap.get_set] at hS1
  by_cases hx : S = sourceCode
  · rw [if_pos hx] at hS1
    cases hS1
    rcases hvalid e he with h | h
    · exact absurd h hne
    · exact h
  · rw [if_neg hx, hsms] at hS1
    exact hI S M e hS1 he hne

theorem handleCreateSourceMapping_I1 (tmm : TypeMappingManager) (D : TypeMappingConfig)
    (body : Option SourceMapping) (sourceCode now : String) (writeErr : Option String)
    (hD : tmm.config = some D) (hI : SatisfiesI1 D) :
    ∃ tmm1 r D1, handleCreateSourceMapping tmm body sourceCode now writeErr = some (tmm1, r) ∧
      tmm1.config = some D1 ∧ SatisfiesI1 D1 := by
  unfold handleCreateSourceMapping
  cases body with
  | none => exact unchanged_keeps_I1 tmm D _ hD hI
  | some sourceMapping =>
    simp only
    by_cases h0 : sourceCode = ""
    · rw [if_pos h0]
      exact unchanged_keeps_I1 tmm D _ hD hI
    · rw [if_neg h0]
      have hgt : GetGlobalTypes tmm = D.GlobalTypes := by unfold GetGlobalTypes; rw [hD]
      cases (GetSourceMappings tmm).get sourceCode with
      | some M0 => exact unchanged_keeps_I1 tmm D _ hD hI
      | none =>
        simp only [hgt]
        cases hf : firstUnknownGlobalType D.GlobalTypes sourceMapping.TypeList with
        | some st => exact unchanged_keeps_I1 tmm D _ hD hI
        | none =>
          simp only [hD]
          apply commit_keeps_I1
          apply set_mapping_keeps_I1 D _ sourceCode sourceMapping hI
          · intro S
            cases D.SourceMappings <;> rfl
          · exact (firstUnknownGlobalType_eq_none_iff _ _).1 hf

theorem handleUpdateSourceMapping_I1 (tmm : TypeMappingManager) (D : TypeMappingConfig)
    (body : Option SourceMapping) (sourceCode now : String) (writeErr : Option String)
    (hD : tmm.config = some D) (hI : SatisfiesI1 D) :
    ∃ tmm1 r D1, handleUpdateSourceMapping tmm body sourceCode now writeErr = some (tmm1, r) ∧
      tmm1.config = some D1 ∧ SatisfiesI1 D1 := by
  unfold handleUpdateSourceMapping
  cases body with
  | none => exact unchanged_keeps_I1 tmm D _ hD hI
  | some sourceMapping =>
    simp only
    by_cases h0 : sourceCode = ""
    · rw [if_pos h0]
      exact unchanged_keeps_I1 tmm D _ hD hI
    · rw [if_neg h0]
      have hgt : GetGlobalTypes tmm = D.GlobalTypes := by unfold GetGlobalTypes; rw [hD]
      have hsm : GetSourceMappings tmm = D.SourceMappings := by
        unfold GetSourceMappings; rw [hD]
      rw [hsm]
      cases hget : D.SourceMappings.get sourceCode with
      | none => exact unchanged_keeps_I1 tmm D _ hD hI
      | some M0 =>
        simp only [hgt]
        cases hf : firstUnknownGlobalType D.GlobalTypes sourceMapping.TypeList with
        | some st => exact unchanged_keeps_I1 tmm D _ hD hI
        | none =>
          simp only [hD]
          cases hm : D.SourceMappings with
          | nil =>
            rw [hm] at hget
            cases hget
          | made sms =>
            simp only [GoMap.set]
            apply commit_keeps_I1
            apply set_mapping_keeps_I1 D sms sourceCode sourceMapping hI
            · intro S
              rw [hm]
              rfl
            · exact (firstUnknownGlobalType_eq_none_iff _ _).1 hf

theorem handleDeleteSourceMapping_I1 (tmm : TypeMappingManager) (D : TypeMappingConfig)
    (sourceCode now : String) (writeErr : Option String)
    (hD : tmm.config = some D) (hI : SatisfiesI1 D) :
    ∃ tmm1 r D1, handleDeleteSourceMapping tmm sourceCode now writeErr = some (tmm1, r) ∧
      tmm1.config = some D1 ∧ SatisfiesI1 D1 := by
  unfold handleDeleteSourceMapping
  by_cases h0 : sourceCode = ""
  · rw [if_pos h0]
    exact unchanged_keeps_I1 tmm D _ hD hI
  · rw [if_neg h0]
    cases (GetSourceMappings tmm).get sourceCode with
    | none => exact unchanged_keeps_I1 tmm D _ hD hI
    | some M0 =>
      simp only [hD]
      apply commit_keeps_I1
      intro S M e hS he hne
      apply hI S M e _ he hne
      cases hm : D.SourceMappings with
      | nil =>
        have hS1 : GoMap.get (GoMap.delete D.SourceMappings sourceCode) S = some M := hS
        rw [hm] at hS1
        cases hS1
      | made sms =>
        have hS1 : GoMap.get (GoMap.delete D.SourceMappings sourceCode) S = some M := hS
        rw [hm] at hS1
        have hS2 : MadeMap.get (MadeMap.delete sms sourceCode) S = some M := hS1
        rw [MadeMap.get_delete] at hS2
        by_cases hx : S = sourceCode
        · rw [if_pos hx] at hS2
          cases hS2
        · rw [if_neg hx] at hS2
          exact hS2

/-- C20: invariant I1 is preserved by the administrative operations.  On a manager whose
document satisfies I1, each of create, update and delete of a global type and of a source
mapping returns, whatever the request, and leaves a document that satisfies I1; this holds
for the successful outcomes in particular. -/
theorem C20_I1_preserved (tmm : TypeMappingManager) (D : TypeMappingConfig) (now : String)
    (writeErr : Option String) (hD : tmm.config = some D) (hI : SatisfiesI1 D) :
    (∀ body, ∃ tmm1 r D1, handleCreateGlobalType tmm body now writeErr = some (tmm1, r) ∧
      tmm1.config = some D1 ∧ SatisfiesI1 D1) ∧
    (∀ body, ∃ tmm1 r D1, handleUpdateGlobalType tmm body now writeErr = some (tmm1, r) ∧
      tmm1.config = some D1 ∧ SatisfiesI1 D1) ∧
    (∀ typeID, ∃ tmm1 r D1, handleDeleteGlobalType tmm typeID now writeErr = some (tmm1, r) ∧
      tmm1.config = some D1 ∧ SatisfiesI1 D1) ∧
    (∀ body sourceCode, ∃ tmm1 r D1,
      handleCreateSourceMapping tmm body sourceCode now writeErr = some (tmm1, r) ∧
      tmm1.config = some D1 ∧ SatisfiesI1 D1) ∧
    (∀ body sourceCode, ∃ tmm1 r D1,
      handleUpdateSourceMapping tmm body sourceCode now writeErr = some (tmm1, r) ∧
      tmm1.config = some D1 ∧ SatisfiesI1 D1) ∧
    (∀ sourceCode, ∃ tmm1 r D1,
      handleDeleteSourceMapping tmm sourceCode now writeErr = some (tmm1, r) ∧
      tmm1.config = some D1 ∧ SatisfiesI1 D1) :=
  ⟨fun body => handleCreateGlobalType_I1 tmm D body now writeErr hD hI,
   fun body => handleUpdateGlobalType_I1 tmm D body now writeErr hD hI,
   fun typeID => handleDeleteGlobalType_I1 tmm D typeID now writeErr hD hI,
   fun body sourceCode => handleCreateSourceMapping_I1 tmm D body sourceCode now writeErr hD hI,
   fun body sourceCode => handleUpdateSourceMapping_I1 tmm D body sourceCode now writeErr hD hI,
   fun sourceCode => handleDeleteSourceMapping_I1 tmm D sourceCode now writeErr hD hI⟩

/-- Witness of C20 on `movieManager`: `movieDoc` satisfies I1; deleting the mapping of source
`off` and creating the global type `anime` both succeed and leave I1 in force. -/
theorem C20_I1_preserved_witness :
    SatisfiesI1 movieDoc ∧
    (handleDeleteSourceMapping movieManager "off" "2024-06-01T00:00:00Z" none).map
        (fun p => p.2.status) = some 200 ∧
    (∃ tmm1 r D1,
      handleDeleteSourceMapping movieManager "off" "2024-06-01T00:00:00Z" none = some (tmm1, r) ∧
      tmm1.config = some D1 ∧ SatisfiesI1 D1) ∧
    (handleCreateGlobalType movieManager
        (some { ID := "anime", Name := "动漫", Description := "", Priority := 3, Enabled := true })
        "2024-06-01T00:00:00Z" none).map (fun p => p.2.status) = some 200 ∧
    (∃ tmm1 r D1,
      handleCreateGlobalType movieManager
        (some { ID := "anime", Name := "动漫", Description := "", Priority := 3, Enabled := true })
        "2024-06-01T00:00:00Z" none = some (tmm1, r) ∧
      tmm1.config = some D1 ∧ SatisfiesI1 D1) :=
  ⟨satisfiesI1_of_check movieDoc (by decide), by decide,
   (C20_I1_preserved movieManager movieDoc "2024-06-01T00:00:00Z" none rfl
      (satisfiesI1_of_check movieDoc (by decide))).2.2.2.2.2 "off",
   by decide,
   (C20_I1_preserved movieManager movieDoc "2024-06-01T00:00:00Z" none rfl
      (satisfiesI1_of_check movieDoc (by decide))).1 _⟩

/-! ## Witnesses of C12 and C13 -/

/-- Witness of C12: a name that contains 动画片, hence also the anime keyword 动画. -/
theorem C12_first_match_wins_witness :
    smartMapType Char.toLower "动画片大全" = "movie" ∧
      smartMapType Char.toLower "动画片大全" ≠ "anime" :=
  (C12_first_match_wins Char.toLower "动画片大全").2.2.2.2 (by decide)

/-- Witness of C13: no keyword occurs in the lower-cased 完全未知类别XYZ. -/
theorem C13_empty_iff_no_keyword_witness :
    smartMapType Char.toLower "完全未知类别XYZ" = "" :=
  (C13_empty_iff_no_keyword Char.toLower "完全未知类别XYZ").1.2 (by decide)

/-! ## More on the merge of a sync -/

theorem smartMapOne_ID (lower : Char → Char) (r : SourceType) :
    (smartMapOne lower r).ID = r.ID := by
  rw [smartMapOne_eq]

theorem map_ID_mergeTypeList (lower : Char → Char) (E F : List SourceType) :
    (mergeTypeList lower E F).map SourceType.ID
      = E.map SourceType.ID
        ++ (F.filter fun r => decide (r.ID ∉ E.map SourceType.ID)).map SourceType.ID := by
  unfold mergeTypeList
  rw [List.map_append, unmappedTypes_eq_filter, List.map_map]
  congr 1
  apply List.map_congr_left
  intro r _
  exact smartMapOne_ID lower r

/-- Every fetched id is an id of the merged list. -/
theorem mem_map_ID_mergeTypeList (lower : Char → Char) (E F : List SourceType) (r : SourceType)
    (hr : r ∈ F) : r.ID ∈ (mergeTypeList lower E F).map SourceType.ID := by
  rw [map_ID_mergeTypeList, List.mem_append]
  by_cases h : r.ID ∈ E.map SourceType.ID
  · exact Or.inl h
  · right
    exact List.mem_map.2 ⟨r, List.mem_filter.2 ⟨hr, by simpa using h⟩, rfl⟩

/-- Merging the same fetched list a second time adds nothing. -/
theorem mergeTypeList_idem (lower : Char → Char) (E F : List SourceType) :
    mergeTypeList lower (mergeTypeList lower E F) F = mergeTypeList lower E F := by
  have hnone : unmappedTypes (mergeTypeList lower E F) F = [] := by
    rw [unmappedTypes_eq_filter, List.filter_eq_nil_iff]
    intro r hr
    simpa using mem_map_ID_mergeTypeList lower E F r hr
  have hdef : mergeTypeList lower (mergeTypeList lower E F) F
      = mergeTypeList lower E F
        ++ (unmappedTypes (mergeTypeList lower E F) F).map (smartMapOne lower) := rfl
  rw [hdef, hnone, List.map_nil, List.append_nil]

/-- The merged list has pairwise distinct ids exactly when the existing list has and the new
fetched records have. -/
theorem nodup_mergeTypeList_iff (lower : Char → Char) (E F : List SourceType) :
    ((mergeTypeList lower E F).map SourceType.ID).Nodup ↔
      (E.map SourceType.ID).Nodup ∧
      ((F.filter fun r => decide (r.ID ∉ E.map SourceType.ID)).map SourceType.ID).Nodup := by
  rw [map_ID_mergeTypeList, List.nodup_append]
  constructor
  · intro h
    exact ⟨h.1, h.2.1⟩
  · intro h
    refine ⟨h.1, h.2, ?_⟩
    intro a ha hb
    obtain ⟨r, hr, hra⟩ := List.mem_map.1 hb
    have := (List.mem_filter.1 hr).2
    rw [hra] at this
    simp only [decide_eq_true_eq] at this
    exact this ha

/-! ## Claims C21, C22, C26 and C30: what a sync does to the invariants -/

/-- C26: sync is idempotent for a fixed fetch result.  For every existing list `E` and
fetched list `F` (duplicates allowed) merging `F` into the merge of `F` into `E` gives the
merge of `F` into `E`; and a second successful sync of source `S` with the same fetched list
leaves the mapping of `S` exactly as the first sync left it. -/
theorem C26_sync_idempotent (lower : Char → Char) (tmm : TypeMappingManager)
    (D : TypeMappingConfig) (sms : MadeMap String SourceMapping) (S : String)
    (F : List SourceType) (now now2 : String)
    (hD : tmm.config = some D) (hsm : D.SourceMappings = GoMap.made sms) :
    (∀ E, mergeTypeList lower (mergeTypeList lower E F) F = mergeTypeList lower E F) ∧
    ∃ tmm1 tmm2 D1 D2 M1,
      AutoUpdateMapping lower tmm S (Except.ok F) now none = some (tmm1, none) ∧
      AutoUpdateMapping lower tmm1 S (Except.ok F) now2 none = some (tmm2, none) ∧
      tmm1.config = some D1 ∧ tmm2.config = some D2 ∧
      D1.SourceMappings.get S = some M1 ∧ D2.SourceMappings.get S = some M1 ∧
      M1.TypeList = mergeTypeList lower (existingTypeList D S) F := by
  refine ⟨fun E => mergeTypeList_idem lower E F, ?_⟩
  obtain ⟨tmm1, h1, _, h3⟩ := AutoUpdateMapping_ok lower tmm D sms S F now none hD hsm
  obtain ⟨tmm2, k1, _, k3⟩ := AutoUpdateMapping_ok lower tmm1
    (syncedConfig lower D sms S F now) _ S F now2 none h3 rfl
  refine ⟨tmm1, tmm2, _, _, _, h1, k1, h3, k3, MadeMap.get_set_self _ _ _, ?_, ?_⟩
  · have hcur : currentMapping
        (MadeMap.set sms S
          { Name := (currentMapping sms S).Name
            Enabled := (currentMapping sms S).Enabled
            TypeList := mergeTypeList lower (currentMapping sms S).TypeList F }) S
        = { Name := (currentMapping sms S).Name
            Enabled := (currentMapping sms S).Enabled
            TypeList := mergeTypeList lower (currentMapping sms S).TypeList F } := by
      unfold currentMapping
      rw [MadeMap.get_set_self]
      rfl
    show MadeMap.get (MadeMap.set _ S _) S = _
    rw [MadeMap.get_set_self, hcur, mergeTypeList_idem]
  · show mergeTypeList lower (currentMapping sms S).TypeList F = _
    rw [currentMapping_typeList D sms S hsm]

/-- Witness of C26 on `movieManager`, with a fetched list that repeats the new id 7. -/
theorem C26_sync_idempotent_witness :
    ∃ tmm1 tmm2 D1 D2 M1,
      AutoUpdateMapping Char.toLower movieManager "s"
        (Except.ok [{ ID := 7, Name := "综艺", GlobalType := "" },
                    { ID := 7, Name := "娱乐", GlobalType := "" }]) "2024-06-01T00:00:00Z" none
        = some (tmm1, none) ∧
      AutoUpdateMapping Char.toLower tmm1 "s"
        (Except.ok [{ ID := 7, Name := "综艺", GlobalType := "" },
                    { ID := 7, Name := "娱乐", GlobalType := "" }]) "2024-06-02T00:00:00Z" none
        = some (tmm2, none) ∧
      tmm1.config = some D1 ∧ tmm2.config = some D2 ∧
      D1.SourceMappings.get "s" = some M1 ∧ D2.SourceMappings.get "s" = some M1 ∧
      M1.TypeList = mergeTypeList Char.toLower (existingTypeList movieDoc "s")
        [{ ID := 7, Name := "综艺", GlobalType := "" },
         { ID := 7, Name := "娱乐", GlobalType := "" }] :=
  (C26_sync_idempotent Char.toLower movieManager movieDoc _ "s" _ _ _ rfl rfl).2

/-- C22 (fails as stated): source `s` of `movieDoc` has the single id 5; the fetch reports the
new id 7 twice; after the sync the type list of `s` has the ids 5, 7, 7. -/
theorem C22_counterexample :
    (existingTypeList movieDoc "s").map SourceType.ID = [5] ∧
    (AutoUpdateMapping Char.toLower movieManager "s"
        (Except.ok [{ ID := 7, Name := "综艺", GlobalType := "" },
                    { ID := 7, Name := "娱乐", GlobalType := "" }]) "2024-06-01T00:00:00Z" none).map
        (fun p => (p.2, p.1.config.map fun D1 => (existingTypeList D1 "s").map SourceType.ID))
      = some (none, some [5, 7, 7]) ∧
    ¬ ([5, 7, 7] : List Int).Nodup := by
  decide

/-- C22 (amended): when the existing type list of `S` has pairwise distinct ids, the type
list produced by a successful sync has pairwise distinct ids if and only if the fetched
records whose id does not occur in the existing list have pairwise distinct ids; this is so
in particular when the whole fetched list has pairwise distinct ids. -/
theorem C22_distinct_ids (lower : Char → Char) (tmm : TypeMappingManager)
    (D : TypeMappingConfig) (sms : MadeMap String SourceMapping) (S : String)
    (F : List SourceType) (now : String)
    (hD : tmm.config = some D) (hsm : D.SourceMappings = GoMap.made sms)
    (hE : ((existingTypeList D S).map SourceType.ID).Nodup) :
    ∃ tmm1 D1 M1,
      AutoUpdateMapping lower tmm S (Except.ok F) now none = some (tmm1, none) ∧
      tmm1.config = some D1 ∧ D1.SourceMappings.get S = some M1 ∧
      ((M1.TypeList.map SourceType.ID).Nodup ↔
        ((F.filter fun r =>
            decide (r.ID ∉ (existingTypeList D S).map SourceType.ID)).map SourceType.ID).Nodup) ∧
      ((F.map SourceType.ID).Nodup → (M1.TypeList.map SourceType.ID).Nodup) := by
  obtain ⟨tmm1, h1, _, h3⟩ := AutoUpdateMapping_ok lower tmm D sms S F now none hD hsm
  obtain ⟨M1, g1, g2, _, _⟩ := syncedConfig_get lower D sms S F now hsm
  have hiff := nodup_mergeTypeList_iff lower (existingTypeList D S) F
  refine ⟨tmm1, _, M1, h1, h3, g1, ?_, ?_⟩
  · rw [g2]
    exact ⟨fun h => (hiff.1 h).2, fun h => hiff.2 ⟨hE, h⟩⟩
  · intro hF
    rw [g2]
    exact hiff.2 ⟨hE, List.Nodup.sublist ((List.filter_sublist F).map SourceType.ID) hF⟩

/-- Witness of C22 (amended) on `movieManager`: the fetch reports ids 5, 6 and 7 once each. -/
theorem C22_distinct_ids_witness :
    ∃ tmm1 D1 M1,
      AutoUpdateMapping Char.toLower movieManager "s"
        (Except.ok [{ ID := 5, Name := "国产剧", GlobalType := "" },
                    { ID := 6, Name := "电影", GlobalType := "" },
                    { ID := 7, Name := "综艺", GlobalType := "" }]) "2024-06-01T00:00:00Z" none
        = some (tmm1, none) ∧
      tmm1.config = some D1 ∧ D1.SourceMappings.get "s" = some M1 ∧
      (M1.TypeList.map SourceType.ID).Nodup := by
  obtain ⟨tmm1, D1, M1, h1, h2, h3, _, h5⟩ :=
    C22_distinct_ids Char.toLower movieManager movieDoc _ "s"
      [{ ID := 5, Name := "国产剧", GlobalType := "" },
       { ID := 6, Name := "电影", GlobalType := "" },
       { ID := 7, Name := "综艺", GlobalType := "" }] "2024-06-01T00:00:00Z" rfl rfl (by decide)
  exact ⟨tmm1, D1, M1, h1, h2, h3, h5 (by decide)⟩

/-- C21 (the code breaks the claim): `movieDoc` satisfies I1 and defines the global types
`movie` and `tv` only; a successful sync of source `s` that fetches a record named 纪录片
stores it with the global type `documentary`, which the document does not define, so the
document no longer satisfies I1. -/
theorem C21_sync_breaks_I1 :
    SatisfiesI1 movieDoc ∧
    ∃ tmm1 D1,
      AutoUpdateMapping Char.toLower movieManager "s"
        (Except.ok [{ ID := 6, Name := "纪录片", GlobalType := "" }]) "2024-06-01T00:00:00Z" none
        = some (tmm1, none) ∧
      tmm1.config = some D1 ∧
      D1.SourceMappings.get "s" = some
        { Name := "s", Enabled := true
          TypeList := [{ ID := 5, Name := "手工分类", GlobalType := "movie" },
                       { ID := 6, Name := "纪录片", GlobalType := "documentary" }] } ∧
      D1.GlobalTypes.get "documentary" = none ∧ ¬ SatisfiesI1 D1 := by
  refine ⟨satisfiesI1_of_check movieDoc (by decide), ?_⟩
  obtain ⟨tmm1, h1, _, h3⟩ := AutoUpdateMapping_ok Char.toLower movieManager movieDoc _ "s"
    [{ ID := 6, Name := "纪录片", GlobalType := "" }] "2024-06-01T00:00:00Z" none rfl rfl
  have hg : (syncedConfig Char.toLower movieDoc
      [("s", { Name := "s", Enabled := true
               TypeList := [{ ID := 5, Name := "手工分类", GlobalType := "movie" }] }),
       ("off", { Name := "off", Enabled := false
                 TypeList := [{ ID := 1, Name := "x", GlobalType := "tv" }] })]
      "s" [{ ID := 6, Name := "纪录片", GlobalType := "" }]
      "2024-06-01T00:00:00Z").SourceMappings.get "s" = some
        { Name := "s", Enabled := true
          TypeList := [{ ID := 5, Name := "手工分类", GlobalType := "movie" },
                       { ID := 6, Name := "纪录片", GlobalType := "documentary" }] } := by
    decide
  refine ⟨tmm1, _, h1, h3, hg, by decide, ?_⟩
  intro hI
  exact hI "s" _ { ID := 6, Name := "纪录片", GlobalType := "documentary" } hg (by decide)
    (by decide) (by decide)

/-- On a document whose source-mapping map is nil, a sync whose fetch succeeds panics. -/
theorem AutoUpdateMapping_nil_map (lower : Char → Char) (tmm : TypeMappingManager)
    (D : TypeMappingConfig) (S : String) (F : List SourceType) (now : String)
    (writeErr : Option String) (hD : tmm.config = some D)
    (hnil : D.SourceMappings = GoMap.nil) :
    AutoUpdateMapping lower tmm S (Except.ok F) now writeErr = none := by
  unfold AutoUpdateMapping
  simp only [hD, hnil, GoMap.set]

/-- C30 (the code breaks the claim): `nilMapManager` holds a document whose source-mapping
map is nil, with the caches built from it; a sync of source `s` whose fetch succeeds ends in
the panic of line 397 (assignment to an entry of a nil map), whereas
`handleCreateSourceMapping`, which makes the map first, succeeds on the same manager. -/
theorem C30_nil_map_panic :
    nilMapDoc.SourceMappings = GoMap.nil ∧
    buildCache nilMapManager = some nilMapManager ∧
    AutoUpdateMapping Char.toLower nilMapManager "s"
        (Except.ok [{ ID := 1, Name := "电影", GlobalType := "" }]) "2024-06-01T00:00:00Z" none
      = none ∧
    (handleCreateSourceMapping nilMapManager
        (some { Name := "s", Enabled := true
                TypeList := [{ ID := 1, Name := "电影", GlobalType := "movie" }] })
        "s" "2024-06-01T00:00:00Z" none).map (fun p => p.2.status) = some 200 := by
  decide

/-! ## Claims C28 and C29: what a fetch hands to a sync -/

theorem sourceTypeOfItem_some (atoi : String → Option Int) (intOfFloat : ℚ → Int)
    (item : JSONValue) (st : SourceType) (h : sourceTypeOfItem atoi intOfFloat item = some st) :
    0 < st.ID ∧ st.Name ≠ "" ∧ st.GlobalType = "" := by
  cases item with
  | object typeMap =>
    simp only [sourceTypeOfItem] at h
    split at h
    · rename_i hcond
      cases h
      exact ⟨hcond.1, hcond.2, rfl⟩
    · cases h
  | null => cases h
  | bool b => cases h
  | number v => cases h
  | string s => cases h
  | array items => cases h

theorem extractSourceTypes_of_not_array (atoi : String → Option Int) (intOfFloat : ℚ → Int)
    (result : GoMap String JSONValue)
    (h : ∀ cls, result.get "class" ≠ some (JSONValue.array cls)) :
    extractSourceTypes atoi intOfFloat result = [] := by
  unfold extractSourceTypes
  cases hc : result.get "class" with
  | none => rfl
  | some v =>
    cases v with
    | array cls => exact absurd hc (h cls)
    | null => rfl
    | bool b => rfl
    | number v => rfl
    | string s => rfl
    | object fields => rfl

/-- Every record of an extraction has a positive id, a name and an empty global type. -/
theorem mem_extractSourceTypes (atoi : String → Option Int) (intOfFloat : ℚ → Int)
    (result : GoMap String JSONValue) (st : SourceType)
    (h : st ∈ extractSourceTypes atoi intOfFloat result) :
    0 < st.ID ∧ st.Name ≠ "" ∧ st.GlobalType = "" := by
  by_cases hc : ∃ cls, result.get "class" = some (JSONValue.array cls)
  · obtain ⟨cls, hcls⟩ := hc
    rw [extractSourceTypes_class atoi intOfFloat result cls hcls, List.mem_filterMap] at h
    obtain ⟨item, _, hitem⟩ := h
    exact sourceTypeOfItem_some atoi intOfFloat item st hitem
  · rw [extractSourceTypes_of_not_array atoi intOfFloat result
      (fun cls hcls => hc ⟨cls, hcls⟩)] at h
    cases h

/-- A successful fetch is a response with status 200 whose body decodes and holds at least
one usable record; the list returned is the extraction. -/
theorem FetchSourceTypes_ok (atoi : String → Option Int) (intOfFloat : ℚ → Int)
    (outcome : HTTPOutcome) (F : List SourceType)
    (h : FetchSourceTypes atoi intOfFloat outcome = Except.ok F) :
    ∃ result, outcome = HTTPOutcome.response 200 (BodyOutcome.decoded result) ∧
      F = extractSourceTypes atoi intOfFloat result ∧ F ≠ [] := by
  cases outcome with
  | newRequestError err => cases h
  | doError err => cases h
  | response statusCode body =>
    unfold FetchSourceTypes at h
    by_cases hs : statusCode ≠ 200
    · simp only [if_pos hs] at h
      cases h
    · simp only [if_neg hs] at h
      have hs2 : statusCode = 200 := not_not.1 hs
      subst hs2
      cases body with
      | readError err => cases h
      | parseError err => cases h
      | decoded result =>
        simp only at h
        by_cases hl : (extractSourceTypes atoi intOfFloat result).length = 0
        · simp only [if_pos hl] at h
          cases h
        · simp only [if_neg hl] at h
          cases h
          exact ⟨result, rfl, rfl, fun hc => hl (by rw [hc]; rfl)⟩

theorem FetchSourceTypes_of_extract_nil (atoi : String → Option Int) (intOfFloat : ℚ → Int)
    (result : GoMap String JSONValue) (h : extractSourceTypes atoi intOfFloat result = []) :
    FetchSourceTypes atoi intOfFloat (HTTPOutcome.response 200 (BodyOutcome.decoded result))
      = Except.error ("未找到类型数据，响应结构: " ++ formatKeys result) := by
  simp only [FetchSourceTypes, ne_eq, not_true_eq_false, if_false, h, List.length_nil, if_true]

/-- C29: a successful fetch never yields an empty list.  Whenever no record of the response
passes the filter (the `class` key is missing, is not an array, is the empty array, or holds
only records with a non-positive `type_id` or an empty `type_name`) `FetchSourceTypes` returns
an error, and `AutoUpdateMapping` then returns an error with the manager unchanged, so no
mapping is ever committed from zero fetched types. -/
theorem C29_no_empty_fetch (lower : Char → Char) (atoi : String → Option Int)
    (intOfFloat : ℚ → Int) :
    (∀ outcome F, FetchSourceTypes atoi intOfFloat outcome = Except.ok F → F ≠ []) ∧
    (∀ result : GoMap String JSONValue,
      (result.get "class" = none ∨
        (∃ v, result.get "class" = some v ∧ ∀ cls, v ≠ JSONValue.array cls) ∨
        result.get "class" = some (JSONValue.array []) ∨
        (∃ cls, result.get "class" = some (JSONValue.array cls) ∧
          ∀ item ∈ cls, ∀ typeMap, item = JSONValue.object typeMap →
            getInt atoi intOfFloat typeMap "type_id" ≤ 0 ∨
            getStringFromTypeMapping typeMap "type_name" = "")) →
      ∃ e,
        FetchSourceTypes atoi intOfFloat
          (HTTPOutcome.response 200 (BodyOutcome.decoded result)) = Except.error e ∧
        ∀ tmm S now writeErr,
          AutoUpdateMapping lower tmm S
            (FetchSourceTypes atoi intOfFloat
              (HTTPOutcome.response 200 (BodyOutcome.decoded result))) now writeErr
            = some (tmm, some ("获取源类型失败: " ++ e))) := by
  refine ⟨?_, ?_⟩
  · intro outcome F h
    obtain ⟨_, _, _, hne⟩ := FetchSourceTypes_ok atoi intOfFloat outcome F h
    exact hne
  · intro result hcases
    have hnil : extractSourceTypes atoi intOfFloat result = [] := by
      rcases hcases with h | ⟨v, hv, hnot⟩ | h | ⟨cls, hcls, hall⟩
      · apply extractSourceTypes_of_not_array
        intro cls hc
        rw [h] at hc
        cases hc
      · apply extractSourceTypes_of_not_array
        intro cls hc
        rw [hv] at hc
        cases hc
        exact hnot cls rfl
      · rw [extractSourceTypes_class atoi intOfFloat result [] h]
        rfl
      · rw [extractSourceTypes_class atoi intOfFloat result cls hcls, List.filterMap_eq_nil_iff]
        intro item hitem
        cases item with
        | object typeMap =>
          simp only [sourceTypeOfItem]
          rcases hall _ hitem typeMap rfl with h | h
          · rw [if_neg]
            intro hc
            exact absurd hc.1 (not_lt.2 h)
          · rw [if_neg]
            intro hc
            exact hc.2 h
        | null => rfl
        | bool b => rfl
        | number v => rfl
        | string s => rfl
        | array items => rfl
    refine ⟨_, FetchSourceTypes_of_extract_nil atoi intOfFloat result hnil, ?_⟩
    intro tmm S now writeErr
    rw [FetchSourceTypes_of_extract_nil atoi intOfFloat result hnil]
    rfl

/-- Witness of C29: a body whose `class` array holds one record with id 0 and one without
a name. -/
theorem C29_no_empty_fetch_witness :
    ∃ e,
      FetchSourceTypes sampleAtoi truncToInt
        (HTTPOutcome.response 200 (BodyOutcome.decoded (GoMap.made
          [("class", JSONValue.array
            [JSONValue.object [("type_id", JSONValue.number 0),
                               ("type_name", JSONValue.string "空")],
             JSONValue.object [("type_id", JSONValue.number 3)]])]))) = Except.error e ∧
      ∀ tmm S now writeErr,
        AutoUpdateMapping Char.toLower tmm S
          (FetchSourceTypes sampleAtoi truncToInt
            (HTTPOutcome.response 200 (BodyOutcome.decoded (GoMap.made
              [("class", JSONValue.array
                [JSONValue.object [("type_id", JSONValue.number 0),
                                   ("type_name", JSONValue.string "空")],
                 JSONValue.object [("type_id", JSONValue.number 3)]])])))) now writeErr
          = some (tmm, some ("获取源类型失败: " ++ e)) :=
  (C29_no_empty_fetch Char.toLower sampleAtoi truncToInt).2 _
    (Or.inr (Or.inr (Or.inr ⟨_, rfl, by
      intro item hitem typeMap heq
      simp only [List.mem_cons, List.mem_singleton, List.not_mem_nil, or_false] at hitem
      rcases hitem with h | h
      · rw [h] at heq
        cases heq
        left
        decide
      · rw [h] at heq
        cases heq
        right
        rfl⟩)))

/-- C28: when source `S` has no mapping, a successful sync creates one whose name is the
source code `S`, whose enabled flag is true and whose type list is every fetched record in
fetch order, each with its id and name and with `smartMapType` of its name as global type. -/
theorem C28_new_mapping (lower : Char → Char) (atoi : String → Option Int)
    (intOfFloat : ℚ → Int) (tmm : TypeMappingManager) (D : TypeMappingConfig)
    (sms : MadeMap String SourceMapping) (S : String) (outcome : HTTPOutcome)
    (F : List SourceType) (now : String)
    (hD : tmm.config = some D) (hsm : D.SourceMappings = GoMap.made sms)
    (hnew : sms.get S = none) (hF : FetchSourceTypes atoi intOfFloat outcome = Except.ok F) :
    ∃ tmm1 D1,
      AutoUpdateMapping lower tmm S (FetchSourceTypes atoi intOfFloat outcome) now none
        = some (tmm1, none) ∧
      tmm1.config = some D1 ∧
      D1.SourceMappings.get S = some
        { Name := S, Enabled := true
          TypeList := F.map fun r =>
            { ID := r.ID, Name := r.Name, GlobalType := smartMapType lower r.Name } } := by
  obtain ⟨result, _, hex, _⟩ := FetchSourceTypes_ok atoi intOfFloat outcome F hF
  have hempty : ∀ r ∈ F, r.GlobalType = "" := fun r hr =>
    (mem_extractSourceTypes atoi intOfFloat result r (hex ▸ hr)).2.2
  rw [hF]
  obtain ⟨tmm1, h1, _, h3⟩ := AutoUpdateMapping_ok lower tmm D sms S F now none hD hsm
  refine ⟨tmm1, _, h1, h3, ?_⟩
  have hcur : currentMapping sms S = { Name := S, Enabled := true, TypeList := [] } := by
    unfold currentMapping
    rw [hnew]
    rfl
  show MadeMap.get (MadeMap.set sms S _) S = _
  rw [MadeMap.get_set_self, hcur]
  have hmerge : mergeTypeList lower [] F
      = F.map fun r => { ID := r.ID, Name := r.Name, GlobalType := smartMapType lower r.Name } := by
    unfold mergeTypeList
    rw [unmappedTypes_eq_filter, List.nil_append]
    have hfil : (F.filter fun r => decide (r.ID ∉ ([] : List SourceType).map SourceType.ID)) = F := by
      rw [List.filter_eq_self]
      intro r _
      simp
    rw [hfil]
    apply List.map_congr_left
    intro r hr
    rw [smartMapOne_eq, hempty r hr]
    by_cases hs : smartMapType lower r.Name = ""
    · simp [hs]
    · simp [hs]
  simp only [hmerge]

/-- Witness of C28: source `n` is new in `movieDoc`; the fetch answers with `sampleClass`. -/
theorem C28_new_mapping_witness :
    ∃ tmm1 D1,
      AutoUpdateMapping Char.toLower movieManager "n"
        (FetchSourceTypes sampleAtoi truncToInt
          (HTTPOutcome.response 200
            (BodyOutcome.decoded (GoMap.made [("class", JSONValue.array sampleClass)]))))
        "2024-06-01T00:00:00Z" none = some (tmm1, none) ∧
      tmm1.config = some D1 ∧
      D1.SourceMappings.get "n" = some
        { Name := "n", Enabled := true
          TypeList := ([{ ID := 1, Name := "电影", GlobalType := "" },
                        { ID := 20, Name := "国产剧", GlobalType := "" }] : List SourceType).map
            fun r => { ID := r.ID, Name := r.Name
                       GlobalType := smartMapType Char.toLower r.Name } } :=
  C28_new_mapping Char.toLower sampleAtoi truncToInt movieManager movieDoc _ "n" _ _ _
    rfl rfl (by decide) (by rfl)

/-! ## Claim C27: what a sync leaves alone -/

theorem GetGlobalType_congr (a b : TypeMappingManager) (S : String) (T : Int)
    (h : a.typeCache.get S = b.typeCache.get S) : GetGlobalType a S T = GetGlobalType b S T := by
  unfold GetGlobalType
  rw [h]

theorem GetSourceTypeName_congr (a b : TypeMappingManager) (S : String) (T : Int)
    (h : a.nameCache.get S = b.nameCache.get S) :
    GetSourceTypeName a S T = GetSourceTypeName b S T := by
  unfold GetSourceTypeName
  rw [h]

theorem GetSourceTypeIDs_congr (a b : TypeMappingManager) (S G : String)
    (h : a.reverseCache.get S = b.reverseCache.get S) :
    GetSourceTypeIDs a S G = GetSourceTypeIDs b S G := by
  unfold GetSourceTypeIDs
  rw [h]

/-- Two rebuilds from documents that bind source `S` alike give the same lookups for `S`. -/
theorem lookups_rebuilt_congr (a b a1 b1 : TypeMappingManager) (Da Db : TypeMappingConfig)
    (S : String) (ha : a.config = some Da) (hb : b.config = some Db)
    (ha1 : buildCache a = some a1) (hb1 : buildCache b = some b1)
    (hS : Da.SourceMappings.get S = Db.SourceMappings.get S) (T : Int) (G : String) :
    GetGlobalType a1 S T = GetGlobalType b1 S T ∧
    GetSourceTypeName a1 S T = GetSourceTypeName b1 S T ∧
    GetSourceTypeIDs a1 S G = GetSourceTypeIDs b1 S G := by
  obtain ⟨a2, e1, _, _, ca⟩ := buildCache_spec a Da ha
  obtain ⟨b2, e2, _, _, cb⟩ := buildCache_spec b Db hb
  rw [ha1] at e1
  rw [hb1] at e2
  cases e1
  cases e2
  obtain ⟨x1, x2, x3⟩ := ca S
  obtain ⟨y1, y2, y3⟩ := cb S
  refine ⟨GetGlobalType_congr _ _ S T ?_, GetSourceTypeName_congr _ _ S T ?_,
    GetSourceTypeIDs_congr _ _ S G ?_⟩
  · rw [x1, y1, hS]
  · rw [x2, y2, hS]
  · rw [x3, y3, hS]

/-- C27: a successful sync of source `S` changes only the mapping of `S` and `lastUpdated`:
version, description, the global types and the mapping of every other source are unchanged;
when `S` had a mapping its name and enabled flag are unchanged; for every other source the
three lookups return what the index built from the old document returns, hence, when the
index was coherent with the document before the sync (invariant I2), what they returned
before. -/
theorem C27_sync_frame (lower : Char → Char) (tmm : TypeMappingManager)
    (D : TypeMappingConfig) (sms : MadeMap String SourceMapping) (S : String)
    (F : List SourceType) (now : String)
    (hD : tmm.config = some D) (hsm : D.SourceMappings = GoMap.made sms) :
    ∃ tmm1 D1 tmm0,
      AutoUpdateMapping lower tmm S (Except.ok F) now none = some (tmm1, none) ∧
      tmm1.config = some D1 ∧ buildCache tmm = some tmm0 ∧
      D1.Version = D.Version ∧ D1.Description = D.Description ∧
      D1.GlobalTypes = D.GlobalTypes ∧ D1.LastUpdated = now ∧
      (∀ S1, S1 ≠ S → D1.SourceMappings.get S1 = D.SourceMappings.get S1) ∧
      (∀ M, D.SourceMappings.get S = some M →
        ∃ M1, D1.SourceMappings.get S = some M1 ∧ M1.Name = M.Name ∧ M1.Enabled = M.Enabled) ∧
      (∀ S1 T G, S1 ≠ S →
        GetGlobalType tmm1 S1 T = GetGlobalType tmm0 S1 T ∧
        GetSourceTypeName tmm1 S1 T = GetSourceTypeName tmm0 S1 T ∧
        GetSourceTypeIDs tmm1 S1 G = GetSourceTypeIDs tmm0 S1 G) ∧
      ((∀ S1 T G,
          GetGlobalType tmm S1 T = GetGlobalType tmm0 S1 T ∧
          GetSourceTypeName tmm S1 T = GetSourceTypeName tmm0 S1 T ∧
          GetSourceTypeIDs tmm S1 G = GetSourceTypeIDs tmm0 S1 G) →
        ∀ S1 T G, S1 ≠ S →
          GetGlobalType tmm1 S1 T = GetGlobalType tmm S1 T ∧
          GetSourceTypeName tmm1 S1 T = GetSourceTypeName tmm S1 T ∧
          GetSourceTypeIDs tmm1 S1 G = GetSourceTypeIDs tmm S1 G) := by
  obtain ⟨tmm1, h1, h2, h3⟩ := AutoUpdateMapping_ok lower tmm D sms S F now none hD hsm
  obtain ⟨tmm0, hb0, _, _, _⟩ := buildCache_spec tmm D hD
  have hother : ∀ S1, S1 ≠ S →
      (syncedConfig lower D sms S F now).SourceMappings.get S1 = D.SourceMappings.get S1 := by
    intro S1 hS1
    rw [hsm]
    exact MadeMap.get_set_ne _ _ hS1
  have hlook : ∀ S1 T G, S1 ≠ S →
      GetGlobalType tmm1 S1 T = GetGlobalType tmm0 S1 T ∧
      GetSourceTypeName tmm1 S1 T = GetSourceTypeName tmm0 S1 T ∧
      GetSourceTypeIDs tmm1 S1 G = GetSourceTypeIDs tmm0 S1 G := by
    intro S1 T G hS1
    exact lookups_rebuilt_congr
      { tmm with config := some (syncedConfig lower D sms S F now) } tmm tmm1 tmm0 _ D S1 rfl hD
      h2 hb0 (hother S1 hS1) T G
  refine ⟨tmm1, _, tmm0, h1, h3, hb0, rfl, rfl, rfl, rfl, hother, ?_, hlook, ?_⟩
  · intro M hM
    rw [hsm] at hM
    have hM1 : MadeMap.get sms S = some M := hM
    have hcur : currentMapping sms S = M := by
      unfold currentMapping
      rw [hM1]
      rfl
    refine ⟨_, MadeMap.get_set_self _ _ _, ?_, ?_⟩
    · show (currentMapping sms S).Name = M.Name
      rw [hcur]
    · show (currentMapping sms S).Enabled = M.Enabled
      rw [hcur]
  · intro hcoh S1 T G hS1
    obtain ⟨a1, a2, a3⟩ := hlook S1 T G hS1
    obtain ⟨b1, b2, b3⟩ := hcoh S1 T G
    exact ⟨a1.trans b1.symm, a2.trans b2.symm, a3.trans b3.symm⟩

/-- Witness of C27: a sync of source `s` of `movieManager`, whose caches are those built
from `movieDoc`; the lookups for source `off` are what they were. -/
theorem C27_sync_frame_witness :
    ∃ tmm1,
      AutoUpdateMapping Char.toLower movieManager "s"
        (Except.ok [{ ID := 6, Name := "电影", GlobalType := "" }]) "2024-06-01T00:00:00Z" none
        = some (tmm1, none) ∧
      ∀ T G,
        GetGlobalType tmm1 "off" T = GetGlobalType movieManager "off" T ∧
        GetSourceTypeName tmm1 "off" T = GetSourceTypeName movieManager "off" T ∧
        GetSourceTypeIDs tmm1 "off" G = GetSourceTypeIDs movieManager "off" G := by
  obtain ⟨tmm1, D1, tmm0, h1, _, h3, _, _, _, _, _, _, _, h11⟩ :=
    C27_sync_frame Char.toLower movieManager movieDoc _ "s"
      [{ ID := 6, Name := "电影", GlobalType := "" }] "2024-06-01T00:00:00Z" rfl rfl
  have h0 : tmm0 = movieManager := by
    have hm : buildCache movieManager = some movieManager := by decide
    rw [hm] at h3
    cases h3
    rfl
  subst h0
  exact ⟨tmm1, h1, fun T G => h11 (fun _ _ _ => ⟨rfl, rfl, rfl⟩) "off" T G (by decide)⟩

/-! ## Claim C23: a failed file write in an administrative operation -/

theorem writeIndependent_const (tmm : TypeMappingManager) (r : Response) (hr : r.status ≠ 200) :
    WriteIndependent fun _ => some (tmm, r) := by
  intro err
  refine ⟨rfl, ?_⟩
  intro tmm1 r1 h hs
  cases h
  exact absurd hs hr

theorem writeIndependent_panic :
    WriteIndependent fun _ => (none : Option (TypeMappingManager × Response)) := by
  intro err
  refine ⟨rfl, ?_⟩
  intro tmm1 r1 h _
  cases h

theorem writeIndependent_commit (tmm : TypeMappingManager) (C : TypeMappingConfig)
    (now okMessage : String) :
    WriteIndependent fun writeErr => commitAndRespond tmm C now writeErr okMessage := by
  obtain ⟨t2, hb, hcfg, _, _⟩ := buildCache_spec
    { tmm with config := some { C with LastUpdated := now } } _ rfl
  have hU : ∀ w, UpdateConfig tmm C now w = some (t2, w.map fun e => "保存配置文件失败: " ++ e) := by
    intro w
    unfold UpdateConfig
    simp only [hb, saveConfig_of_config t2 _ w hcfg]
  intro err
  have h1 : commitAndRespond tmm C now (some err) okMessage
      = some (t2, { status := 500, success := some false
                    message := "Failed to update config: " ++ ("保存配置文件失败: " ++ err) }) := by
    unfold commitAndRespond
    rw [hU]
    rfl
  have h2 : commitAndRespond tmm C now none okMessage
      = some (t2, { status := 200, success := some true, message := okMessage }) := by
    unfold commitAndRespond
    rw [hU]
    rfl
  simp only [h1, h2]
  refine ⟨rfl, ?_⟩
  intro tmm1 r h _
  cases h
  exact ⟨_, rfl, rfl, rfl⟩

theorem handleCreateGlobalType_write (tmm : TypeMappingManager) (body : Option GlobalType)
    (now : String) : WriteIndependent fun w => handleCreateGlobalType tmm body now w := by
  unfold handleCreateGlobalType
  cases body with
  | none => exact writeIndependent_const tmm _ (by decide)
  | some globalType =>
    simp only
    by_cases h0 : globalType.ID = "" ∨ globalType.Name = ""
    · simp only [if_pos h0]
      exact writeIndependent_const tmm _ (by decide)
    · simp only [if_neg h0]
      cases (GetGlobalTypes tmm).get globalType.ID with
      | some g => exact writeIndependent_const tmm _ (by decide)
      | none =>
        cases tmm.config with
        | none => exact writeIndependent_panic
        | some config => exact writeIndependent_commit tmm _ now _

theorem handleUpdateGlobalType_write (tmm : TypeMappingManager) (body : Option GlobalType)
    (now : String) : WriteIndependent fun w => handleUpdateGlobalType tmm body now w := by
  unfold handleUpdateGlobalType
  cases body with
  | none => exact writeIndependent_const tmm _ (by decide)
  | some globalType =>
    simp only
    by_cases h0 : globalType.ID = "" ∨ globalType.Name = ""
    · simp only [if_pos h0]
      exact writeIndependent_const tmm _ (by decide)
    · simp only [if_neg h0]
      cases (GetGlobalTypes tmm).get globalType.ID with
      | none => exact writeIndependent_const tmm _ (by decide)
      | some g =>
        cases tmm.config with
        | none => exact writeIndependent_panic
        | some config =>
          simp only
          cases config.GlobalTypes.set globalType.ID globalType with
          | none => exact writeIndependent_panic
          | some gts => exact writeIndependent_commit tmm _ now _

theorem handleDeleteGlobalType_write (tmm : TypeMappingManager) (typeID now : String) :
    WriteIndependent fun w => handleDeleteGlobalType tmm typeID now w := by
  unfold handleDeleteGlobalType
  by_cases h0 : typeID = ""
  · simp only [if_pos h0]
    exact writeIndependent_const tmm _ (by decide)
  · simp only [if_neg h0]
    cases (GetGlobalTypes tmm).get typeID with
    | none => exact writeIndependent_const tmm _ (by decide)
    | some g =>
      simp only
      by_cases hany : ((GetSourceMappings tmm).range.any fun entry =>
          entry.2.TypeList.any fun sourceType => sourceType.GlobalType == typeID) = true
      · simp only [if_pos hany]
        exact writeIndependent_const tmm _ (by decide)
      · simp only [if_neg hany]
        cases tmm.config with
        | none => exact writeIndependent_panic
        | some config =>
          simp only [handleDeleteGlobalType_commit]
          exact writeIndependent_commit tmm _ now _

theorem handleCreateSourceMapping_write (tmm : TypeMappingManager) (body : Option SourceMapping)
    (sourceCode now : String) :
    WriteIndependent fun w => handleCreateSourceMapping tmm body sourceCode now w := by
  unfold handleCreateSourceMapping
  cases body with
  | none => exact writeIndependent_const tmm _ (by decide)
  | some sourceMapping =>
    simp only
    by_cases h0 : sourceCode = ""
    · simp only [if_pos h0]
      exact writeIndependent_const tmm _ (by decide)
    · simp only [if_neg h0]
      cases (GetSourceMappings tmm).get sourceCode with
      | some M0 => exact writeIndependent_const tmm _ (by decide)
      | none =>
        cases firstUnknownGlobalType (GetGlobalTypes tmm) sourceMapping.TypeList with
        | some st => exact writeIndependent_const tmm _ (by simp)
        | none =>
          cases tmm.config with
          | none => exact writeIndependent_panic
          | some config => exact writeIndependent_commit tmm _ now _

theorem handleUpdateSourceMapping_write (tmm : TypeMappingManager) (body : Option SourceMapping)
    (sourceCode now : String) :
    WriteIndependent fun w => handleUpdateSourceMapping tmm body sourceCode now w := by
  unfold handleUpdateSourceMapping
  cases body with
  | none => exact writeIndependent_const tmm _ (by decide)
  | some sourceMapping =>
    simp only
    by_cases h0 : sourceCode = ""
    · simp only [if_pos h0]
      exact writeIndependent_const tmm _ (by decide)
    · simp only [if_neg h0]
      cases (GetSourceMappings tmm).get sourceCode with
      | none => exact writeIndependent_const tmm _ (by decide)
      | some M0 =>
        cases firstUnknownGlobalType (GetGlobalTypes tmm) sourceMapping.TypeList with
        | some st => exact writeIndependent_const tmm _ (by simp)
        | none =>
          cases tmm.config with
          | none => exact writeIndependent_panic
          | some config =>
            simp only
            cases config.SourceMappings.set sourceCode sourceMapping with
            | none => exact writeIndependent_panic
            | some sm => exact writeIndependent_commit tmm _ now _

theorem handleDeleteSourceMapping_write (tmm : TypeMappingManager) (sourceCode now : String) :
    WriteIndependent fun w => handleDeleteSourceMapping tmm sourceCode now w := by
  unfold handleDeleteSourceMapping
  by_cases h0 : sourceCode = ""
  · simp only [if_pos h0]
    exact writeIndependent_const tmm _ (by decide)
  · simp only [if_neg h0]
    cases (GetSourceMappings tmm).get sourceCode with
    | none => exact writeIndependent_const tmm _ (by decide)
    | some M0 =>
      cases tmm.config with
      | none => exact writeIndependent_panic
      | some config => exact writeIndependent_commit tmm _ now _

/-- C23 (fails as stated): creating the mapping of the new source `n` on `movieManager` with
a failing file write is answered with status 500, yet afterwards the document differs from
the one before and `GetSourceTypeName("n", 1)`, not found before, returns the new name. -/
theorem C23_counterexample :
    (handleCreateSourceMapping movieManager
        (some { Name := "n", Enabled := true
                TypeList := [{ ID := 1, Name := "其他", GlobalType := "" }] })
        "n" "2024-06-01T00:00:00Z" (some "disk full")).map
        (fun p => (p.2.status, p.2.success, GetSourceTypeName p.1 "n" 1,
                   decide (p.1.config = movieManager.config)))
      = some (500, some false, ("其他", true), false) ∧
    GetSourceTypeName movieManager "n" 1 = ("", false) ∧
    buildCache movieManager = some movieManager := by
  decide

/-- C23 (amended): for each of create, update and delete of a global type and of a source
mapping, a failed file write is reported (status 500, no success) wherever the operation
would otherwise have succeeded, and the manager is left exactly as a successful write leaves
it: the new document is in memory and the caches are rebuilt from it. -/
theorem C23_failed_write_keeps_change (tmm : TypeMappingManager) (now : String) :
    (∀ body, WriteIndependent fun w => handleCreateGlobalType tmm body now w) ∧
    (∀ body, WriteIndependent fun w => handleUpdateGlobalType tmm body now w) ∧
    (∀ typeID, WriteIndependent fun w => handleDeleteGlobalType tmm typeID now w) ∧
    (∀ body sourceCode,
      WriteIndependent fun w => handleCreateSourceMapping tmm body sourceCode now w) ∧
    (∀ body sourceCode,
      WriteIndependent fun w => handleUpdateSourceMapping tmm body sourceCode now w) ∧
    (∀ sourceCode, WriteIndependent fun w => handleDeleteSourceMapping tmm sourceCode now w) :=
  ⟨fun body => handleCreateGlobalType_write tmm body now,
   fun body => handleUpdateGlobalType_write tmm body now,
   fun typeID => handleDeleteGlobalType_write tmm typeID now,
   fun body sourceCode => handleCreateSourceMapping_write tmm body sourceCode now,
   fun body sourceCode => handleUpdateSourceMapping_write tmm body sourceCode now,
   fun sourceCode => handleDeleteSourceMapping_write tmm sourceCode now⟩

/-- Witness of C23 (amended): deleting the mapping of source `off` of `movieManager` succeeds
when the write succeeds; with a failing write it answers 500 and leaves the same manager. -/
theorem C23_failed_write_keeps_change_witness :
    ∃ tmm1 r r1,
      handleDeleteSourceMapping movieManager "off" "2024-06-01T00:00:00Z" none
        = some (tmm1, r) ∧ r.status = 200 ∧
      handleDeleteSourceMapping movieManager "off" "2024-06-01T00:00:00Z" (some "disk full")
        = some (tmm1, r1) ∧ r1.status = 500 ∧ r1.success = some false := by
  obtain ⟨tmm1, r, D1, h1, _, _⟩ := handleDeleteSourceMapping_I1 movieManager movieDoc "off"
    "2024-06-01T00:00:00Z" none rfl (satisfiesI1_of_check movieDoc (by decide))
  have hs : r.status = 200 := by
    have hd : (handleDeleteSourceMapping movieManager "off" "2024-06-01T00:00:00Z" none).map
        (fun p => p.2.status) = some 200 := by decide
    rw [h1] at hd
    exact Option.some.inj hd
  obtain ⟨r1, k1, k2, k3⟩ :=
    ((C23_failed_write_keeps_change movieManager "2024-06-01T00:00:00Z").2.2.2.2.2 "off"
      "disk full").2 tmm1 r h1 hs
  exact ⟨tmm1, r, r1, h1, hs, k1, k2, k3⟩

/-! ## Claim C24: saving and loading again -/

theorem MadeMap.get_of_mem_of_nodup_keys {K V : Type} [DecidableEq K] (m : MadeMap K V) (x : K)
    (v : V) (hnd : (m.map Prod.fst).Nodup) (h : (x, v) ∈ m) : MadeMap.get m x = some v := by
  induction m with
  | nil => cases h
  | cons p rest ih =>
    obtain ⟨k1, v1⟩ := p
    simp only [List.map_cons, List.nodup_cons] at hnd
    rw [MadeMap.get_cons]
    rcases List.mem_cons.1 h with heq | hrest
    · cases heq
      rw [if_pos rfl]
    · have hne : x ≠ k1 := fun hc =>
        hnd.1 (hc ▸ List.mem_map.2 ⟨(x, v), hrest, rfl⟩)
      rw [if_neg hne]
      exact ih hnd.2 hrest

/-- One iteration of the batch loop on a document whose source-mapping map is nil, for a
source that is disabled or whose fetch fails: the manager stays as it is. -/
theorem initOneSource_nil_map_skip (lower : Char → Char) (atoi : String → Option Int)
    (intOfFloat : ℚ → Int) (env : BatchEnv) (tmm : TypeMappingManager)
    (D : TypeMappingConfig) (S : String) (entry : SourceEntry)
    (hD : tmm.config = some D) (hnil : D.SourceMappings = GoMap.nil)
    (h : entry.Enabled = true →
      ∃ err, FetchSourceTypes atoi intOfFloat (env.http S entry.URL) = Except.error err) :
    initOneSource lower atoi intOfFloat env tmm (S, entry) = some tmm := by
  unfold initOneSource
  by_cases hen : entry.Enabled = false
  · simp only [hen, if_true]
  · have hen1 : entry.Enabled = true := by
      cases h1 : entry.Enabled
      · exact absurd h1 hen
      · rfl
    obtain ⟨err, herr⟩ := h hen1
    simp only [hen1, Bool.true_eq_false, if_false, hD, hnil, GoMap.get, herr, AutoUpdateMapping]

/-- One iteration of the batch loop on a document whose source-mapping map is nil, for an
enabled source whose fetch succeeds: the sync runs and ends in the panic of line 397. -/
theorem initOneSource_nil_map_panic (lower : Char → Char) (atoi : String → Option Int)
    (intOfFloat : ℚ → Int) (env : BatchEnv) (tmm : TypeMappingManager)
    (D : TypeMappingConfig) (S : String) (entry : SourceEntry) (F : List SourceType)
    (hD : tmm.config = some D) (hnil : D.SourceMappings = GoMap.nil)
    (hen : entry.Enabled = true)
    (hF : FetchSourceTypes atoi intOfFloat (env.http S entry.URL) = Except.ok F) :
    initOneSource lower atoi intOfFloat env tmm (S, entry) = none := by
  unfold initOneSource
  simp only [hen, Bool.true_eq_false, if_false, hD, hnil, GoMap.get, hF,
    AutoUpdateMapping_nil_map lower tmm D S F (env.now S) (env.writeErr S) hD hnil]

/-- The batch loop on a document whose source-mapping map is nil, when every enabled entry
has a failing fetch: the manager stays as it is. -/
theorem initLoop_nil_map_skip (lower : Char → Char) (atoi : String → Option Int)
    (intOfFloat : ℚ → Int) (env : BatchEnv) (tmm : TypeMappingManager)
    (D : TypeMappingConfig) (hD : tmm.config = some D) (hnil : D.SourceMappings = GoMap.nil)
    (entries : List (String × SourceEntry))
    (h : ∀ S entry, (S, entry) ∈ entries → entry.Enabled = true →
      ∃ err, FetchSourceTypes atoi intOfFloat (env.http S entry.URL) = Except.error err) :
    initLoop lower atoi intOfFloat env entries tmm = some tmm := by
  induction entries with
  | nil => rfl
  | cons p rest ih =>
    obtain ⟨S0, e0⟩ := p
    simp only [initLoop, initOneSource_nil_map_skip lower atoi intOfFloat env tmm D S0 e0 hD hnil
      (h S0 e0 (List.mem_cons_self _ _))]
    exact ih fun S entry hmem => h S entry (List.mem_cons_of_mem _ hmem)

/-- The batch loop on a document whose source-mapping map is nil, when some enabled entry has
a successful fetch: the loop ends in the panic of line 397. -/
theorem initLoop_nil_map_panic (lower : Char → Char) (atoi : String → Option Int)
    (intOfFloat : ℚ → Int) (env : BatchEnv) (tmm : TypeMappingManager)
    (D : TypeMappingConfig) (hD : tmm.config = some D) (hnil : D.SourceMappings = GoMap.nil)
    (S : String) (entry : SourceEntry) (F : List SourceType) (hen : entry.Enabled = true)
    (hF : FetchSourceTypes atoi intOfFloat (env.http S entry.URL) = Except.ok F)
    (entries : List (String × SourceEntry)) (hmem : (S, entry) ∈ entries) :
    initLoop lower atoi intOfFloat env entries tmm = none := by
  induction entries with
  | nil => cases hmem
  | cons p rest ih =>
    obtain ⟨S0, e0⟩ := p
    by_cases hskip : e0.Enabled = true →
        ∃ err, FetchSourceTypes atoi intOfFloat (env.http S0 e0.URL) = Except.error err
    · simp only [initLoop,
        initOneSource_nil_map_skip lower atoi intOfFloat env tmm D S0 e0 hD hnil hskip]
      rcases List.mem_cons.1 hmem with heq | hrest
      · cases heq
        obtain ⟨err, herr⟩ := hskip hen
        rw [hF] at herr
        cases herr
      · exact ih hrest
    · have hen0 : e0.Enabled = true := by
        cases h1 : e0.Enabled
        · exact absurd (fun hc => by rw [h1] at hc; cases hc) hskip
        · rfl
      cases hF0 : FetchSourceTypes atoi intOfFloat (env.http S0 e0.URL) with
      | error err => exact absurd (fun _ => ⟨err, hF0⟩) hskip
      | ok F0 =>
        simp only [initLoop,
          initOneSource_nil_map_panic lower atoi intOfFloat env tmm D S0 e0 F0 hD hnil hen0 hF0]

/-- The batch on a manager that holds no document: the read of `tmm.config.SourceMappings`
at line 647 for the first enabled source dereferences the nil pointer. -/
theorem initLoop_no_document (lower : Char → Char) (atoi : String → Option Int)
    (intOfFloat : ℚ → Int) (env : BatchEnv) (tmm : TypeMappingManager)
    (hD : tmm.config = none) (S : String) (entry : SourceEntry) (hen : entry.Enabled = true)
    (entries : List (String × SourceEntry)) (hmem : (S, entry) ∈ entries) :
    initLoop lower atoi intOfFloat env entries tmm = none := by
  induction entries with
  | nil => cases hmem
  | cons p rest ih =>
    obtain ⟨S0, e0⟩ := p
    cases h0 : e0.Enabled with
    | true => simp only [initLoop, initOneSource, h0, Bool.true_eq_false, if_false, hD]
    | false =>
      simp only [initLoop, initOneSource, h0, if_true]
      rcases List.mem_cons.1 hmem with heq | hrest
      · cases heq
        rw [h0] at hen
        cases hen
      · exact ih hrest

/-- The batch started on a manager that holds no document, with a sources file that lists
an enabled source, ends in a panic. -/
theorem InitializeAllSourcesFromConfig_no_document (lower : Char → Char)
    (atoi : String → Option Int) (intOfFloat : ℚ → Int) (tmm : TypeMappingManager)
    (sources : MadeMap String SourceEntry) (env : BatchEnv) (S : String) (entry : SourceEntry)
    (hD : tmm.config = none) (hS : sources.get S = some entry) (hen : entry.Enabled = true) :
    InitializeAllSourcesFromConfig lower atoi intOfFloat tmm
      (SourcesFile.decoded (GoMap.made sources)) env = none := by
  have hmem : (S, entry) ∈ MadeMap.range sources := by
    apply MadeMap.mem_of_get_eq_some
    rw [MadeMap.get_range]
    exact hS
  simp only [InitializeAllSourcesFromConfig, GoMap.range,
    initLoop_no_document lower atoi intOfFloat env tmm hD S entry hen _ hmem]

/-- C14 (the code breaks the claim): on a manager holding a loaded document whose
source-mapping map is nil (the file has no `source_mappings` key), initialize-all does not
run to completion as soon as one enabled source of the sources file has a successful fetch:
the batch ends in the panic of line 397 instead of returning.  When the fetch of every
enabled source fails the batch returns, with the manager it started with and the result of
the final file write. -/
theorem C14_batch_nil_map_panic (lower : Char → Char) (atoi : String → Option Int)
    (intOfFloat : ℚ → Int) (tmm : TypeMappingManager) (D : TypeMappingConfig)
    (sources : MadeMap String SourceEntry) (env : BatchEnv)
    (hD : tmm.config = some D) (hnil : D.SourceMappings = GoMap.nil) :
    (∀ S entry F, sources.get S = some entry → entry.Enabled = true →
      FetchSourceTypes atoi intOfFloat (env.http S entry.URL) = Except.ok F →
      InitializeAllSourcesFromConfig lower atoi intOfFloat tmm
        (SourcesFile.decoded (GoMap.made sources)) env = none) ∧
    ((∀ S entry, sources.get S = some entry → entry.Enabled = true →
        ∃ err, FetchSourceTypes atoi intOfFloat (env.http S entry.URL) = Except.error err) →
      InitializeAllSourcesFromConfig lower atoi intOfFloat tmm
          (SourcesFile.decoded (GoMap.made sources)) env
        = some (tmm, env.finalWriteErr.map fun err => "保存配置文件失败: " ++ err)) := by
  constructor
  · intro S entry F hS hen hF
    have hmem : (S, entry) ∈ MadeMap.range sources := by
      apply MadeMap.mem_of_get_eq_some
      rw [MadeMap.get_range]
      exact hS
    simp only [InitializeAllSourcesFromConfig, GoMap.range,
      initLoop_nil_map_panic lower atoi intOfFloat env tmm D hD hnil S entry F hen hF _ hmem]
  · intro hall
    have hloop : initLoop lower atoi intOfFloat env (MadeMap.range sources) tmm = some tmm :=
      initLoop_nil_map_skip lower atoi intOfFloat env tmm D hD hnil _ fun S entry hmem hen =>
        hall S entry
          ((MadeMap.get_range sources S).symm.trans
            (MadeMap.get_of_mem_of_nodup_keys _ S entry (MadeMap.nodup_keys_range sources)
              hmem)) hen
    simp only [InitializeAllSourcesFromConfig, GoMap.range, hloop,
      saveConfig_of_config tmm D env.finalWriteErr hD]

/-- Witness of C14: the spec's example of three enabled new sources `a`, `b`, `c` of which
only `b` has a failing fetch, started on `nilMapManager` (a loaded document, its caches
built): the batch panics at `a`, the first source whose fetch succeeds. -/
theorem C14_batch_nil_map_panic_witness :
    nilMapManager.config = some nilMapDoc ∧ nilMapDoc.SourceMappings = GoMap.nil ∧
    buildCache nilMapManager = some nilMapManager ∧
    InitializeAllSourcesFromConfig Char.toLower sampleAtoi truncToInt nilMapManager
      (SourcesFile.decoded (GoMap.made batchSources)) batchEnv = none :=
  ⟨rfl, rfl, by decide,
    (C14_batch_nil_map_panic Char.toLower sampleAtoi truncToInt nilMapManager nilMapDoc
      batchSources batchEnv rfl rfl).1 "a" _
      [{ ID := 1, Name := "电影", GlobalType := "" }, { ID := 20, Name := "国产剧", GlobalType := "" }]
      rfl rfl (by rfl)⟩

end VastVideo
